import Mathlib

/-! ftpii: virtual path resolver, command handlers and event processors

Shallow embedding of `source/vrt.c` and of the tokeniser, the command
handlers, the dispatcher and the event processors of `source/ftp.c`.

Conventions of the embedding.

* A C string is a `List Char`: the bytes before the terminating NUL.  The
  terminator is implicit, so the token read by a scanning loop is an
  `Option Char`, `none` standing for the terminating NUL (`!*token`).
* A string buffer that the code edits in place is the `List Char` it holds.
  Storing NUL at index `k` of a buffer whose string has at least `k`
  characters is `List.take k`; `strncat (buf, token, 1)` is `buf ++ [c]`.
* A pointer into a buffer is the `Nat` offset from its start.
* The lists carry no array bound.  Where the size of an array matters it is
  stated: `to_real_path` tests it, and for `cwd[PATH_MAX]`, which `vrt_chdir`
  fills without a test, it is the hypothesis `chdir_fits`.
* `malloc` is taken to succeed.
* `PATH_MAX` comes from the platform headers and is a parameter.
* Calls that leave the program (sockets, filesystem, clock) are recorded as a
  list of `Effect`; what they answer is given by the oracles of `Env`, which
  see the calls made before.  A handler returns an `Outcome`, an event
  processor a `Poll`, whose `client` is `none` once `cleanup_client` has freed
  the session.
* What a loop reads from a socket call by call (`net_read`,
  `net_accept_nonblocking`) is a list parameter; a list that is used up stands
  for the answer `-EAGAIN`.
* The server state is `server_t`, the static variables with the array
  `clients`; `Reachable` closes the initial state under the steps of `main`.
-/

namespace Ftpii

/-! ## vrt.c : virtual_abspath -/

/-- Local variables of the scanning loop of `virtual_abspath`: the output
buffer, the offset `curr_dir` into it, and the scanner state
(0 start, 1 slash, 2 dot, 3 dotdot). -/
structure Scan where
  normalised_path : List Char
  curr_dir : Nat
  state : Nat
deriving DecidableEq, Repr

/-- Offset of the last occurrence of `c` in `s` (C `strrchr` for a
non-NUL `c`); `none` is the NULL result. -/
def strrchr : List Char → Char → Option Nat
  | [], _ => none
  | x :: xs, c =>
    match strrchr xs c with
    | some i => some (i + 1)
    | none => if x = c then some 0 else none

/-- The `switch (state)` of the loop body of `virtual_abspath`, run on the
current token. -/
def scan_switch (s : Scan) (token : Option Char) : Scan :=
  match s.state with
  | 0 =>
    if token = some '/' then
      { normalised_path := s.normalised_path ++ ['/']
        curr_dir := s.normalised_path.length
        state := 1 }
    else s
  | 1 =>
    if token = some '.' then { s with state := 2 }
    else if token ≠ some '/' then { s with state := 0 }
    else s
  | 2 =>
    if token = some '/' ∨ token = none then
      { s with state := 1, normalised_path := s.normalised_path.take (s.curr_dir + 1) }
    else if token = some '.' then { s with state := 3 }
    else { s with state := 0 }
  | 3 =>
    if token = some '/' ∨ token = none then
      let cut := s.normalised_path.take s.curr_dir
      match strrchr cut '/' with
      | some prev_dir =>
        { state := 1, curr_dir := prev_dir, normalised_path := cut.take (prev_dir + 1) }
      | none =>
        { state := 1, curr_dir := s.curr_dir, normalised_path := cut ++ ['/'] }
    else { s with state := 0 }
  | _ => s

/-- The `while (1)` loop of `virtual_abspath` over the characters of `path`:
the switch, then the copy of the token unless it is a slash met outside
state 0; the terminating NUL runs the switch once more and leaves. -/
def scan_loop (s : Scan) : List Char → Scan
  | [] => scan_switch s none
  | c :: rest =>
    let s1 := scan_switch s (some c)
    let s2 :=
      if s1.state = 0 ∨ c ≠ '/' then
        { s1 with normalised_path := s1.normalised_path ++ [c] }
      else s1
    scan_loop s2 rest

/-- The closing loop of `virtual_abspath`:
`while (end > 1 && normalised_path[end - 1] == '/') normalised_path[--end] = 0`. -/
def strip_slashes (normalised_path : List Char) : Nat → List Char
  | e + 2 =>
    if normalised_path[e + 1]? = some '/' then strip_slashes normalised_path (e + 1)
    else normalised_path.take (e + 2)
  | e => normalised_path.take e

/-- Embedding of `virtual_abspath (virtual_cwd, virtual_path)`; `none` is the NULL
returned when the joined path would not fit in `PATH_MAX` bytes. -/
def virtual_abspath (PATH_MAX : Nat) (virtual_cwd virtual_path : List Char) :
    Option (List Char) :=
  let path : Option (List Char) :=
    if virtual_path.head? = some '/' then some virtual_path
    else if virtual_cwd.length + virtual_path.length + 1 > PATH_MAX then none
    else some (virtual_cwd ++ virtual_path)
  match path with
  | none => none
  | some path =>
    let s := scan_loop { normalised_path := [], curr_dir := 0, state := 0 } path
    some (strip_slashes s.normalised_path s.normalised_path.length)


/-! ## vrt.c : to_real_path -/

/-- Values of `errno` that the resolver sets itself, and `EOTHER n` for a
code reported by the underlying filesystem. -/
inductive Errno where
  | ENOENT
  | ENOMEM
  | ENODEV
  | ENOTDIR
  | EOTHER (code : Nat)
deriving DecidableEq, Repr

deriving instance DecidableEq for Except

/-- One row of the table `VIRTUAL_PARTITIONS` (fs.c): display name, virtual
alias, mount point, real mount prefix, and the two flags.  The trailing
underscores of `alias_` and `prefix_` avoid Lean keywords; the `disc` driver pointer is
left out. -/
structure VIRTUAL_PARTITION where
  name : List Char
  alias_ : List Char
  mount_point : List Char
  prefix_ : List Char
  inserted : Bool
  geckofail : Bool
deriving DecidableEq, Repr

/-- The table of fs.c, lines 40-43. -/
def VIRTUAL_PARTITIONS : List VIRTUAL_PARTITION :=
  [ { name := "SD Gecko A".toList, alias_ := "/carda".toList, mount_point := "carda".toList,
      prefix_ := "carda:/".toList, inserted := false, geckofail := false },
    { name := "SD Gecko B".toList, alias_ := "/cardb".toList, mount_point := "cardb".toList,
      prefix_ := "cardb:/".toList, inserted := false, geckofail := false } ]

/-- C `tolower` on ASCII. -/
def tolower (c : Char) : Char := c.toLower

/-- C `strcasecmp`: zero when the strings agree up to ASCII case, otherwise the
sign of the first difference. -/
def strcasecmp : List Char → List Char → Int
  | [], [] => 0
  | [], _ :: _ => -1
  | _ :: _, [] => 1
  | x :: xs, y :: ys =>
    if tolower x = tolower y then strcasecmp xs ys
    else if (tolower x).toNat < (tolower y).toNat then -1 else 1

/-- C `strncasecmp`: as `strcasecmp` on at most `n` leading characters. -/
def strncasecmp : List Char → List Char → Nat → Int
  | _, _, 0 => 0
  | [], [], _ + 1 => 0
  | [], _ :: _, _ + 1 => -1
  | _ :: _, [], _ + 1 => 1
  | x :: xs, y :: ys, n + 1 =>
    if tolower x = tolower y then strncasecmp xs ys n
    else if (tolower x).toNat < (tolower y).toNat then -1 else 1

/-- The `for` loop of `to_real_path` over the partition table: the mount
prefix of the first partition whose alias is the whole path or is followed by a
slash in it, with the `rest` pointer advanced past the alias and one slash. -/
def find_partition : List VIRTUAL_PARTITION → List Char → Option (List Char × List Char)
  | [], _ => none
  | partition :: more, virtual_path =>
    let alias_ := partition.alias_
    let alias_len := alias_.length
    if strcasecmp alias_ virtual_path = 0 ∨
        (strncasecmp alias_ virtual_path alias_len = 0 ∧
          virtual_path[alias_len]? = some '/') then
      let rest := virtual_path.drop alias_len
      let rest := if rest.head? = some '/' then rest.drop 1 else rest
      some (partition.prefix_, rest)
    else find_partition more virtual_path

/-- Embedding of `to_real_path`.  `.error e` is the NULL result with `errno = e`
(`errno` is set to `ENOENT` on entry); `.ok []` is the empty string that marks
the virtual root. -/
def to_real_path (PATH_MAX : Nat) (partitions : List VIRTUAL_PARTITION)
    (virtual_cwd virtual_path : List Char) : Except Errno (List Char) :=
  if ':' ∈ virtual_path then .error .ENOENT
  else
    match virtual_abspath PATH_MAX virtual_cwd virtual_path with
    | none => .error .ENOENT
    | some virtual_path =>
      if virtual_path = ['/'] then .ok []
      else
        match find_partition partitions virtual_path with
        | none => .error .ENODEV
        | some (prefix_, rest) =>
          if prefix_.length + rest.length + 1 > PATH_MAX then .error .ENOENT
          else .ok (prefix_ ++ rest)

/-- Embedding of `with_virtual_path`: resolve, and run `f` on the real path
unless the path is invalid or is the virtual root, in which case the `failed`
value is returned with the `errno` that `to_real_path` left. -/
def with_virtual_path {α : Type} (PATH_MAX : Nat) (partitions : List VIRTUAL_PARTITION)
    (virtual_cwd : List Char) (f : List Char → Except Errno α) (virtual_path : List Char) :
    Except Errno α :=
  match to_real_path PATH_MAX partitions virtual_cwd virtual_path with
  | .error e => .error e
  | .ok [] => .error .ENOENT
  | .ok (c :: cs) => f (c :: cs)

/-! ## vrt.c : stat, chdir -/

/-- The two fields of `struct stat` that the code reads or writes. -/
structure Stat where
  st_mode : Nat
  st_size : Nat
deriving DecidableEq, Repr

/-- Embedding of `vrt_stat`; `S_IFDIR` is the platform constant and `stat`
the underlying filesystem call on a real path. -/
def vrt_stat (PATH_MAX : Nat) (partitions : List VIRTUAL_PARTITION) (S_IFDIR : Nat)
    (stat : List Char → Except Errno Stat) (cwd path : List Char) : Except Errno Stat :=
  match to_real_path PATH_MAX partitions cwd path with
  | .error e => .error e
  | .ok [] => .ok { st_mode := S_IFDIR, st_size := 31337 }
  | .ok (_ :: _) => with_virtual_path PATH_MAX partitions cwd stat path

/-- Embedding of `vrt_chdir`: the result (`.ok ()` for 0, `.error e` for -1
with `errno = e`) and the contents of the `cwd` buffer afterwards.  The test
`cwd[1]` is made on the copied `abspath`; for the empty `abspath` the byte
lies behind the terminator and is read as NUL. -/
def vrt_chdir (PATH_MAX : Nat) (partitions : List VIRTUAL_PARTITION) (S_IFDIR : Nat)
    (stat : List Char → Except Errno Stat) (cwd path : List Char) :
    Except Errno Unit × List Char :=
  match vrt_stat PATH_MAX partitions S_IFDIR stat cwd path with
  | .error e => (.error e, cwd)
  | .ok st =>
    if st.st_mode &&& S_IFDIR = 0 then (.error .ENOTDIR, cwd)
    else
      match virtual_abspath PATH_MAX cwd path with
      | none => (.error .ENOMEM, cwd)
      | some abspath =>
        (.ok (), if abspath[1]?.isSome then abspath ++ ['/'] else abspath)

/-! ## vrt.c : opendir, readdir -/

/-- The fields of `struct dirent` that the code fills in. -/
structure dirent where
  d_type : Nat
  d_name : List Char
deriving DecidableEq, Repr

/-- A `DIR`: the `position` counter used for the virtual root, and the handle
of the underlying directory stream (absent in the zeroed fake `DIR`). -/
structure DIR (D : Type) where
  position : Nat
  handle : Option D
deriving DecidableEq, Repr

/-- The iterator `DIR_P` of vrt.h. -/
structure DIR_P (D : Type) where
  virt_root : Bool
  dir : DIR D
  path : List Char
deriving DecidableEq, Repr

/-- Embedding of `vrt_opendir`; `opendir` is the underlying call. -/
def vrt_opendir {D : Type} (PATH_MAX : Nat) (partitions : List VIRTUAL_PARTITION)
    (opendir : List Char → Except Errno D) (cwd path : List Char) : Option (DIR_P D) :=
  match to_real_path PATH_MAX partitions cwd path with
  | .error _ => none
  | .ok [] => some { virt_root := true, dir := { position := 0, handle := none }, path := [] }
  | .ok (c :: cs) =>
    match with_virtual_path PATH_MAX partitions cwd opendir path with
    | .error _ => none
    | .ok d => some { virt_root := false, dir := { position := 0, handle := some d },
                      path := c :: cs }

/-- The `for` loop of `vrt_readdir` from `position` on; the list argument is
the part of the table at and after `position`.  Returns the entry (or NULL)
and the new `position`. -/
def readdir_scan (DT_DIR : Nat) : List VIRTUAL_PARTITION → Nat → Option dirent × Nat
  | [], position => (none, position)
  | partition :: more, position =>
    if partition.inserted then
      (some { d_type := DT_DIR, d_name := partition.alias_.drop 1 }, position + 1)
    else readdir_scan DT_DIR more (position + 1)

/-- Embedding of `vrt_readdir` on a non-NULL iterator: the returned entry and
the iterator afterwards.  `readdir` is the underlying call. -/
def vrt_readdir {D : Type} (DT_DIR : Nat) (partitions : List VIRTUAL_PARTITION)
    (readdir : D → Option dirent × D) (pDir : DIR_P D) : Option dirent × DIR_P D :=
  if pDir.virt_root then
    let r := readdir_scan DT_DIR (partitions.drop pDir.dir.position) pDir.dir.position
    (r.1, { pDir with dir := { pDir.dir with position := r.2 } })
  else
    match pDir.dir.handle with
    | none => (none, pDir)
    | some d =>
      let r := readdir d
      (r.1, { pDir with dir := { pDir.dir with handle := some r.2 } })

/-- Results of `n` successive calls of `vrt_readdir` on one iterator. -/
def readdir_calls {D : Type} (DT_DIR : Nat) (partitions : List VIRTUAL_PARTITION)
    (readdir : D → Option dirent × D) : Nat → DIR_P D → List (Option dirent)
  | 0, _ => []
  | n + 1, pDir =>
    let r := vrt_readdir DT_DIR partitions readdir pDir
    r.1 :: readdir_calls DT_DIR partitions readdir n r.2

/-- Embedding of `vrt_mkdir`; `mkdir` is the underlying call with the mode
argument already applied. -/
def vrt_mkdir {α : Type} (PATH_MAX : Nat) (partitions : List VIRTUAL_PARTITION)
    (mkdir : List Char → Except Errno α) (cwd path : List Char) : Except Errno α :=
  with_virtual_path PATH_MAX partitions cwd mkdir path

/-! ## ftp.c : split -/

/-- Local variables of `split`, with the caller's `result` array. -/
structure SplitState where
  result : List (List Char)
  num_results : Nat
  result_pos : Nat
  trim_pos : Nat
  in_word : Bool
deriving DecidableEq, Repr

/-- One pass of the body of the `for (; *s; s++)` loop of `split` on the
character `c`.  The two stores `result[num_results - 1][result_pos++] = c` and
`result[num_results - 1][result_pos] = 0` leave the string
`take result_pos buffer ++ [c]` in the buffer. -/
def split_step (sep : Char) (maxsplit : Nat) (st : SplitState) (c : Char) : SplitState :=
  if c = sep ∧ st.num_results ≤ maxsplit then { st with in_word := false }
  else
    let st1 : SplitState :=
      if c = sep then
        if st.trim_pos = 0 then { st with trim_pos := st.result_pos } else st
      else if st.trim_pos ≠ 0 then { st with trim_pos := 0 }
      else st
    let st2 : SplitState :=
      if st1.in_word = false then
        if st1.num_results ≤ maxsplit then
          { st1 with in_word := true, num_results := st1.num_results + 1, result_pos := 0 }
        else { st1 with in_word := true }
      else st1
    let i := st2.num_results - 1
    { st2 with
      result := st2.result.set i ((st2.result.getD i []).take st2.result_pos ++ [c])
      result_pos := st2.result_pos + 1 }

/-- The loop `for (i = num_results; i <= maxsplit; i++) result[i][0] = 0`,
with `n` the number of passes left. -/
def split_clear (result : List (List Char)) (i : Nat) : Nat → List (List Char)
  | 0 => result
  | n + 1 => split_clear (result.set i []) (i + 1) n

/-- Embedding of `split (s, sep, maxsplit, result)`: the returned count and the
strings left in the `result` array, whose initial contents are arbitrary. -/
def split (s : List Char) (sep : Char) (maxsplit : Nat) (result : List (List Char)) :
    Nat × List (List Char) :=
  let st := s.foldl (split_step sep maxsplit)
    { result := result, num_results := 0, result_pos := 0, trim_pos := 0, in_word := false }
  let result1 :=
    if st.trim_pos ≠ 0 then
      st.result.set (st.num_results - 1)
        ((st.result.getD (st.num_results - 1) []).take st.trim_pos)
    else st.result
  (st.num_results, split_clear result1 st.num_results (maxsplit + 1 - st.num_results))

/-! ## ftp.c : the session and the handlers that touch the working directory -/

/-- The transfer strategies a session can bind as `data_callback`. -/
inductive data_connection_callback where
  | send_nlst
  | send_list
  | send_from_file
  | recv_to_file
deriving DecidableEq, Repr

/-- The cleanup routines a session can register as `data_connection_cleanup`. -/
inductive data_connection_cleanup where
  | vrt_closedir
  | fclose
deriving DecidableEq, Repr

/-- What a session can hold as `data_connection_callback_arg`: the directory
iterator opened by `vrt_opendir`, or the `FILE` opened by `vrt_fopen` (a
handle of the underlying library). -/
inductive callback_arg where
  | dir (iter : DIR_P Nat)
  | file (f : Nat)
deriving DecidableEq, Repr

/-- The fields of `struct client_struct`.  Sockets are descriptors, the
callback argument is the open directory iterator or file. -/
structure client_t where
  socket : Int
  representation_type : Char
  passive_socket : Int
  data_socket : Int
  cwd : List Char
  pending_rename : List Char
  restart_marker : Int
  address : Nat × Nat
  authenticated : Bool
  buf : List Char
  offset : Int
  data_connection_connected : Bool
  data_callback : Option data_connection_callback
  data_connection_callback_arg : Option callback_arg
  data_connection_cleanup : Option data_connection_cleanup
  data_connection_timer : Nat
deriving DecidableEq, Repr

/-- The session that `process_accept_events` sets up for an accepted `peer`
(ftp.c, lines 723-737). -/
def accept_client (peer : Int) (client_address : Nat × Nat) : client_t :=
  { socket := peer
    representation_type := 'A'
    passive_socket := -1
    data_socket := -1
    cwd := ['/']
    pending_rename := []
    restart_marker := 0
    address := client_address
    authenticated := false
    buf := []
    offset := 0
    data_connection_connected := false
    data_callback := none
    data_connection_callback_arg := none
    data_connection_cleanup := none
    data_connection_timer := 0 }

/-- A reply line handed to `write_reply`. -/
structure Reply where
  code : Nat
  msg : List Char
deriving DecidableEq, Repr

/-- Embedding of `close_passive_socket`. -/
def close_passive_socket (client : client_t) : client_t :=
  if client.passive_socket ≥ 0 then { client with passive_socket := -1 } else client

/-- Embedding of `ftp_CWD`: the session afterwards and the reply written.
`strerror` is the C library's message for an `errno`. -/
def ftp_CWD (PATH_MAX : Nat) (partitions : List VIRTUAL_PARTITION) (S_IFDIR : Nat)
    (stat : List Char → Except Errno Stat) (strerror : Errno → List Char)
    (client : client_t) (path : List Char) : client_t × Reply :=
  let r := vrt_chdir PATH_MAX partitions S_IFDIR stat client.cwd path
  match r.1 with
  | .ok _ => ({ client with cwd := r.2 }, ⟨250, "CWD command successful.".toList⟩)
  | .error e => ({ client with cwd := r.2 }, ⟨550, strerror e⟩)

/-- Embedding of `ftp_CDUP`. -/
def ftp_CDUP (PATH_MAX : Nat) (partitions : List VIRTUAL_PARTITION) (S_IFDIR : Nat)
    (stat : List Char → Except Errno Stat) (strerror : Errno → List Char)
    (client : client_t) : client_t × Reply :=
  let r := vrt_chdir PATH_MAX partitions S_IFDIR stat client.cwd ['.', '.']
  match r.1 with
  | .ok _ => ({ client with cwd := r.2 }, ⟨250, "CDUP command successful.".toList⟩)
  | .error e => ({ client with cwd := r.2 }, ⟨550, strerror e⟩)

/-- Embedding of `ftp_MKD`.  `stat` answers for the filesystem as `mkdir`
left it; the `vrt_chdir` call works on the local copy `abspath` of the cwd. -/
def ftp_MKD (PATH_MAX : Nat) (partitions : List VIRTUAL_PARTITION) (S_IFDIR : Nat)
    (mkdir : List Char → Except Errno Unit) (stat : List Char → Except Errno Stat)
    (strerror : Errno → List Char) (client : client_t) (path : List Char) :
    client_t × Reply :=
  if path = [] then (client, ⟨501, "Syntax error in parameters.".toList⟩)
  else
    match vrt_mkdir PATH_MAX partitions mkdir client.cwd path with
    | .ok _ =>
      let abspath := (vrt_chdir PATH_MAX partitions S_IFDIR stat client.cwd path).2
      (client, ⟨257, ['"'] ++ abspath ++ "\" directory created.".toList⟩)
    | .error e => (client, ⟨550, strerror e⟩)

/-- Embedding of `ftp_REIN`. -/
def ftp_REIN (client : client_t) : client_t × Reply :=
  ({ close_passive_socket client with
      cwd := ['/'], representation_type := 'A', authenticated := false },
    ⟨220, "Service ready for new user.".toList⟩)

/-! ## vrt.c : unlink, rename, fopen -/

/-- Embedding of `vrt_unlink`; `unlink` is the underlying call. -/
def vrt_unlink {α : Type} (PATH_MAX : Nat) (partitions : List VIRTUAL_PARTITION)
    (unlink : List Char → Except Errno α) (cwd path : List Char) : Except Errno α :=
  with_virtual_path PATH_MAX partitions cwd unlink path

/-- Embedding of `vrt_rename`; `rename` is the underlying call on two real
paths.  The destination is resolved first; a destination that is invalid or is
the virtual root gives -1 with the `errno` of `to_real_path`. -/
def vrt_rename {α : Type} (PATH_MAX : Nat) (partitions : List VIRTUAL_PARTITION)
    (rename : List Char → List Char → Except Errno α) (cwd from_path to_path : List Char) :
    Except Errno α :=
  match to_real_path PATH_MAX partitions cwd to_path with
  | .error e => .error e
  | .ok [] => .error .ENOENT
  | .ok (c :: cs) =>
    with_virtual_path PATH_MAX partitions cwd (fun real_from => rename real_from (c :: cs))
      from_path

/-- Embedding of `vrt_fopen`; `fopen` is the underlying call with the mode
argument already applied, `.error` standing for the NULL result. -/
def vrt_fopen {α : Type} (PATH_MAX : Nat) (partitions : List VIRTUAL_PARTITION)
    (fopen : List Char → Except Errno α) (cwd path : List Char) : Except Errno α :=
  with_virtual_path PATH_MAX partitions cwd fopen path

/-! ## Calls to the outside -/

/-- A call that leaves the program: a reply line sent on a control socket
(`write_reply`, which formats `code msg CRLF` and hands it to `send_exact`), a
socket operation, a call of the underlying filesystem, the run of a bound
transfer strategy or of a registered cleanup routine, and the calls into the
reset, console and mount modules.  Console logging through `printf` is not
recorded. -/
inductive Effect where
  | reply (socket : Int) (code : Nat) (msg : List Char)
  | net_close_blocking (socket : Int)
  | net_close (socket : Int)
  | net_socket
  | set_blocking (socket : Int) (blocking : Bool)
  | net_bind (socket : Int) (port : Nat)
  | net_listen (socket : Int) (backlog : Nat)
  | net_accept_nonblocking (socket : Int)
  | net_connect (socket : Int) (address : Nat × Nat)
  | net_read (socket : Int) (size : Int)
  | stat (path : List Char)
  | unlink (path : List Char)
  | mkdir (path : List Char) (mode : Nat)
  | rename (from_path to_path : List Char)
  | fopen (path : List Char) (mode : List Char)
  | opendir (path : List Char)
  | lseek (file : Nat) (offset : Int)
  | data_callback (callback : data_connection_callback) (data_socket : Int)
      (arg : Option callback_arg)
  | cleanup (routine : data_connection_cleanup) (arg : Option callback_arg)
  | set_reset_flag
  | clear_console
  | mount_virtual (dir : List Char)
  | unmount_virtual (dir : List Char)
deriving DecidableEq, Repr

/-- An underlying filesystem function instrumented to record each of its
invocations: it returns what `f` returns together with the call made. -/
def recorded {α : Type} (call : List Char → Effect) (f : List Char → Except Errno α) :
    List Char → Except Errno (Except Errno α × List Effect) :=
  fun path => .ok (f path, [call path])

/-- The same for the two-argument `rename`. -/
def recorded2 {α : Type} (call : List Char → List Char → Effect)
    (f : List Char → List Char → Except Errno α) :
    List Char → List Char → Except Errno (Except Errno α × List Effect) :=
  fun from_path to_path => .ok (f from_path to_path, [call from_path to_path])

/-- Result and recorded calls of a resolver function run on an instrumented
function: a failure before the underlying function is reached has no call. -/
def observed {α : Type} : Except Errno (Except Errno α × List Effect) →
    Except Errno α × List Effect
  | .ok r => r
  | .error e => (.error e, [])

/-! ## ftp.c : static variables, the outside world, handler results -/

/-- The static variables `num_clients`, `passive_port` and `password` of ftp.c;
`password = none` is the NULL pointer. -/
structure ftp_globals where
  num_clients : Nat
  passive_port : Nat
  password : Option (List Char)
deriving DecidableEq, Repr

/-- The outside world as the handlers see it.  Every answer may depend on the
calls made so far (the first argument, the history of effects).  `ret` is the
integer returned by a socket call, by `send_exact` inside `write_reply`, or by a
transfer strategy; the filesystem calls answer with their result or the `errno`
they set; `lseek` answers with the offset it returns and the `errno` left;
`sscanf_lli` is the C library's `sscanf (s, "%lli", &offset)`; the error numbers
and `secs_to_ticks` come from the platform headers. -/
structure Env where
  PATH_MAX : Nat
  S_IFDIR : Nat
  partitions : List VIRTUAL_PARTITION
  strerror : Errno → List Char
  ret : List Effect → Effect → Int
  stat : List Effect → List Char → Except Errno Stat
  unlink : List Effect → List Char → Except Errno Unit
  mkdir : List Effect → List Char → Except Errno Unit
  rename : List Effect → List Char → List Char → Except Errno Unit
  fopen : List Effect → List Char → List Char → Except Errno Nat
  opendir : List Effect → List Char → Except Errno Nat
  lseek : List Effect → Nat → Int → Int × Errno
  gettime : List Effect → Nat
  net_gethostip : List Effect → Nat
  mount_virtual : List Effect → List Char → Bool
  unmount_virtual : List Effect → List Char → Bool
  sscanf_lli : List Char → Option Int
  EAGAIN : Int
  EINPROGRESS : Int
  EALREADY : Int
  EISCONN : Int
  secs_to_ticks : Nat → Nat

/-- What a command handler leaves behind: the session, the static variables,
the calls it made in order, and its return value. -/
structure Outcome where
  client : client_t
  globals : ftp_globals
  effects : List Effect
  result : Int
deriving DecidableEq, Repr

/-- `static const s32 EQUIT = 696969`. -/
def EQUIT : Int := 696969

/-- `#define FTP_BUFFER_SIZE 1024`. -/
def FTP_BUFFER_SIZE : Nat := 1024

/-- `#define MAX_CLIENTS 5`. -/
def MAX_CLIENTS : Nat := 5

/-- `static const u16 SRC_PORT = 20`. -/
def SRC_PORT : Nat := 20

/-- A handler that ends in `return write_reply (client, code, msg)` after the
calls `pre`: the reply is sent on the control socket and the answer of
`send_exact` is the handler's result.  `h` is the history before the
handler. -/
def write_reply (env : Env) (h : List Effect) (globals : ftp_globals) (client : client_t)
    (pre : List Effect) (code : Nat) (msg : List Char) : Outcome :=
  { client := client
    globals := globals
    effects := pre ++ [.reply client.socket code msg]
    result := env.ret (h ++ pre) (.reply client.socket code msg) }

/-- The calls made by `close_passive_socket`. -/
def close_passive_socket_calls (client : client_t) : List Effect :=
  if client.passive_socket ≥ 0 then [.net_close_blocking client.passive_socket] else []

/-- The calls of an underlying function `call` that a resolver function makes
for `path`: those `with_virtual_path` makes, which is the only way `vrt_stat`
and `vrt_opendir` reach `stat` and `opendir`. -/
def underlying_calls (env : Env) (call : List Char → Effect) (cwd path : List Char) :
    List Effect :=
  (observed (with_virtual_path env.PATH_MAX env.partitions cwd
    (recorded call (fun _ => (.ok () : Except Errno Unit))) path)).2

/-- Embedding of `set_ftp_password`. -/
def set_ftp_password (globals : ftp_globals) (new_password : Option (List Char)) :
    ftp_globals :=
  { globals with password := new_password }

/-- Embedding of `compare_ftp_password`: `!password || !strcmp (password, attempt)`. -/
def compare_ftp_password (globals : ftp_globals) (password_attempt : List Char) : Bool :=
  match globals.password with
  | none => true
  | some password => password == password_attempt

/-! ## ftp.c : the command handlers -/

/-- Embedding of `ftp_USER`. -/
def ftp_USER (env : Env) (h : List Effect) (globals : ftp_globals) (client : client_t)
    (_username : List Char) : Outcome :=
  write_reply env h globals client [] 331 "User name okay, need password.".toList

/-- Embedding of `ftp_PASS`. -/
def ftp_PASS (env : Env) (h : List Effect) (globals : ftp_globals) (client : client_t)
    (password_attempt : List Char) : Outcome :=
  if compare_ftp_password globals password_attempt then
    write_reply env h globals { client with authenticated := true } [] 230
      "User logged in, proceed.".toList
  else write_reply env h globals client [] 530 "Login incorrect.".toList

/-- The handler `ftp_REIN` with its calls: `ftp_REIN` gives the session and the
reply, `close_passive_socket` the call before it. -/
def ftp_REIN_handler (env : Env) (h : List Effect) (globals : ftp_globals)
    (client : client_t) (_rest : List Char) : Outcome :=
  write_reply env h globals (ftp_REIN client).1 (close_passive_socket_calls client)
    (ftp_REIN client).2.code (ftp_REIN client).2.msg

/-- Embedding of `ftp_QUIT`. -/
def ftp_QUIT (env : Env) (h : List Effect) (globals : ftp_globals) (client : client_t)
    (_rest : List Char) : Outcome :=
  let o := write_reply env h globals client [] 221
    "Service closing control connection.".toList
  { o with result := if o.result < 0 then o.result else -EQUIT }

/-- Embedding of `ftp_SYST`. -/
def ftp_SYST (env : Env) (h : List Effect) (globals : ftp_globals) (client : client_t)
    (_rest : List Char) : Outcome :=
  write_reply env h globals client [] 215 "UNIX Type: L8 Version: ftpii".toList

/-- Embedding of `ftp_TYPE`. -/
def ftp_TYPE (env : Env) (h : List Effect) (globals : ftp_globals) (client : client_t)
    (rest : List Char) : Outcome :=
  let args := split rest ' ' 1 [[], []]
  let num_args := args.1
  let representation_type := args.2.getD 0 []
  let param := args.2.getD 1 []
  if num_args = 0 then
    write_reply env h globals client [] 501 "Syntax error in parameters.".toList
  else if (strcasecmp ['A'] representation_type = 0 ∧
        (param = [] ∨ strcasecmp ['N'] param = 0)) ∨
      (strcasecmp ['I'] representation_type = 0 ∧ num_args = 1) then
    write_reply env h globals
      { client with representation_type := representation_type.headD (Char.ofNat 0) } [] 200
      ("Type set to ".toList ++ representation_type ++ ['.'])
  else write_reply env h globals client [] 501 "Syntax error in parameters.".toList

/-- Embedding of `ftp_MODE`. -/
def ftp_MODE (env : Env) (h : List Effect) (globals : ftp_globals) (client : client_t)
    (rest : List Char) : Outcome :=
  if strcasecmp ['S'] rest = 0 then
    write_reply env h globals client [] 200 "Mode S ok.".toList
  else write_reply env h globals client [] 501 "Syntax error in parameters.".toList

/-- Embedding of `ftp_PWD`. -/
def ftp_PWD (env : Env) (h : List Effect) (globals : ftp_globals) (client : client_t)
    (_rest : List Char) : Outcome :=
  write_reply env h globals client [] 257
    (['"'] ++ client.cwd ++ "\" is current directory.".toList)

/-- The handler `ftp_CWD` with its calls: `ftp_CWD` gives the session and the
reply, the `stat` that `vrt_chdir` reaches comes before the reply. -/
def ftp_CWD_handler (env : Env) (h : List Effect) (globals : ftp_globals)
    (client : client_t) (path : List Char) : Outcome :=
  let r := ftp_CWD env.PATH_MAX env.partitions env.S_IFDIR (env.stat h) env.strerror client path
  write_reply env h globals r.1 (underlying_calls env .stat client.cwd path) r.2.code r.2.msg

/-- The handler `ftp_CDUP` with its calls. -/
def ftp_CDUP_handler (env : Env) (h : List Effect) (globals : ftp_globals)
    (client : client_t) (_rest : List Char) : Outcome :=
  let r := ftp_CDUP env.PATH_MAX env.partitions env.S_IFDIR (env.stat h) env.strerror client
  write_reply env h globals r.1 (underlying_calls env .stat client.cwd ['.', '.'])
    r.2.code r.2.msg

/-- Embedding of `ftp_DELE`. -/
def ftp_DELE (env : Env) (h : List Effect) (globals : ftp_globals) (client : client_t)
    (path : List Char) : Outcome :=
  let r := observed (vrt_unlink env.PATH_MAX env.partitions
    (recorded .unlink (env.unlink h)) client.cwd path)
  match r.1 with
  | .ok _ => write_reply env h globals client r.2 250 "File or directory removed.".toList
  | .error e => write_reply env h globals client r.2 550 (env.strerror e)

/-- The handler `ftp_MKD` with its calls: `ftp_MKD` gives the session and the
reply; `mkdir` (mode 0777) is reached through `vrt_mkdir`, and after a
successful `mkdir` the `stat` of `vrt_chdir` follows. -/
def ftp_MKD_handler (env : Env) (h : List Effect) (globals : ftp_globals)
    (client : client_t) (path : List Char) : Outcome :=
  let made := observed (vrt_mkdir env.PATH_MAX env.partitions
    (recorded (fun p => .mkdir p 511) (env.mkdir h)) client.cwd path)
  let calls :=
    if path = [] then []
    else
      match made.1 with
      | .ok _ => made.2 ++ underlying_calls env .stat client.cwd path
      | .error _ => made.2
  let r := ftp_MKD env.PATH_MAX env.partitions env.S_IFDIR (env.mkdir h)
    (env.stat (h ++ made.2)) env.strerror client path
  write_reply env h globals r.1 calls r.2.code r.2.msg

/-- Embedding of `ftp_RNFR`. -/
def ftp_RNFR (env : Env) (h : List Effect) (globals : ftp_globals) (client : client_t)
    (path : List Char) : Outcome :=
  write_reply env h globals { client with pending_rename := path } [] 350
    "Ready for RNTO.".toList

/-- Embedding of `ftp_RNTO`. -/
def ftp_RNTO (env : Env) (h : List Effect) (globals : ftp_globals) (client : client_t)
    (path : List Char) : Outcome :=
  if client.pending_rename = [] then
    write_reply env h globals client [] 503 "RNFR required first.".toList
  else
    let r := observed (vrt_rename env.PATH_MAX env.partitions
      (recorded2 .rename (env.rename h)) client.cwd client.pending_rename path)
    match r.1 with
    | .ok _ =>
      write_reply env h globals { client with pending_rename := [] } r.2 250
        "Rename successful.".toList
    | .error e =>
      write_reply env h globals { client with pending_rename := [] } r.2 550 (env.strerror e)

/-- Embedding of `ftp_SIZE`. -/
def ftp_SIZE (env : Env) (h : List Effect) (globals : ftp_globals) (client : client_t)
    (path : List Char) : Outcome :=
  match vrt_stat env.PATH_MAX env.partitions env.S_IFDIR (env.stat h) client.cwd path with
  | .ok st =>
    write_reply env h globals client (underlying_calls env .stat client.cwd path) 213
      (Nat.repr st.st_size).toList
  | .error e =>
    write_reply env h globals client (underlying_calls env .stat client.cwd path) 550
      (env.strerror e)

/-- Embedding of `ftp_PASV`.  The port bound is the value of `passive_port`
before its increment, the counter being a `u16`; `htons` is the identity on
this big-endian machine. -/
def ftp_PASV (env : Env) (h : List Effect) (globals : ftp_globals) (client : client_t)
    (_rest : List Char) : Outcome :=
  let e0 := close_passive_socket_calls client
  let passive_socket := env.ret (h ++ e0) .net_socket
  let client1 := { client with passive_socket := passive_socket }
  let e1 := e0 ++ [.net_socket]
  if passive_socket < 0 then
    write_reply env h globals client1 e1 520 "Unable to create listening socket.".toList
  else
    let e2 := e1 ++ [.set_blocking passive_socket false]
    let port := globals.passive_port
    let globals1 := { globals with passive_port := (globals.passive_port + 1) % 65536 }
    let bound := env.ret (h ++ e2) (.net_bind passive_socket port)
    let e3 := e2 ++ [.net_bind passive_socket port]
    if bound < 0 then
      write_reply env h globals1 (close_passive_socket client1)
        (e3 ++ close_passive_socket_calls client1) 520
        "Unable to bind listening socket.".toList
    else
      let listening := env.ret (h ++ e3) (.net_listen passive_socket 1)
      let e4 := e3 ++ [.net_listen passive_socket 1]
      if listening < 0 then
        write_reply env h globals1 (close_passive_socket client1)
          (e4 ++ close_passive_socket_calls client1) 520
          "Unable to listen on socket.".toList
      else
        let ip := env.net_gethostip (h ++ e4)
        write_reply env h globals1 client1 e4 227
          ("Entering Passive Mode (".toList ++
            (Nat.repr ((ip >>> 24) &&& 255)).toList ++ [','] ++
            (Nat.repr ((ip >>> 16) &&& 255)).toList ++ [','] ++
            (Nat.repr ((ip >>> 8) &&& 255)).toList ++ [','] ++
            (Nat.repr (ip &&& 255)).toList ++ [','] ++
            (Nat.repr ((port >>> 8) &&& 255)).toList ++ [','] ++
            (Nat.repr (port &&& 255)).toList ++ ").".toList)

/-- C `isspace` in the C locale. -/
def isspace (c : Char) : Bool := c == ' ' || (decide (9 ≤ c.toNat) && decide (c.toNat ≤ 13))

/-- The longest run of at most `width` leading decimal digits, and what
follows it. -/
def scan_digits : Nat → List Char → List Char × List Char
  | 0, s => ([], s)
  | _ + 1, [] => ([], [])
  | width + 1, c :: s =>
    if c.isDigit then ((scan_digits width s).1.cons c, (scan_digits width s).2)
    else ([], c :: s)

/-- Value of a string of decimal digits. -/
def decimal_value (digits : List Char) : Nat :=
  digits.foldl (fun acc c => acc * 10 + (c.toNat - 48)) 0

/-- The conversion `%3u` of `sscanf` (for `width = 3`): leading white space is
skipped, an optional sign counts in the width, at least one digit is needed, and
a negative value wraps around as an `unsigned`.  Returns the value stored and
the input left, or `none` on a matching failure. -/
def scan_unsigned (width : Nat) (s : List Char) : Option (Nat × List Char) :=
  match s.dropWhile isspace with
  | '-' :: t =>
    let r := scan_digits (width - 1) t
    if r.1 = [] then none else some ((4294967296 - decimal_value r.1) % 4294967296, r.2)
  | '+' :: t =>
    let r := scan_digits (width - 1) t
    if r.1 = [] then none else some (decimal_value r.1, r.2)
  | t =>
    let r := scan_digits width t
    if r.1 = [] then none else some (decimal_value r.1, r.2)

/-- `sscanf (s, "%3u,%3u,...,%3u", ...)` with `n` conversions separated by
commas: the values stored, in order; their number is what `sscanf` returns. -/
def sscanf_3u : Nat → List Char → List Nat
  | 0, _ => []
  | n + 1, s =>
    match scan_unsigned 3 s with
    | none => []
    | some (value, rest) =>
      if n = 0 then [value]
      else
        match rest with
        | ',' :: rest1 => value :: sscanf_3u n rest1
        | _ => [value]

/-- `inet_aton` on the string printed by `sprintf (addr_str, "%u.%u.%u.%u", h1,
h2, h3, h4)`: the four decimal parts must each fit in a byte; the address is
returned in network order, most significant byte first. -/
def inet_aton_dotted (h1 h2 h3 h4 : Nat) : Option Nat :=
  if h1 ≤ 255 ∧ h2 ≤ 255 ∧ h3 ≤ 255 ∧ h4 ≤ 255 then
    some ((h1 <<< 24) ||| (h2 <<< 16) ||| (h3 <<< 8) ||| h4)
  else none

/-- Embedding of `ftp_PORT`.  `client.address` holds `sin_addr` and `sin_port`;
`htons` is the identity on this big-endian machine. -/
def ftp_PORT (env : Env) (h : List Effect) (globals : ftp_globals) (client : client_t)
    (portspec : List Char) : Outcome :=
  match sscanf_3u 6 portspec with
  | [h1, h2, h3, h4, p1, p2] =>
    match inet_aton_dotted h1 h2 h3 h4 with
    | none => write_reply env h globals client [] 501 "Syntax error in parameters.".toList
    | some sin_addr =>
      let port := ((p1 &&& 255) <<< 8) ||| (p2 &&& 255)
      write_reply env h globals
        { close_passive_socket client with address := (sin_addr, port) }
        (close_passive_socket_calls client) 200 "PORT command successful.".toList
  | _ => write_reply env h globals client [] 501 "Syntax error in parameters.".toList

/-- Embedding of `ftp_REST`. -/
def ftp_REST (env : Env) (h : List Effect) (globals : ftp_globals) (client : client_t)
    (offset_str : List Char) : Outcome :=
  match env.sscanf_lli offset_str with
  | none => write_reply env h globals client [] 501 "Syntax error in parameters.".toList
  | some offset =>
    if offset < 0 then
      write_reply env h globals client [] 501 "Syntax error in parameters.".toList
    else
      write_reply env h globals { client with restart_marker := offset } [] 350
        ("Restart position accepted (".toList ++ (toString offset).toList ++ ").".toList)

/-- Embedding of `prepare_data_connection` (with `prepare_data_connection_active`
and `prepare_data_connection_passive`), run after the calls `pre` of the
handler. -/
def prepare_data_connection (env : Env) (h : List Effect) (globals : ftp_globals)
    (client : client_t) (pre : List Effect) (callback : data_connection_callback)
    (arg : callback_arg) (cleanup : data_connection_cleanup) : Outcome :=
  let announce := write_reply env h globals client pre 150 "Transferring data.".toList
  if announce.result ≥ 0 then
    let bind_client (c : client_t) (e : List Effect) : Outcome :=
      { client :=
          { c with
            data_connection_connected := false
            data_callback := some callback
            data_connection_callback_arg := some arg
            data_connection_cleanup := some cleanup
            data_connection_timer := env.gettime (h ++ e) + env.secs_to_ticks 30 }
        globals := globals
        effects := e
        result := 0 }
    if client.passive_socket ≥ 0 then
      bind_client { client with data_socket := client.passive_socket } announce.effects
    else
      let data_socket := env.ret (h ++ announce.effects) .net_socket
      let e1 := announce.effects ++ [.net_socket]
      if data_socket < 0 then
        write_reply env h globals client e1 520
          "Closing data connection, error occurred during transfer.".toList
      else
        let e2 := e1 ++ [.set_blocking data_socket false]
        let bound := env.ret (h ++ e2) (.net_bind data_socket SRC_PORT)
        let e3 := e2 ++ [.net_bind data_socket SRC_PORT]
        if bound < 0 then
          write_reply env h globals client (e3 ++ [.net_close data_socket]) 520
            "Closing data connection, error occurred during transfer.".toList
        else bind_client { client with data_socket := data_socket } e3
  else announce

/-- The closing lines shared by the transfer handlers:
`result = prepare_data_connection (...); if (result < 0) cleanup (arg); return result;`. -/
def prepare_or_release (env : Env) (h : List Effect) (globals : ftp_globals)
    (client : client_t) (pre : List Effect) (callback : data_connection_callback)
    (arg : callback_arg) (cleanup : data_connection_cleanup) : Outcome :=
  let o := prepare_data_connection env h globals client pre callback arg cleanup
  if o.result < 0 then { o with effects := o.effects ++ [.cleanup cleanup (some arg)] } else o

/-- The `errno` left by a `vrt_opendir` that returned NULL: that of
`to_real_path` or that of the underlying `opendir`. -/
def vrt_opendir_errno (env : Env) (h : List Effect) (cwd path : List Char) : Errno :=
  match with_virtual_path env.PATH_MAX env.partitions cwd (env.opendir h) path with
  | .error e => e
  | .ok _ => .ENOENT

/-- The body shared by `ftp_NLST` and `ftp_LIST` once the path is chosen. -/
def list_directory (env : Env) (h : List Effect) (globals : ftp_globals) (client : client_t)
    (path : List Char) (callback : data_connection_callback) : Outcome :=
  let path := if path = [] then ['.'] else path
  let opened := underlying_calls env .opendir client.cwd path
  match vrt_opendir env.PATH_MAX env.partitions (env.opendir h) client.cwd path with
  | none =>
    write_reply env h globals client opened 550
      (env.strerror (vrt_opendir_errno env h client.cwd path))
  | some dir =>
    prepare_or_release env h globals client opened callback (.dir dir) .vrt_closedir

/-- Embedding of `ftp_NLST`. -/
def ftp_NLST (env : Env) (h : List Effect) (globals : ftp_globals) (client : client_t)
    (path : List Char) : Outcome :=
  list_directory env h globals client path .send_nlst

/-- Embedding of `ftp_LIST`: a leading flag token such as `-a` is split off. -/
def ftp_LIST (env : Env) (h : List Effect) (globals : ftp_globals) (client : client_t)
    (path : List Char) : Outcome :=
  let path :=
    if path.head? = some '-' then (split path ' ' 1 [[], []]).2.getD 1 [] else path
  list_directory env h globals client path .send_list

/-- Embedding of `ftp_RETR`. -/
def ftp_RETR (env : Env) (h : List Effect) (globals : ftp_globals) (client : client_t)
    (path : List Char) : Outcome :=
  let f := observed (vrt_fopen env.PATH_MAX env.partitions
    (recorded (fun p => .fopen p ['r', 'b']) (fun p => env.fopen h p ['r', 'b']))
    client.cwd path)
  match f.1 with
  | .error e => write_reply env h globals client f.2 550 (env.strerror e)
  | .ok file =>
    if client.restart_marker ≠ 0 ∧
        (env.lseek (h ++ f.2) file client.restart_marker).1 ≠ client.restart_marker then
      write_reply env h globals { client with restart_marker := 0 }
        (f.2 ++ [.lseek file client.restart_marker, .cleanup .fclose (some (.file file))])
        550 (env.strerror (env.lseek (h ++ f.2) file client.restart_marker).2)
    else
      prepare_or_release env h globals { client with restart_marker := 0 }
        (f.2 ++ if client.restart_marker ≠ 0 then [.lseek file client.restart_marker] else [])
        .send_from_file (.file file) .fclose

/-- Embedding of `stor_or_append`, with the calls `pre` made to open `f`. -/
def stor_or_append (env : Env) (h : List Effect) (globals : ftp_globals) (client : client_t)
    (pre : List Effect) (f : Except Errno Nat) : Outcome :=
  match f with
  | .error e => write_reply env h globals client pre 550 (env.strerror e)
  | .ok file => prepare_or_release env h globals client pre .recv_to_file (.file file) .fclose

/-- Embedding of `ftp_STOR`. -/
def ftp_STOR (env : Env) (h : List Effect) (globals : ftp_globals) (client : client_t)
    (path : List Char) : Outcome :=
  let f := observed (vrt_fopen env.PATH_MAX env.partitions
    (recorded (fun p => .fopen p ['w', 'b']) (fun p => env.fopen h p ['w', 'b']))
    client.cwd path)
  match f.1 with
  | .ok file =>
    if client.restart_marker ≠ 0 ∧
        (env.lseek (h ++ f.2) file client.restart_marker).1 ≠ client.restart_marker then
      write_reply env h globals { client with restart_marker := 0 }
        (f.2 ++ [.lseek file client.restart_marker, .cleanup .fclose (some (.file file))])
        550 (env.strerror (env.lseek (h ++ f.2) file client.restart_marker).2)
    else
      stor_or_append env h globals { client with restart_marker := 0 }
        (f.2 ++ if client.restart_marker ≠ 0 then [.lseek file client.restart_marker] else [])
        f.1
  | .error _ => stor_or_append env h globals { client with restart_marker := 0 } f.2 f.1

/-- Embedding of `ftp_APPE`. -/
def ftp_APPE (env : Env) (h : List Effect) (globals : ftp_globals) (client : client_t)
    (path : List Char) : Outcome :=
  let f := observed (vrt_fopen env.PATH_MAX env.partitions
    (recorded (fun p => .fopen p ['a', 'b']) (fun p => env.fopen h p ['a', 'b']))
    client.cwd path)
  stor_or_append env h globals client f.2 f.1

/-- Embedding of `ftp_SITE_LOADER`. -/
def ftp_SITE_LOADER (env : Env) (h : List Effect) (globals : ftp_globals)
    (client : client_t) (_rest : List Char) : Outcome :=
  let o := write_reply env h globals client [] 200 "Exiting to loader.".toList
  { o with effects := o.effects ++ [.set_reset_flag] }

/-- Embedding of `ftp_SITE_CLEAR`. -/
def ftp_SITE_CLEAR (env : Env) (h : List Effect) (globals : ftp_globals)
    (client : client_t) (_rest : List Char) : Outcome :=
  let o := write_reply env h globals client [] 200 "Cleared.".toList
  { o with effects := o.effects ++ [.clear_console] }

/-- Embedding of `ftp_SITE_CHMOD`. -/
def ftp_SITE_CHMOD (env : Env) (h : List Effect) (globals : ftp_globals)
    (client : client_t) (_rest : List Char) : Outcome :=
  write_reply env h globals client [] 250 "SITE CHMOD command ok.".toList

/-- Embedding of `ftp_SITE_PASSWD`. -/
def ftp_SITE_PASSWD (env : Env) (h : List Effect) (globals : ftp_globals)
    (client : client_t) (new_password : List Char) : Outcome :=
  write_reply env h (set_ftp_password globals (some new_password)) client [] 200
    "Password changed.".toList

/-- Embedding of `ftp_SITE_NOPASSWD`. -/
def ftp_SITE_NOPASSWD (env : Env) (h : List Effect) (globals : ftp_globals)
    (client : client_t) (_rest : List Char) : Outcome :=
  write_reply env h (set_ftp_password globals none) client [] 200
    "Authentication disabled.".toList

/-- Embedding of `ftp_SITE_MOUNT`. -/
def ftp_SITE_MOUNT (env : Env) (h : List Effect) (globals : ftp_globals)
    (client : client_t) (path : List Char) : Outcome :=
  if env.mount_virtual h path then
    write_reply env h globals client [.mount_virtual path] 250 "Mounted.".toList
  else write_reply env h globals client [.mount_virtual path] 550 "Unable to mount.".toList

/-- Embedding of `ftp_SITE_UNMOUNT`. -/
def ftp_SITE_UNMOUNT (env : Env) (h : List Effect) (globals : ftp_globals)
    (client : client_t) (path : List Char) : Outcome :=
  if env.unmount_virtual h path then
    write_reply env h globals client [.unmount_virtual path] 250 "Unmounted.".toList
  else
    write_reply env h globals client [.unmount_virtual path] 550 "Unable to unmount.".toList

/-- Embedding of `ftp_SITE_UNKNOWN`. -/
def ftp_SITE_UNKNOWN (env : Env) (h : List Effect) (globals : ftp_globals)
    (client : client_t) (_rest : List Char) : Outcome :=
  write_reply env h globals client [] 501 "Unknown SITE command.".toList

/-- Embedding of `ftp_NOOP`. -/
def ftp_NOOP (env : Env) (h : List Effect) (globals : ftp_globals) (client : client_t)
    (_rest : List Char) : Outcome :=
  write_reply env h globals client [] 200 "NOOP command successful.".toList

/-- Embedding of `ftp_SUPERFLUOUS`. -/
def ftp_SUPERFLUOUS (env : Env) (h : List Effect) (globals : ftp_globals)
    (client : client_t) (_rest : List Char) : Outcome :=
  write_reply env h globals client [] 202
    "Command not implemented, superfluous at this site.".toList

/-- Embedding of `ftp_NEEDAUTH`. -/
def ftp_NEEDAUTH (env : Env) (h : List Effect) (globals : ftp_globals) (client : client_t)
    (_rest : List Char) : Outcome :=
  write_reply env h globals client [] 530 "Please login with USER and PASS.".toList

/-- Embedding of `ftp_UNKNOWN`. -/
def ftp_UNKNOWN (env : Env) (h : List Effect) (globals : ftp_globals) (client : client_t)
    (_rest : List Char) : Outcome :=
  write_reply env h globals client [] 502 "Command not implemented.".toList

/-! ## ftp.c : command dispatch -/

/-- The type `ftp_command_handler`, with the outside world, the history of
calls and the static variables made explicit. -/
abbrev ftp_command_handler : Type :=
  Env → List Effect → ftp_globals → client_t → List Char → Outcome

/-- The search loop of `dispatch_to_handler`,
`for (i = 0; commands[i]; i++) if (!strcasecmp (commands[i], cmd)) break;`:
the index reached, which is the length of the table when nothing matches. -/
def dispatch_index : List (List Char) → List Char → Nat
  | [], _ => 0
  | command :: more, cmd =>
    if strcasecmp command cmd = 0 then 0 else dispatch_index more cmd + 1

/-- Embedding of `dispatch_to_handler`: `commands` is the NULL-terminated name
table without its terminator and `handlers` the handler table, one entry
longer.  The two local buffers are handed to `split` empty; what they hold
before does not matter to `split`.  An index outside `handlers` does not occur
with the tables of ftp.c; the model then returns without any call. -/
def dispatch_to_handler (env : Env) (h : List Effect) (globals : ftp_globals)
    (client : client_t) (cmd_line : List Char) (commands : List (List Char))
    (handlers : List ftp_command_handler) : Outcome :=
  let args := (split cmd_line ' ' 1 [[], []]).2
  let cmd := args.getD 0 []
  let rest := args.getD 1 []
  match handlers[dispatch_index commands cmd]? with
  | some handler => handler env h globals client rest
  | none => { client := client, globals := globals, effects := [], result := 0 }

/-- The table `site_commands`. -/
def site_commands : List (List Char) :=
  ["LOADER".toList, "CLEAR".toList, "CHMOD".toList, "PASSWD".toList, "NOPASSWD".toList,
   "MOUNT".toList, "UNMOUNT".toList]

/-- The table `site_handlers`. -/
def site_handlers : List ftp_command_handler :=
  [ftp_SITE_LOADER, ftp_SITE_CLEAR, ftp_SITE_CHMOD, ftp_SITE_PASSWD, ftp_SITE_NOPASSWD,
   ftp_SITE_MOUNT, ftp_SITE_UNMOUNT, ftp_SITE_UNKNOWN]

/-- Embedding of `ftp_SITE`. -/
def ftp_SITE (env : Env) (h : List Effect) (globals : ftp_globals) (client : client_t)
    (cmd_line : List Char) : Outcome :=
  dispatch_to_handler env h globals client cmd_line site_commands site_handlers

/-- The table `unauthenticated_commands`. -/
def unauthenticated_commands : List (List Char) :=
  ["USER".toList, "PASS".toList, "QUIT".toList, "REIN".toList, "NOOP".toList]

/-- The table `unauthenticated_handlers`. -/
def unauthenticated_handlers : List ftp_command_handler :=
  [ftp_USER, ftp_PASS, ftp_QUIT, ftp_REIN_handler, ftp_NOOP, ftp_NEEDAUTH]

/-- The table `authenticated_commands`. -/
def authenticated_commands : List (List Char) :=
  ["USER".toList, "PASS".toList, "LIST".toList, "PWD".toList, "CWD".toList, "CDUP".toList,
   "SIZE".toList, "PASV".toList, "PORT".toList, "TYPE".toList, "SYST".toList, "MODE".toList,
   "RETR".toList, "STOR".toList, "APPE".toList, "REST".toList, "DELE".toList, "MKD".toList,
   "RMD".toList, "RNFR".toList, "RNTO".toList, "NLST".toList, "QUIT".toList, "REIN".toList,
   "SITE".toList, "NOOP".toList, "ALLO".toList]

/-- The table `authenticated_handlers`. -/
def authenticated_handlers : List ftp_command_handler :=
  [ftp_USER, ftp_PASS, ftp_LIST, ftp_PWD, ftp_CWD_handler, ftp_CDUP_handler,
   ftp_SIZE, ftp_PASV, ftp_PORT, ftp_TYPE, ftp_SYST, ftp_MODE,
   ftp_RETR, ftp_STOR, ftp_APPE, ftp_REST, ftp_DELE, ftp_MKD_handler,
   ftp_DELE, ftp_RNFR, ftp_RNTO, ftp_NLST, ftp_QUIT, ftp_REIN_handler,
   ftp_SITE, ftp_NOOP, ftp_SUPERFLUOUS, ftp_UNKNOWN]

/-- Embedding of `process_command`. -/
def process_command (env : Env) (h : List Effect) (globals : ftp_globals)
    (client : client_t) (cmd_line : List Char) : Outcome :=
  if cmd_line = [] then { client := client, globals := globals, effects := [], result := 0 }
  else if client.authenticated then
    dispatch_to_handler env h globals client cmd_line authenticated_commands
      authenticated_handlers
  else
    dispatch_to_handler env h globals client cmd_line unauthenticated_commands
      unauthenticated_handlers

/-- A concrete outside world for the examples: `PATH_MAX` is 1024, the table
is that of fs.c, every socket call and every send answers 0, every path is a
directory, every filesystem call succeeds, and `lseek` reaches the offset
asked for. -/
def sample_env : Env :=
  { PATH_MAX := 1024
    S_IFDIR := 16384
    partitions := VIRTUAL_PARTITIONS
    strerror := fun e =>
      match e with
      | .ENOENT => "No such file or directory".toList
      | .ENOMEM => "Not enough space".toList
      | .ENODEV => "No such device".toList
      | .ENOTDIR => "Not a directory".toList
      | .EOTHER _ => "Error".toList
    ret := fun _ _ => 0
    stat := fun _ _ => .ok { st_mode := 16384, st_size := 0 }
    unlink := fun _ _ => .ok ()
    mkdir := fun _ _ => .ok ()
    rename := fun _ _ _ => .ok ()
    fopen := fun _ _ _ => .ok 7
    opendir := fun _ _ => .ok 9
    lseek := fun _ _ offset => (offset, .ENOENT)
    gettime := fun _ => 0
    net_gethostip := fun _ => 0
    mount_virtual := fun _ _ => true
    unmount_virtual := fun _ _ => true
    sscanf_lli := fun _ => none
    EAGAIN := 11
    EINPROGRESS := 119
    EALREADY := 120
    EISCONN := 127
    secs_to_ticks := fun s => s * 1000 }

/-- A session that has logged in and changed to `/carda/`, on socket 3. -/
def sample_client : client_t :=
  { accept_client 3 (0, 0) with authenticated := true, cwd := "/carda/".toList }

/-- Static variables with no client counted, the port counter at its initial
value 1024, and the given password. -/
def sample_globals (password : Option (List Char)) : ftp_globals :=
  { num_clients := 1, passive_port := 1024, password := password }

/-- A decimal number of one to three digits. -/
def decimal3 (d : List Char) : Prop :=
  d ≠ [] ∧ d.length ≤ 3 ∧ ∀ c ∈ d, c.isDigit = true

/-! ## ftp.c : cleanup and the data-connection events -/

/-- What a poll of one session leaves behind: the session, or `none` once
`cleanup_client` has freed it and emptied its slot; the static variables; the
calls made, in order. -/
structure Poll where
  client : Option client_t
  globals : ftp_globals
  effects : List Effect
deriving DecidableEq, Repr

/-- The calls made by `cleanup_data_resources`: the data socket is closed when
it is open and is not the passive listener, and the registered cleanup routine
is run on the callback argument. -/
def cleanup_data_resources_calls (client : client_t) : List Effect :=
  (if client.data_socket ≥ 0 ∧ client.data_socket ≠ client.passive_socket then
      [.net_close_blocking client.data_socket]
    else []) ++
  (match client.data_connection_cleanup with
    | some routine => [.cleanup routine client.data_connection_callback_arg]
    | none => [])

/-- The session after `cleanup_data_resources`. -/
def cleanup_data_resources (client : client_t) : client_t :=
  { client with
    data_socket := -1
    data_connection_connected := false
    data_callback := none
    data_connection_callback_arg := none
    data_connection_cleanup := none
    data_connection_timer := 0 }

/-- Embedding of `cleanup_client`, run after the calls `pre` of the poll: the
control socket is closed, the data resources and the passive listener are
released, the slot is emptied and the session freed (`client = none`), and the
`u8` counter `num_clients` is decremented. -/
def cleanup_client (globals : ftp_globals) (client : client_t) (pre : List Effect) : Poll :=
  { client := none
    globals := { globals with num_clients := (globals.num_clients + 255) % 256 }
    effects := pre ++ [.net_close_blocking client.socket] ++
      cleanup_data_resources_calls client ++
      close_passive_socket_calls (cleanup_data_resources client) }

/-- The first part of `process_data_events`, for a session whose data
connection is not yet established: the accept on the passive listener or the
connect to the stored address, the session afterwards, and the value of
`result` when the `if (result <= 0 && result != -EAGAIN)` test is reached. -/
def await_data_connection (env : Env) (h : List Effect) (client : client_t) :
    client_t × Int × List Effect :=
  let attempt : client_t × Int × List Effect :=
    if client.passive_socket ≥ 0 then
      let result := env.ret h (.net_accept_nonblocking client.passive_socket)
      (if result ≥ 0 then
          { client with data_socket := result, data_connection_connected := true }
        else client,
        result, [.net_accept_nonblocking client.passive_socket])
    else
      let connected := env.ret h (.net_connect client.data_socket client.address)
      let result :=
        if connected < 0 ∧ (connected = -env.EINPROGRESS ∨ connected = -env.EALREADY) then
          -env.EAGAIN
        else connected
      (if result ≥ 0 ∨ result = -env.EISCONN then
          { client with data_connection_connected := true }
        else client,
        result, [.net_connect client.data_socket client.address])
  if attempt.1.data_connection_connected then (attempt.1, 1, attempt.2.2)
  else if env.gettime (h ++ attempt.2.2) > attempt.1.data_connection_timer then
    (attempt.1, -1, attempt.2.2)
  else attempt

/-- The last part of `process_data_events`, reached with the session, the value
of `result` and the calls made so far. -/
def finish_data_events (env : Env) (h : List Effect) (globals : ftp_globals)
    (client : client_t) (result : Int) (pre : List Effect) : Poll :=
  if result ≤ 0 ∧ result ≠ -env.EAGAIN then
    let released := pre ++ cleanup_data_resources_calls client
    let reply : Effect :=
      if result < 0 then
        .reply client.socket 520
          "Closing data connection, error occurred during transfer.".toList
      else
        .reply client.socket 226 "Closing data connection, transfer successful.".toList
    if env.ret (h ++ released) reply < 0 then
      cleanup_client globals (cleanup_data_resources client) (released ++ [reply])
    else
      { client := some (cleanup_data_resources client)
        globals := globals
        effects := released ++ [reply] }
  else { client := some client, globals := globals, effects := pre }

/-- Embedding of `process_data_events`.  It is called only for a session with a
bound strategy (`process_ftp_events` tests `data_callback`); for a session
without one the model makes no call. -/
def process_data_events (env : Env) (h : List Effect) (globals : ftp_globals)
    (client : client_t) : Poll :=
  if client.data_connection_connected = false then
    let r := await_data_connection env h client
    finish_data_events env h globals r.1 r.2.1 r.2.2
  else
    match client.data_callback with
    | none => { client := some client, globals := globals, effects := [] }
    | some callback =>
      let call := Effect.data_callback callback client.data_socket
        client.data_connection_callback_arg
      finish_data_events env h globals client (env.ret h call) [call]

/-- The call by which `process_data_events` tries to establish the data
connection of a session: an accept on the passive listener when there is one,
a connect to the stored address otherwise. -/
def connection_attempt (client : client_t) : Effect :=
  if client.passive_socket ≥ 0 then .net_accept_nonblocking client.passive_socket
  else .net_connect client.data_socket client.address

/-- The attempt reports that the peer is not there yet: the accept answers
`-EAGAIN`, or the connect answers `-EAGAIN`, `-EINPROGRESS` or `-EALREADY`. -/
def would_block (env : Env) (h : List Effect) (client : client_t) : Prop :=
  if client.passive_socket ≥ 0 then env.ret h (connection_attempt client) = -env.EAGAIN
  else
    env.ret h (connection_attempt client) = -env.EAGAIN ∨
    env.ret h (connection_attempt client) = -env.EINPROGRESS ∨
    env.ret h (connection_attempt client) = -env.EALREADY

/-- The run of a bound transfer strategy. -/
def is_strategy_call : Effect → Bool
  | .data_callback _ _ _ => true
  | _ => false

/-- The sample environment at clock 31000 in which the accept on the passive
listener reports `-EAGAIN` and every other call succeeds. -/
def waiting_env : Env :=
  { sample_env with
    ret := fun _ e =>
      match e with
      | .net_accept_nonblocking _ => -11
      | _ => 0
    gettime := fun _ => 31000 }

/-- The iterator of the open directory `/carda/`, on handle 9. -/
def sample_dir : DIR_P Nat :=
  { virt_root := false, dir := { position := 0, handle := some 9 }, path := "/carda/".toList }

/-- A session waiting for the peer of a directory listing on passive listener 5,
with the given deadline. -/
def waiting_client (deadline : Nat) : client_t :=
  { sample_client with
    passive_socket := 5, data_socket := 5, data_callback := some .send_list,
    data_connection_callback_arg := some (.dir sample_dir),
    data_connection_cleanup := some .vrt_closedir,
    data_connection_timer := deadline }

/-- A session in the connected state of a download: data socket 6, strategy
`send_from_file` on file 7, released by `fclose`. -/
def transferring_client : client_t :=
  { sample_client with
    data_socket := 6, data_connection_connected := true,
    data_callback := some .send_from_file,
    data_connection_callback_arg := some (.file 7),
    data_connection_cleanup := some .fclose,
    data_connection_timer := 30000 }

/-! ## ftp.c : the control-connection events -/

/-- The byte 0, which ends a C string. -/
def NUL : Char := Char.ofNat 0

/-- The line feed, byte 10. -/
def LF : Char := Char.ofNat 10

/-- The carriage return, byte 13. -/
def CR : Char := Char.ofNat 13

/-- `static const char *CRLF`: carriage return, line feed. -/
def CRLF : List Char := [CR, LF]

/-- `strstr (next, CRLF)` together with the cut `*end = 0` and the step
`end + CRLF_LENGTH`: the text before the first CRLF and the text after it, or
`none` when there is no CRLF. -/
def strstr_CRLF : List Char → Option (List Char × List Char)
  | [] => none
  | c :: cs =>
    if c = CR ∧ cs.head? = some LF then some ([], cs.tail)
    else
      match strstr_CRLF cs with
      | none => none
      | some (line, rest) => some (c :: line, rest)

/-- What one `net_read` on the control socket answers: a negative return value,
or the bytes the peer has sent (no bytes at all is the end of the stream).  The
call delivers at most as many of them as it was asked for. -/
inductive NetRead where
  | failed (code : Int)
  | received (data : List Char)
deriving DecidableEq, Repr

/-- State of the `for` loop of `process_control_events` over the lines of the
buffer: `next` is the text from the pointer `next` on, `processed` says that
`next != client->buf`, and `closing` that the loop left by
`goto recv_loop_end`. -/
structure LineState where
  client : client_t
  globals : ftp_globals
  effects : List Effect
  next : List Char
  processed : Bool
  closing : Bool
deriving DecidableEq, Repr

/-- The `for` loop of `process_control_events`.  Every turn takes at least the
two bytes of a CRLF off `next`, so a fuel of the length of `next` is never
used up (`dispatch_lines_fuel`). -/
def dispatch_lines (env : Env) (h : List Effect) : Nat → LineState → LineState
  | 0, s => s
  | fuel + 1, s =>
    match strstr_CRLF s.next with
    | none => s
    | some (line, rest) =>
      if s.client.data_callback.isSome then s
      else if LF ∈ line then { s with closing := true }
      else if line ≠ [] then
        let o := process_command env (h ++ s.effects) s.globals s.client line
        if o.result < 0 then
          { s with client := o.client, globals := o.globals,
                   effects := s.effects ++ o.effects, closing := true }
        else
          dispatch_lines env h fuel
            { s with client := o.client, globals := o.globals,
                     effects := s.effects ++ o.effects, next := rest, processed := true }
      else dispatch_lines env h fuel { s with next := rest, processed := true }

/-- The head of the `while` loop of `process_control_events`: the test of the
loop (a full buffer closes the session) and the early return while a transfer
strategy is bound; `body` is the rest of the turn. -/
def loop_guard (globals : ftp_globals) (client : client_t) (pre : List Effect) (body : Poll) :
    Poll :=
  if ¬ client.offset < (FTP_BUFFER_SIZE : Int) - 1 then cleanup_client globals client pre
  else if client.data_callback.isSome then
    { client := some client, globals := globals, effects := pre }
  else body

/-- The session after a read has put `delivered` behind the first `offset` bytes
of the buffer. -/
def fill_buffer (client : client_t) (delivered : List Char) : client_t :=
  { client with
    buf := client.buf.take client.offset.toNat ++ delivered
    offset := client.offset + delivered.length }

/-- The `while` loop of `process_control_events`, after the calls `pre` of the
poll.  `reads` lists what the successive calls of `net_read` answer; when the
list is used up the socket has nothing more and answers `-EAGAIN`. -/
def control_loop (env : Env) (h : List Effect) :
    List NetRead → ftp_globals → client_t → List Effect → Poll
  | [], globals, client, pre =>
    loop_guard globals client pre
      { client := some client, globals := globals
        effects := pre ++ [.net_read client.socket ((FTP_BUFFER_SIZE : Int) - 1 - client.offset)] }
  | .failed code :: _, globals, client, pre =>
    loop_guard globals client pre
      (if code ≠ -env.EAGAIN then
        cleanup_client globals client
          (pre ++ [.net_read client.socket ((FTP_BUFFER_SIZE : Int) - 1 - client.offset)])
       else
        { client := some client, globals := globals
          effects :=
            pre ++ [.net_read client.socket ((FTP_BUFFER_SIZE : Int) - 1 - client.offset)] })
  | .received data :: rest, globals, client, pre =>
    loop_guard globals client pre
      (let size := (FTP_BUFFER_SIZE : Int) - 1 - client.offset
       let called := pre ++ [.net_read client.socket size]
       let delivered := data.take size.toNat
       if delivered = [] then cleanup_client globals client called
       else if NUL ∈ delivered then cleanup_client globals (fill_buffer client delivered) called
       else
         let s := dispatch_lines env h (fill_buffer client delivered).buf.length
           { client := fill_buffer client delivered, globals := globals, effects := called,
             next := (fill_buffer client delivered).buf, processed := false, closing := false }
         if s.closing then cleanup_client s.globals s.client s.effects
         else
           control_loop env h rest s.globals
             (if s.processed then { s.client with offset := s.next.length, buf := s.next }
              else s.client)
             s.effects)

/-- Embedding of `process_control_events`. -/
def process_control_events (env : Env) (h : List Effect) (globals : ftp_globals)
    (client : client_t) (reads : List NetRead) : Poll :=
  control_loop env h reads globals client []

/-- Stated from the spec: the text holds a line feed that is not immediately
preceded by a carriage return, and a CRLF somewhere after it, so that the line
feed lies in a complete line. -/
def bare_line_feed_in_line (text : List Char) : Prop :=
  ∃ a b c, text = a ++ LF :: (b ++ CR :: LF :: c) ∧ a.getLast? ≠ some CR

/-- The sample environment in which `net_socket` fails with -1 and every other
call, every send included, succeeds. -/
def refusing_env : Env :=
  { sample_env with
    ret := fun _ e =>
      match e with
      | .net_socket => -1
      | _ => 0 }

/-! ## What a handler leaves alone -/

/-- The part of the state that no command handler touches, and the one change a
handler may make to the data-connection fields: the counter `num_clients` and
the control socket are as before, and the data socket, the bound strategy and
the connected flag are either all as before or have just been set by
`prepare_data_connection` (a data socket, a strategy, not yet connected). -/
def handler_frame (globals : ftp_globals) (client : client_t) (o : Outcome) : Prop :=
  o.globals.num_clients = globals.num_clients ∧
  o.client.socket = client.socket ∧
  ((o.client.data_socket = client.data_socket ∧
      o.client.data_callback = client.data_callback ∧
      o.client.data_connection_connected = client.data_connection_connected) ∨
    (0 ≤ o.client.data_socket ∧ o.client.data_callback.isSome = true ∧
      o.client.data_connection_connected = false))

/-- A handler that, besides keeping to `handler_frame`, leaves the counter
`passive_port` as it was. -/
def handler_keeps (globals : ftp_globals) (client : client_t) (o : Outcome) : Prop :=
  handler_frame globals client o ∧ o.globals.passive_port = globals.passive_port

/-! ## ftp.c : the passive port counter over a run of commands -/

/-- The static variables as ftp.c initialises them: no session, `passive_port`
1024, no password. -/
def initial_globals : ftp_globals :=
  { num_clients := 0, passive_port := 1024, password := none }

/-- One call of `process_command` made by the server: the calls made before it,
the session it is made for, and the command line. -/
structure CommandCall where
  history : List Effect
  client : client_t
  cmd_line : List Char

/-- The static variables after the server has handled the calls in order. -/
def serve (env : Env) (calls : List CommandCall) (globals : ftp_globals) : ftp_globals :=
  calls.foldl
    (fun g call => (process_command env call.history g call.client call.cmd_line).globals)
    globals

/-- The call is dispatched to `ftp_PASV` (entry 7 of the table of a logged-in
session) and `net_socket` gives it a listening socket. -/
def obtains_listener (env : Env) (call : CommandCall) : Bool :=
  decide (call.cmd_line ≠ [] ∧ call.client.authenticated = true ∧
    dispatch_index authenticated_commands
      ((split call.cmd_line ' ' 1 [[], []]).2.getD 0 []) = 7 ∧
    0 ≤ env.ret (call.history ++ close_passive_socket_calls call.client) .net_socket)

/-- The sample environment in which the first `net_socket` of the run fails and
the later ones give socket 7. -/
def flaky_env : Env :=
  { sample_env with
    ret := fun h e =>
      match e with
      | .net_socket => if h = [] then -1 else 7
      | _ => 0 }

/-- A PASV command sent on the sample session. -/
def sample_pasv_call : CommandCall :=
  { history := [], client := sample_client, cmd_line := "PASV".toList }

/-! ## ftp.c : the session table and the server loop -/

/-- The server state of ftp.c: the static variables and the array
`clients[MAX_CLIENTS]`, a slot being `none` when it holds NULL. -/
structure server_t where
  globals : ftp_globals
  clients : List (Option client_t)
deriving DecidableEq, Repr

/-- The state the program starts in: the static initialisers of ftp.c. -/
def initial_server : server_t :=
  { globals := initial_globals, clients := List.replicate MAX_CLIENTS none }

/-- The number of occupied slots of the array `clients`. -/
def occupied (clients : List (Option client_t)) : Nat :=
  clients.countP Option.isSome

/-- The loop of `process_accept_events` that stores the new session in the
first free slot; without a free slot the array is left as it is. -/
def store_client : List (Option client_t) → client_t → List (Option client_t)
  | [], _ => []
  | none :: more, client => some client :: more
  | some other :: more, client => some other :: store_client more client

/-- Embedding of `process_accept_events` on the listening socket `listener`,
after the calls `pre`, with history `h` before them.  `accepts` lists what the
successive calls of `net_accept_nonblocking` return, the peer socket (or a
negative error) and the peer address; when the list is used up the call
answers `-EAGAIN`.  The result holds the server state, the calls made, and the
return value (`false` when accepting failed). -/
def process_accept_events (env : Env) (h : List Effect) (listener : Int) :
    List (Int × (Nat × Nat)) → server_t → List Effect → server_t × List Effect × Bool
  | [], server, pre => (server, pre ++ [.net_accept_nonblocking listener], true)
  | (peer, client_address) :: more, server, pre =>
    let called := pre ++ [.net_accept_nonblocking listener]
    if peer = -env.EAGAIN then (server, called, true)
    else if peer < 0 then (server, called, false)
    else if server.globals.num_clients = MAX_CLIENTS then
      (server, called ++ [.net_close peer], true)
    else
      let client := accept_client peer client_address
      let greeting := write_reply env h server.globals client called 220 "ftpii".toList
      if greeting.result < 0 then
        process_accept_events env h listener more server
          (greeting.effects ++ [.net_close_blocking peer])
      else
        process_accept_events env h listener more
          { globals :=
              { server.globals with num_clients := (server.globals.num_clients + 1) % 256 }
            clients := store_client server.clients client }
          greeting.effects

/-- The body of the loop of `process_ftp_events` for one session: the data
events while a transfer strategy is bound, the control events otherwise. -/
def poll_client (env : Env) (h : List Effect) (globals : ftp_globals) (client : client_t)
    (reads : List NetRead) : Poll :=
  if client.data_callback.isSome then process_data_events env h globals client
  else process_control_events env h globals client reads

/-- The loop of `process_ftp_events` over the slots from index `index` on, after
the calls `pre`; `reads index` lists what `net_read` answers on the control
socket of the session in slot `index`.  A session destroyed by `cleanup_client`
leaves its slot empty. -/
def poll_clients (env : Env) (h : List Effect) (reads : Nat → List NetRead) :
    Nat → List (Option client_t) → ftp_globals → List Effect →
      List (Option client_t) × ftp_globals × List Effect
  | _, [], globals, pre => ([], globals, pre)
  | index, none :: more, globals, pre =>
    let r := poll_clients env h reads (index + 1) more globals pre
    (none :: r.1, r.2.1, r.2.2)
  | index, some client :: more, globals, pre =>
    let p := poll_client env (h ++ pre) globals client (reads index)
    let r := poll_clients env h reads (index + 1) more p.globals (pre ++ p.effects)
    (p.client :: r.1, r.2.1, r.2.2)

/-- Embedding of `process_ftp_events`: the server state afterwards, the calls
made, and the return value `network_down`. -/
def process_ftp_events (env : Env) (h : List Effect) (listener : Int)
    (accepts : List (Int × (Nat × Nat))) (reads : Nat → List NetRead) (server : server_t) :
    server_t × List Effect × Bool :=
  let a := process_accept_events env h listener accepts server []
  let r := poll_clients env h reads 0 a.1.clients a.1.globals a.2.1
  ({ globals := r.2.1, clients := r.1 }, r.2.2, !a.2.2)

/-- The loop of `cleanup_ftp`: every session is sent the reply 421 and
destroyed. -/
def cleanup_all : List (Option client_t) → ftp_globals → List Effect →
    List (Option client_t) × ftp_globals × List Effect
  | [], globals, pre => ([], globals, pre)
  | none :: more, globals, pre =>
    let r := cleanup_all more globals pre
    (none :: r.1, r.2.1, r.2.2)
  | some client :: more, globals, pre =>
    let p := cleanup_client globals client
      (pre ++ [.reply client.socket 421
        "Service not available, closing control connection.".toList])
    let r := cleanup_all more p.globals p.effects
    (p.client :: r.1, r.2.1, r.2.2)

/-- Embedding of `cleanup_ftp`. -/
def cleanup_ftp (server : server_t) : server_t × List Effect :=
  let r := cleanup_all server.clients server.globals []
  ({ globals := r.2.1, clients := r.1 }, r.2.2)

/-- The server states the program can be in between two steps of `main`: the
initial state, and what `set_ftp_password`, `process_ftp_events` and
`cleanup_ftp` make of such a state, whatever the outside world answers. -/
inductive Reachable (env : Env) : server_t → Prop where
  | initial : Reachable env initial_server
  | password (server : server_t) (new_password : Option (List Char)) :
    Reachable env server →
    Reachable env { server with globals := set_ftp_password server.globals new_password }
  | events (server : server_t) (h : List Effect) (listener : Int)
      (accepts : List (Int × (Nat × Nat))) (reads : Nat → List NetRead) :
    Reachable env server →
    Reachable env (process_ftp_events env h listener accepts reads server).1
  | cleanup (server : server_t) :
    Reachable env server → Reachable env (cleanup_ftp server).1

/-- Stated from the spec: the session holds a data socket exactly when a
transfer strategy is bound, and the connected flag is set only while one is
bound. -/
def data_binding_invariant (client : client_t) : Prop :=
  (0 ≤ client.data_socket ↔ client.data_callback.isSome = true) ∧
  (client.data_connection_connected = true → client.data_callback.isSome = true)

/-- What a poll of one session does to the session count and to the data
binding: a destroyed session takes one off `num_clients` (a `u8`), a surviving
one leaves the count alone and keeps `data_binding_invariant`. -/
def poll_frame (globals : ftp_globals) (client : client_t) (p : Poll) : Prop :=
  (p.client = none ∧ p.globals.num_clients = (globals.num_clients + 255) % 256) ∨
  (∃ session, p.client = some session ∧ p.globals.num_clients = globals.num_clients ∧
    (data_binding_invariant client → data_binding_invariant session))

/-- The invariant of the server state: the array has `MAX_CLIENTS` slots, the
counter `num_clients` is the number of occupied slots, and every session in a
slot satisfies `data_binding_invariant`. -/
def server_invariant (server : server_t) : Prop :=
  server.clients.length = MAX_CLIENTS ∧
  server.globals.num_clients = occupied server.clients ∧
  ∀ client, some client ∈ server.clients → data_binding_invariant client

/-- The server after one round of events in the sample environment in which
five peers (sockets 10 to 14) were accepted. -/
def full_server : server_t :=
  (process_ftp_events sample_env [] 1
    [(10, (0, 0)), (11, (0, 0)), (12, (0, 0)), (13, (0, 0)), (14, (0, 0))]
    (fun _ => []) initial_server).1

/-- The server after two rounds of events in the sample environment: peer 10 is
accepted, then sends `USER a`, `PASS b` and `RETR /carda/f` in one packet. -/
def busy_server : server_t :=
  (process_ftp_events sample_env [] 1 []
    (fun index =>
      if index = 0 then
        [.received ("USER a".toList ++ CRLF ++ "PASS b".toList ++ CRLF ++
          "RETR /carda/f".toList ++ CRLF)]
      else [])
    (process_ftp_events sample_env [] 1 [(10, (0, 0))] (fun _ => []) initial_server).1).1

/-- The session of `busy_server`: logged in, with the download bound on data
socket 0. -/
def bound_session : client_t :=
  { accept_client 10 (0, 0) with
    authenticated := true
    data_socket := 0
    data_callback := some .send_from_file
    data_connection_callback_arg := some (.file 7)
    data_connection_cleanup := some .fclose
    data_connection_timer := 30000 }

/-! ## Reference for the order of dispatch -/

/-- Three commands received in one packet: `NOOP`, `RETR f`, `QUIT`. -/
def pipelined_packet : List Char :=
  "NOOP".toList ++ CRLF ++ "RETR f".toList ++ CRLF ++ "QUIT".toList ++ CRLF

/-! ## Sample worlds for the working directory -/

/-- Rendering of a stack of kept segments, each preceded by a slash. -/
def render (ks : List (List Char)) : List Char := (ks.map ('/' :: ·)).flatten

/-- Scanner state that goes with the pending segment `cur` read since the last
slash: 1 for none, 2 for a dot, 3 for two dots, 0 for any other. -/
def seg_state (cur : List Char) : Nat :=
  if cur = [] then 1 else if cur = ['.'] then 2 else if cur = ['.', '.'] then 3 else 0

/-- The loop variables of `virtual_abspath` once the segments `ks` are kept and
the characters `cur` of the next segment have been read. -/
def scan_of (ks : List (List Char)) (cur : List Char) : Scan :=
  { normalised_path := render ks ++ '/' :: cur
    curr_dir := (render ks).length
    state := seg_state cur }

/-- Reference treatment of one segment: an empty or dot segment is dropped,
a dot-dot segment removes the segment kept last (if any), any other is kept. -/
def push_segment (kept : List (List Char)) (seg : List Char) : List (List Char) :=
  if seg = [] ∨ seg = ['.'] then kept
  else if seg = ['.', '.'] then kept.dropLast
  else kept ++ [seg]

/-- The alias is, ignoring ASCII case, the whole leading part of the normalised
path `n`: either `n` is the alias and `rest` is empty, or `n` is the alias, a
slash, and `rest`. -/
def alias_matches (alias_ n rest : List Char) : Prop :=
  (n.map tolower = alias_.map tolower ∧ rest = []) ∨
  (∃ a : List Char, n = a ++ '/' :: rest ∧ a.map tolower = alias_.map tolower)

/-- The test made on one partition by the loop of `to_real_path`. -/
def alias_test (alias_ n : List Char) : Prop :=
  strcasecmp alias_ n = 0 ∨
    (strncasecmp alias_ n alias_.length = 0 ∧ n[alias_.length]? = some '/')

/-- The `rest` pointer after a successful test: past the alias and one slash. -/
def alias_rest (alias_ n : List Char) : List Char :=
  if (n.drop alias_.length).head? = some '/' then (n.drop alias_.length).drop 1
  else n.drop alias_.length

/-- The listing of the virtual root according to the specification: one
directory entry per partition whose `inserted` flag is set, in table order,
named by the alias without its first character (the leading slash). -/
def root_entries (DT_DIR : Nat) (partitions : List VIRTUAL_PARTITION) : List dirent :=
  (partitions.filter (fun P => P.inserted)).map
    (fun P => { d_type := DT_DIR, d_name := P.alias_.drop 1 })

/-- The first maximal space-free word of `s`, after any leading spaces. -/
def first_word (s : List Char) : List Char :=
  (s.dropWhile (fun c => c == ' ')).takeWhile (fun c => c != ' ')

/-- What follows the first word of `s` and the run of spaces after it. -/
def after_word (s : List Char) : List Char :=
  ((s.dropWhile (fun c => c == ' ')).dropWhile (fun c => c != ' ')).dropWhile
    (fun c => c == ' ')

/-- The remainder of `s` after its first word, with trailing spaces removed. -/
def remainder (s : List Char) : List Char :=
  (after_word s).rdropWhile (fun c => c == ' ')

/-- Variables of `split (s, ' ', 1, result)` before the first word. -/
def split_before (r0 r1 : List Char) : SplitState :=
  { result := [r0, r1], num_results := 0, result_pos := 0, trim_pos := 0, in_word := false }

/-- Variables of `split (s, ' ', 1, result)` once the word `w` is stored and the
second result is not begun; `in_word` tells whether the word is still open. -/
def split_word (w r1 : List Char) (in_word : Bool) : SplitState :=
  { result := [w, r1], num_results := 1, result_pos := w.length, trim_pos := 0,
    in_word := in_word }

/-- Variables of `split (s, ' ', 1, result)` while the second result `w2` grows:
`trim_pos` is 0 when `w2` does not end in a space and otherwise the length of
`w2` without its trailing spaces. -/
def split_tail (w w2 : List Char) : SplitState :=
  { result := [w, w2], num_results := 2, result_pos := w2.length,
    trim_pos :=
      if (w2.rdropWhile (fun c => c == ' ')).length = w2.length then 0
      else (w2.rdropWhile (fun c => c == ' ')).length,
    in_word := true }

/-- The statements of `split` after its scanning loop: the trim of the last
result, the clearing of the unused results, and the returned count. -/
def split_finish (maxsplit : Nat) (st : SplitState) : Nat × List (List Char) :=
  let result1 :=
    if st.trim_pos ≠ 0 then
      st.result.set (st.num_results - 1)
        ((st.result.getD (st.num_results - 1) []).take st.trim_pos)
    else st.result
  (st.num_results, split_clear result1 st.num_results (maxsplit + 1 - st.num_results))

/-- A kept segment: not empty, not a dot segment, and free of slashes. -/
def GoodSeg (k : List Char) : Prop :=
  k ≠ [] ∧ k ≠ ['.'] ∧ k ≠ ['.', '.'] ∧ '/' ∉ k

/-- Reference normaliser, written from the specification: split the absolute
string on slashes, fold the segments through `push_segment`, and print a slash
followed by the kept segments joined by slashes. -/
def reference_normalise (a : List Char) : List Char :=
  '/' :: List.intercalate ['/'] ((a.splitOn '/').foldl push_segment [])

theorem strrchr_none (b : List Char) (c : Char) (h : c ∉ b) : strrchr b c = none := by
  induction b with
  | nil => rfl
  | cons x xs ih =>
    simp only [List.mem_cons, not_or] at h
    simp [strrchr, ih h.2, Ne.symm h.1]

theorem strrchr_append (a b : List Char) (c : Char) (h : c ∉ b) :
    strrchr (a ++ c :: b) c = some a.length := by
  induction a with
  | nil => simp [strrchr, strrchr_none b c h]
  | cons x xs ih => simp [strrchr, ih]

theorem render_nil : render [] = [] := rfl

theorem nil_or_snoc {α : Type} (l : List α) : l = [] ∨ ∃ L b, l = L ++ [b] := by
  rcases List.eq_nil_or_concat l with h | ⟨L, b, h⟩
  · exact Or.inl h
  · exact Or.inr ⟨L, b, by simpa using h⟩

theorem render_concat (ks : List (List Char)) (k : List Char) :
    render (ks ++ [k]) = render ks ++ '/' :: k := by
  simp [render]

theorem take_length_append (a b : List Char) : (a ++ b).take a.length = a := by
  induction a with
  | nil => simp
  | cons x xs ih => simp [ih]

theorem take_length_succ_append (a b : List Char) (c : Char) :
    (a ++ c :: b).take (a.length + 1) = a ++ [c] := by
  induction a with
  | nil => simp
  | cons x xs ih => simp [ih]

theorem scan_slash (ks : List (List Char)) (cur cs : List Char)
    (hks : ∀ k ∈ ks, '/' ∉ k) :
    scan_loop (scan_of ks cur) ('/' :: cs) = scan_loop (scan_of (push_segment ks cur) []) cs := by
  by_cases h1 : cur = []
  · subst h1; simp [scan_loop, scan_switch, scan_of, seg_state, push_segment]
  by_cases h2 : cur = ['.']
  · subst h2
    simp [scan_loop, scan_switch, scan_of, seg_state, push_segment, take_length_succ_append]
  by_cases h3 : cur = ['.', '.']
  · subst h3
    rcases nil_or_snoc ks with rfl | ⟨L, k, rfl⟩
    · simp [scan_loop, scan_switch, scan_of, seg_state, push_segment, render, strrchr]
    · have hk : '/' ∉ k := hks k (by simp)
      have e1 : (render (L ++ [k]) ++ ['/', '.', '.']).take (render (L ++ [k])).length
          = render L ++ '/' :: k := by
        rw [take_length_append, render_concat]
      simp only [scan_loop, scan_switch, scan_of, seg_state, push_segment]
      simp [e1, strrchr_append _ _ _ hk, take_length_succ_append]
  · simp [scan_loop, scan_switch, scan_of, seg_state, push_segment, h1, h2, h3, render_concat]

theorem seg_state_snoc (cur : List Char) (c : Char) :
    seg_state (cur ++ [c]) =
      if cur = [] ∧ c = '.' then 2 else if cur = ['.'] ∧ c = '.' then 3 else 0 := by
  rcases cur with _ | ⟨a, _ | ⟨b, _ | ⟨d, t⟩⟩⟩ <;> simp [seg_state]

theorem scan_char (ks : List (List Char)) (cur cs : List Char) (c : Char) (hc : c ≠ '/') :
    scan_loop (scan_of ks cur) (c :: cs) = scan_loop (scan_of ks (cur ++ [c])) cs := by
  have key : (let s1 := scan_switch (scan_of ks cur) (some c)
      if s1.state = 0 ∨ c ≠ '/' then { s1 with normalised_path := s1.normalised_path ++ [c] }
      else s1) = scan_of ks (cur ++ [c]) := by
    by_cases h1 : cur = []
    · subst h1
      by_cases hd : c = '.'
      · subst hd; simp [scan_switch, scan_of, seg_state]
      · simp [scan_switch, scan_of, seg_state, hd, hc]
    by_cases h2 : cur = ['.']
    · subst h2
      by_cases hd : c = '.'
      · subst hd; simp [scan_switch, scan_of, seg_state]
      · simp [scan_switch, scan_of, seg_state, hd, hc]
    by_cases h3 : cur = ['.', '.']
    · subst h3
      simp [scan_switch, scan_of, seg_state, hc]
    · simp [scan_switch, scan_of, seg_state_snoc, hc, h1, h2, h3]
      simp [seg_state, h1, h2, h3, hc]
  simp only [scan_loop]
  exact congrArg (fun s => scan_loop s cs) key

theorem scan_end (ks : List (List Char)) (cur : List Char) (hks : ∀ k ∈ ks, '/' ∉ k) :
    (scan_loop (scan_of ks cur) []).normalised_path =
      if seg_state cur = 0 then render (ks ++ [cur]) else render (push_segment ks cur) ++ ['/'] := by
  by_cases h1 : cur = []
  · subst h1; simp [scan_loop, scan_switch, scan_of, seg_state, push_segment]
  by_cases h2 : cur = ['.']
  · subst h2
    simp [scan_loop, scan_switch, scan_of, seg_state, push_segment, take_length_succ_append]
  by_cases h3 : cur = ['.', '.']
  · subst h3
    rcases nil_or_snoc ks with rfl | ⟨L, k, rfl⟩
    · simp [scan_loop, scan_switch, scan_of, seg_state, push_segment, render, strrchr]
    · have hk : '/' ∉ k := hks k (by simp)
      have e1 : (render (L ++ [k]) ++ ['/', '.', '.']).take (render (L ++ [k])).length
          = render L ++ '/' :: k := by
        rw [take_length_append, render_concat]
      simp only [scan_loop, scan_switch, scan_of, seg_state, push_segment]
      simp [e1, strrchr_append _ _ _ hk, take_length_succ_append]
  · simp [scan_loop, scan_switch, scan_of, seg_state, h1, h2, h3, render_concat]

theorem render_eq_intercalate (ks : List (List Char)) (h : ks ≠ []) :
    render ks = '/' :: List.intercalate ['/'] ks := by
  induction ks with
  | nil => exact absurd rfl h
  | cons k rest ih =>
    cases rest with
    | nil => simp [render, List.intercalate]
    | cons k2 rest2 =>
      have ih2 := ih (by simp)
      simp only [render, List.map_cons, List.flatten_cons] at ih2 ⊢
      rw [ih2]
      simp [List.intercalate]

theorem strip_stop (s : List Char) (e : Nat) (h : e ≤ 1 ∨ s[e - 1]? ≠ some '/') :
    strip_slashes s e = s.take e := by
  rcases e with _ | _ | e
  · rw [strip_slashes.eq_def]
  · rw [strip_slashes.eq_def]
  · rcases h with h | h
    · omega
    · simp only [Nat.add_sub_cancel] at h
      rw [strip_slashes, if_neg h]

theorem strip_no_trailing (s : List Char) (h : s.getLast? ≠ some '/') :
    strip_slashes s s.length = s := by
  rw [List.getLast?_eq_getElem?] at h
  rw [strip_stop s s.length (Or.inr h), List.take_length]

theorem strip_one_trailing (t : List Char) (ht : t ≠ []) (h : t.getLast? ≠ some '/') :
    strip_slashes (t ++ ['/']) (t ++ ['/']).length = t := by
  obtain ⟨n, hn⟩ : ∃ n, t.length = n + 1 :=
    ⟨t.length - 1, by have := List.length_pos.mpr ht; omega⟩
  have hlen : (t ++ ['/']).length = n + 2 := by simp [hn]
  rw [hlen, strip_slashes]
  have : (t ++ ['/'])[n + 1]? = some '/' := by
    rw [List.getElem?_append_right (by omega)]; simp [hn]
  rw [if_pos this]
  rw [List.getLast?_eq_getElem?, hn] at h
  simp only [Nat.add_sub_cancel] at h
  have h2 : (t ++ ['/'])[n + 1 - 1]? ≠ some '/' := by
    simp only [Nat.add_sub_cancel]
    rwa [List.getElem?_append_left (by omega)]
  rw [strip_stop _ _ (Or.inr h2), ← hn, take_length_append]

theorem render_getLast (ks : List (List Char)) (h : ∀ k ∈ ks, GoodSeg k) :
    (render ks).getLast? ≠ some '/' := by
  rcases nil_or_snoc ks with rfl | ⟨L, k, rfl⟩
  · simp [render]
  · have hk := h k (by simp)
    rw [render_concat]
    obtain ⟨k0, x, rfl⟩ : ∃ k0 x, k = k0 ++ [x] := by
      rcases nil_or_snoc k with e | ⟨a, b, e⟩
      · exact absurd e hk.1
      · exact ⟨a, b, e⟩
    have hx : x ≠ '/' := by
      intro e; exact hk.2.2.2 (by simp [e])
    have : render L ++ '/' :: (k0 ++ [x]) = (render L ++ '/' :: k0) ++ [x] := by simp
    rw [this, List.getLast?_concat]
    simpa using hx

theorem strip_render_slash (ks : List (List Char)) (h : ∀ k ∈ ks, GoodSeg k) :
    strip_slashes (render ks ++ ['/']) (render ks ++ ['/']).length =
      '/' :: List.intercalate ['/'] ks := by
  by_cases hk : ks = []
  · subst hk; rfl
  · have hne : render ks ≠ [] := by
      rw [render_eq_intercalate ks hk]; simp
    rw [strip_one_trailing _ hne (render_getLast ks h), render_eq_intercalate ks hk]

theorem strip_render (ks : List (List Char)) (h : ∀ k ∈ ks, GoodSeg k) (hk : ks ≠ []) :
    strip_slashes (render ks) (render ks).length = '/' :: List.intercalate ['/'] ks := by
  rw [strip_no_trailing _ (render_getLast ks h), render_eq_intercalate ks hk]

theorem good_push (ks : List (List Char)) (cur : List Char)
    (h : ∀ k ∈ ks, GoodSeg k) (hc : '/' ∉ cur) : ∀ k ∈ push_segment ks cur, GoodSeg k := by
  unfold push_segment
  split_ifs with h1 h2
  · exact h
  · intro k hk; exact h k (List.mem_of_mem_dropLast hk)
  · intro k hk
    rcases List.mem_append.mp hk with hk | hk
    · exact h k hk
    · rw [List.mem_singleton.mp hk]
      exact ⟨fun e => h1 (Or.inl e), fun e => h1 (Or.inr e), h2, hc⟩

theorem scan_result (ks : List (List Char)) (cur : List Char)
    (h : ∀ k ∈ ks, GoodSeg k) (hc : '/' ∉ cur) :
    (let s := scan_loop (scan_of ks cur) []
     strip_slashes s.normalised_path s.normalised_path.length) =
      '/' :: List.intercalate ['/'] (push_segment ks cur) := by
  have hs : ∀ k ∈ ks, '/' ∉ k := fun k hk => (h k hk).2.2.2
  simp only [scan_end ks cur hs]
  by_cases h0 : seg_state cur = 0
  · have hp : push_segment ks cur = ks ++ [cur] := by
      unfold seg_state at h0
      unfold push_segment
      split_ifs at h0 with a b c
      simp [a, b, c]
    rw [if_pos h0, ← hp]
    exact strip_render _ (good_push ks cur h hc) (by simp [hp])
  · rw [if_neg h0]
    exact strip_render_slash _ (good_push ks cur h hc)

theorem splitOn_slash_cons (c : Char) (cs : List Char) :
    (c :: cs).splitOn '/' =
      if c = '/' then [] :: cs.splitOn '/' else (cs.splitOn '/').modifyHead (List.cons c) := by
  simp only [List.splitOn, List.splitOnP_cons, beq_iff_eq]

theorem scan_spec (cs : List Char) : ∀ (ks : List (List Char)) (cur : List Char),
    (∀ k ∈ ks, GoodSeg k) → '/' ∉ cur →
    (let s := scan_loop (scan_of ks cur) cs
     strip_slashes s.normalised_path s.normalised_path.length) =
      '/' :: List.intercalate ['/']
        (((cs.splitOn '/').modifyHead (cur ++ ·)).foldl push_segment ks) := by
  induction cs with
  | nil =>
    intro ks cur h hc
    simpa using scan_result ks cur h hc
  | cons c cs ih =>
    intro ks cur h hc
    have hs : ∀ k ∈ ks, '/' ∉ k := fun k hk => (h k hk).2.2.2
    by_cases hsl : c = '/'
    · subst hsl
      rw [scan_slash ks cur cs hs, splitOn_slash_cons, if_pos rfl]
      have := ih (push_segment ks cur) [] (good_push ks cur h hc) (by simp)
      simp only [List.nil_append] at this
      rw [this]
      simp [List.modifyHead]
      cases hsp : cs.splitOn '/' <;> simp [List.modifyHead]
    · rw [scan_char ks cur cs c hsl, splitOn_slash_cons, if_neg hsl]
      have := ih ks (cur ++ [c]) h (by simp [hc, Ne.symm hsl])
      rw [this, List.modifyHead_modifyHead]
      congr 3
      cases hsp : cs.splitOn '/' <;> simp [List.modifyHead]

theorem abspath_absolute (PATH_MAX : Nat) (cwd cs : List Char) :
    virtual_abspath PATH_MAX cwd ('/' :: cs) = some (reference_normalise ('/' :: cs)) := by
  have h0 : scan_loop { normalised_path := [], curr_dir := 0, state := 0 } ('/' :: cs)
      = scan_loop (scan_of [] []) cs := by
    simp [scan_loop, scan_switch, scan_of, seg_state, render]
  have h1 := scan_spec cs [] [] (by simp) (by simp)
  simp only [virtual_abspath, List.head?_cons, if_true, h0]
  simp only at h1
  rw [h1, reference_normalise, splitOn_slash_cons, if_pos rfl]
  simp [push_segment]
  cases hsp : cs.splitOn '/' <;> simp [List.modifyHead]

theorem splitOn_mem_no_slash (a : List Char) : ∀ s ∈ a.splitOn '/', '/' ∉ s := by
  induction a with
  | nil => simp
  | cons c cs ih =>
    rw [splitOn_slash_cons]
    split_ifs with h
    · intro s hs
      rcases List.mem_cons.mp hs with e | e
      · simp [e]
      · exact ih s e
    · intro s hs
      cases hsp : cs.splitOn '/' with
      | nil => simp [hsp, List.modifyHead] at hs
      | cons x xs =>
        rw [hsp] at hs ih
        simp only [List.modifyHead, List.mem_cons] at hs
        rcases hs with e | e
        · have := ih x (by simp)
          simp [e, this, Ne.symm h]
        · exact ih s (by simp [e])

theorem splitOn_mem_chars (a : List Char) : ∀ s ∈ a.splitOn '/', ∀ c ∈ s, c ∈ a := by
  induction a with
  | nil => simp
  | cons c cs ih =>
    rw [splitOn_slash_cons]
    split_ifs with h
    · intro s hs x hx
      rcases List.mem_cons.mp hs with e | e
      · simp [e] at hx
      · exact List.mem_cons_of_mem _ (ih s e x hx)
    · intro s hs x hx
      cases hsp : cs.splitOn '/' with
      | nil => simp [hsp, List.modifyHead] at hs
      | cons y ys =>
        rw [hsp] at hs ih
        simp only [List.modifyHead, List.mem_cons] at hs
        rcases hs with e | e
        · rw [e] at hx
          rcases List.mem_cons.mp hx with e2 | e2
          · simp [e2]
          · exact List.mem_cons_of_mem _ (ih y (by simp) x e2)
        · exact List.mem_cons_of_mem _ (ih s (by simp [e]) x hx)

theorem foldl_push_good (segs : List (List Char)) : ∀ (ks : List (List Char)),
    (∀ k ∈ ks, GoodSeg k) → (∀ s ∈ segs, '/' ∉ s) →
    ∀ k ∈ segs.foldl push_segment ks, GoodSeg k := by
  induction segs with
  | nil => intro ks h _; simpa using h
  | cons s rest ih =>
    intro ks h hs
    rw [List.foldl_cons]
    exact ih _ (good_push ks s h (hs s (by simp))) (fun t ht => hs t (by simp [ht]))

theorem push_segment_mem (ks : List (List Char)) (s : List Char) :
    ∀ k ∈ push_segment ks s, k ∈ ks ∨ k = s := by
  intro k hk
  unfold push_segment at hk
  split_ifs at hk
  · exact Or.inl hk
  · exact Or.inl (List.mem_of_mem_dropLast hk)
  · simpa using hk

theorem foldl_push_mem (segs : List (List Char)) : ∀ (ks : List (List Char)),
    ∀ k ∈ segs.foldl push_segment ks, k ∈ ks ∨ k ∈ segs := by
  induction segs with
  | nil => intro ks k hk; exact Or.inl (by simpa using hk)
  | cons s rest ih =>
    intro ks k hk
    rw [List.foldl_cons] at hk
    rcases ih _ k hk with h | h
    · rcases push_segment_mem ks s k h with h2 | h2
      · exact Or.inl h2
      · exact Or.inr (by simp [h2])
    · exact Or.inr (by simp [h])

theorem foldl_push_of_good (segs : List (List Char)) : ∀ (ks : List (List Char)),
    (∀ k ∈ segs, GoodSeg k) → segs.foldl push_segment ks = ks ++ segs := by
  induction segs with
  | nil => intro ks _; simp
  | cons s rest ih =>
    intro ks h
    have hs := h s (by simp)
    have : push_segment ks s = ks ++ [s] := by
      unfold push_segment
      simp [hs.1, hs.2.1, hs.2.2.1]
    rw [List.foldl_cons, this, ih _ (fun k hk => h k (by simp [hk]))]
    simp

/-- The kept segments of a path that is already in normal form are its own
segments. -/
theorem segments_of_normal (ks : List (List Char)) (h : ∀ k ∈ ks, GoodSeg k) :
    (('/' :: List.intercalate ['/'] ks).splitOn '/').foldl push_segment [] = ks := by
  rw [splitOn_slash_cons, if_pos rfl, List.foldl_cons]
  have h0 : push_segment [] [] = [] := by simp [push_segment]
  rw [h0]
  by_cases hk : ks = []
  · subst hk; simp [List.intercalate, push_segment]
  · rw [List.splitOn_intercalate _ '/' (fun l hl => (h l hl).2.2.2) hk, foldl_push_of_good _ _ h]
    simp

theorem reference_normalise_normal (ks : List (List Char)) (h : ∀ k ∈ ks, GoodSeg k) :
    reference_normalise ('/' :: List.intercalate ['/'] ks) = '/' :: List.intercalate ['/'] ks := by
  rw [reference_normalise, segments_of_normal ks h]

theorem head_slash {l : List Char} (h : l.head? = some '/') : ∃ cs, l = '/' :: cs := by
  cases l with
  | nil => simp at h
  | cons x xs => exact ⟨xs, by simp at h; rw [h]⟩

/-- With a cwd that begins with a slash, `virtual_abspath` fails only on the
length check, and otherwise returns the reference normal form of the joined
path. -/
theorem abspath_eq (PATH_MAX : Nat) (cwd p : List Char) (hcwd : cwd.head? = some '/') :
    virtual_abspath PATH_MAX cwd p =
      if p.head? = some '/' then some (reference_normalise p)
      else if cwd.length + p.length + 1 > PATH_MAX then none
      else some (reference_normalise (cwd ++ p)) := by
  by_cases hp : p.head? = some '/'
  · obtain ⟨cs, rfl⟩ := head_slash hp
    rw [abspath_absolute, if_pos hp]
  · rw [if_neg hp]
    by_cases hlen : cwd.length + p.length + 1 > PATH_MAX
    · simp [virtual_abspath, hp, hlen]
    · obtain ⟨cs, rfl⟩ := head_slash hcwd
      have h1 := abspath_absolute PATH_MAX [] (cs ++ p)
      rw [if_neg hlen]
      simp only [virtual_abspath, hp, hlen, if_false] at h1 ⊢
      simpa [virtual_abspath] using h1

/-- Shape of every successful result: a slash followed by good segments joined
by slashes, all of whose characters come from the cwd or the path. -/
theorem abspath_shape (PATH_MAX : Nat) (cwd p q : List Char) (hcwd : cwd.head? = some '/')
    (h : virtual_abspath PATH_MAX cwd p = some q) :
    ∃ ks : List (List Char), (∀ k ∈ ks, GoodSeg k) ∧ q = '/' :: List.intercalate ['/'] ks ∧
      ∀ k ∈ ks, ∀ c ∈ k, c ∈ cwd ∨ c ∈ p := by
  have key : ∀ a : List Char, (∀ c ∈ a, c ∈ cwd ∨ c ∈ p) → q = reference_normalise a →
      ∃ ks : List (List Char), (∀ k ∈ ks, GoodSeg k) ∧ q = '/' :: List.intercalate ['/'] ks ∧
        ∀ k ∈ ks, ∀ c ∈ k, c ∈ cwd ∨ c ∈ p := by
    intro a ha hq
    refine ⟨(a.splitOn '/').foldl push_segment [], ?_, hq, ?_⟩
    · exact foldl_push_good _ _ (by simp) (splitOn_mem_no_slash a)
    · intro k hk c hc
      rcases foldl_push_mem _ _ k hk with h1 | h1
      · simp at h1
      · exact ha c (splitOn_mem_chars a k h1 c hc)
  rw [abspath_eq PATH_MAX cwd p hcwd] at h
  split_ifs at h with h1 h2
  · exact key p (fun c hc => Or.inr hc) (by simpa using h.symm)
  · exact key (cwd ++ p) (fun c hc => List.mem_append.mp hc) (by simpa using h.symm)

/-- C1. Path normalisation is idempotent: when the cwd begins with a slash and
`virtual_abspath cwd p` succeeds with result `q`, then `virtual_abspath cwd q`
succeeds as well and returns `q`. -/
theorem virtual_abspath_idempotent (PATH_MAX : Nat) (cwd p q : List Char)
    (hcwd : cwd.head? = some '/') (h : virtual_abspath PATH_MAX cwd p = some q) :
    virtual_abspath PATH_MAX cwd q = some q := by
  obtain ⟨ks, hgood, rfl, -⟩ := abspath_shape PATH_MAX cwd p q hcwd h
  rw [abspath_absolute, reference_normalise_normal ks hgood]

theorem virtual_abspath_idempotent_witness :
    virtual_abspath 1024 "/x/".toList "a/./b//../c/".toList = some "/x/a/c".toList ∧
    virtual_abspath 1024 "/x/".toList "/x/a/c".toList = some "/x/a/c".toList :=
  ⟨by decide,
   virtual_abspath_idempotent 1024 "/x/".toList "a/./b//../c/".toList "/x/a/c".toList
     (by decide) (by decide)⟩

/-- C2. For a cwd that begins with a slash, `virtual_abspath cwd p` is the
reference segment normalisation of the absolute string `a`, where `a = p` when
`p` begins with a slash and `a = cwd ++ p` otherwise (a relative path being
within the `PATH_MAX` bound): the segments of `a` between slashes are folded,
empty and dot segments dropped, dot-dot removing the last kept segment, and the
kept segments are printed after a slash, joined by slashes.  In particular
`/a/b/../c` gives `/a/c`, `..` under `/x/` gives `/`, and `../../` under `/`
gives `/`. -/
theorem virtual_abspath_eq_reference :
    (∀ (PATH_MAX : Nat) (cwd p : List Char), cwd.head? = some '/' →
      (p.head? ≠ some '/' → cwd.length + p.length + 1 ≤ PATH_MAX) →
      virtual_abspath PATH_MAX cwd p =
        some (reference_normalise (if p.head? = some '/' then p else cwd ++ p))) ∧
    (∀ PATH_MAX : Nat,
      virtual_abspath PATH_MAX "/".toList "/a/b/../c".toList = some "/a/c".toList) ∧
    (∀ PATH_MAX : Nat, 6 ≤ PATH_MAX →
      virtual_abspath PATH_MAX "/x/".toList "..".toList = some "/".toList) ∧
    (∀ PATH_MAX : Nat, 8 ≤ PATH_MAX →
      virtual_abspath PATH_MAX "/".toList "../../".toList = some "/".toList) := by
  have gen : ∀ (PATH_MAX : Nat) (cwd p : List Char), cwd.head? = some '/' →
      (p.head? ≠ some '/' → cwd.length + p.length + 1 ≤ PATH_MAX) →
      virtual_abspath PATH_MAX cwd p =
        some (reference_normalise (if p.head? = some '/' then p else cwd ++ p)) := by
    intro PATH_MAX cwd p hcwd hlen
    rw [abspath_eq PATH_MAX cwd p hcwd]
    by_cases hp : p.head? = some '/'
    · simp [hp]
    · have := hlen hp
      simp [hp, Nat.not_lt.mpr this]
  refine ⟨gen, ?_, ?_, ?_⟩
  · intro PATH_MAX
    rw [gen PATH_MAX _ _ (by decide)
      (fun h => absurd (by decide : "/a/b/../c".toList.head? = some '/') h)]
    decide
  · intro PATH_MAX h
    rw [gen PATH_MAX _ _ (by decide) (fun _ => by simpa using h)]
    decide
  · intro PATH_MAX h
    rw [gen PATH_MAX _ _ (by decide) (fun _ => by simpa using h)]
    decide

theorem virtual_abspath_eq_reference_witness :
    virtual_abspath 1024 "/x/".toList "a/./b//../c/".toList =
      some (reference_normalise "/x/a/./b//../c/".toList) :=
  virtual_abspath_eq_reference.1 1024 "/x/".toList "a/./b//../c/".toList
    (by decide) (fun _ => by decide)

theorem splitOn_ne_nil (a : List Char) : a.splitOn '/' ≠ [] := by
  simpa [List.splitOn] using List.splitOnP_ne_nil (fun x => x == '/') a

theorem splitOn_append_slash (a b : List Char) :
    (a ++ '/' :: b).splitOn '/' = a.splitOn '/' ++ b.splitOn '/' := by
  induction a with
  | nil => simp [splitOn_slash_cons]
  | cons x xs ih =>
    rw [List.cons_append, splitOn_slash_cons, splitOn_slash_cons, ih]
    split_ifs with h
    · simp
    · cases hsp : xs.splitOn '/' with
      | nil => exact absurd hsp (splitOn_ne_nil xs)
      | cons y ys => simp [List.modifyHead]

theorem splitOn_normal (ks : List (List Char)) (h : ∀ k ∈ ks, GoodSeg k) (hk : ks ≠ []) :
    ('/' :: List.intercalate ['/'] ks).splitOn '/' = [] :: ks := by
  rw [splitOn_slash_cons, if_pos rfl,
    List.splitOn_intercalate _ '/' (fun l hl => (h l hl).2.2.2) hk]

theorem normal_no_double_slash (ks : List (List Char)) (h : ∀ k ∈ ks, GoodSeg k) :
    ¬ (['/', '/'] <:+: '/' :: List.intercalate ['/'] ks) := by
  rintro ⟨a, b, hab⟩
  by_cases hk : ks = []
  · subst hk
    have := congrArg List.length hab
    simp [List.intercalate] at this
    omega
  · have e1 := splitOn_normal ks h hk
    rw [← hab] at e1
    have e2 : a ++ ['/', '/'] ++ b = a ++ '/' :: ('/' :: b) := by simp
    rw [e2, splitOn_append_slash, splitOn_slash_cons, if_pos rfl] at e1
    cases hsp : a.splitOn '/' with
    | nil => exact absurd hsp (splitOn_ne_nil a)
    | cons y ys =>
      rw [hsp] at e1
      simp only [List.cons_append, List.cons.injEq] at e1
      have : ([] : List Char) ∈ ks := by rw [← e1.2]; simp
      exact (h [] this).1 rfl

/-- C3. A successful result of `virtual_abspath` on a cwd that begins with a
slash is in normal form: it begins with a slash, contains no two adjacent
slashes and (unless it is the root) no empty segment after the leading slash,
has no segment equal to dot or dot-dot, ends with a slash only when it is
exactly the root, and contains no colon when neither the cwd nor the path
contains one. -/
theorem virtual_abspath_normal_form (PATH_MAX : Nat) (cwd p q : List Char)
    (hcwd : cwd.head? = some '/') (h : virtual_abspath PATH_MAX cwd p = some q) :
    q.head? = some '/' ∧
    ¬ (['/', '/'] <:+: q) ∧
    (q = ['/'] ∨ ∀ s ∈ (q.splitOn '/').tail, s ≠ []) ∧
    (∀ s ∈ q.splitOn '/', s ≠ ['.'] ∧ s ≠ ['.', '.']) ∧
    (q.getLast? = some '/' → q = ['/']) ∧
    (':' ∉ cwd → ':' ∉ p → ':' ∉ q) := by
  obtain ⟨ks, hgood, rfl, hchars⟩ := abspath_shape PATH_MAX cwd p q hcwd h
  refine ⟨rfl, normal_no_double_slash ks hgood, ?_, ?_, ?_, ?_⟩
  · by_cases hk : ks = []
    · left; subst hk; rfl
    · right
      rw [splitOn_normal ks hgood hk]
      exact fun s hs => (hgood s hs).1
  · by_cases hk : ks = []
    · subst hk; decide
    · rw [splitOn_normal ks hgood hk]
      intro s hs
      rcases List.mem_cons.mp hs with e | e
      · subst e; decide
      · exact ⟨(hgood s e).2.1, (hgood s e).2.2.1⟩
  · intro hl
    by_cases hk : ks = []
    · subst hk; rfl
    · rw [← render_eq_intercalate ks hk] at hl
      exact absurd hl (render_getLast ks hgood)
  · intro h1 h2 hmem
    by_cases hk : ks = []
    · subst hk
      simp [List.intercalate] at hmem
    · rw [← render_eq_intercalate ks hk] at hmem
      simp only [render, List.mem_flatten, List.mem_map] at hmem
      obtain ⟨l, ⟨k, hk1, rfl⟩, hc⟩ := hmem
      rcases List.mem_cons.mp hc with e | e
      · exact absurd e (by decide)
      · rcases hchars k hk1 ':' e with e2 | e2
        · exact h1 e2
        · exact h2 e2

theorem virtual_abspath_normal_form_witness :
    let q := "/x/a/c".toList
    q.head? = some '/' ∧
    ¬ (['/', '/'] <:+: q) ∧
    (q = ['/'] ∨ ∀ s ∈ (q.splitOn '/').tail, s ≠ []) ∧
    (∀ s ∈ q.splitOn '/', s ≠ ['.'] ∧ s ≠ ['.', '.']) ∧
    (q.getLast? = some '/' → q = ['/']) ∧
    (':' ∉ "/x/".toList → ':' ∉ "a/./b//../c/".toList → ':' ∉ q) :=
  virtual_abspath_normal_form 1024 "/x/".toList "a/./b//../c/".toList "/x/a/c".toList
    (by decide) (by decide)

/-! ## Lemmas on to_real_path -/

theorem strcasecmp_eq_zero (a : List Char) : ∀ b : List Char,
    strcasecmp a b = 0 ↔ a.map tolower = b.map tolower := by
  induction a with
  | nil => intro b; cases b <;> simp [strcasecmp]
  | cons x xs ih =>
    intro b
    cases b with
    | nil => simp [strcasecmp]
    | cons y ys =>
      by_cases h : tolower x = tolower y
      · simp [strcasecmp, h, ih]
      · rw [strcasecmp, if_neg h]
        constructor
        · intro e; split_ifs at e; simp at e
        · intro e
          simp only [List.map_cons, List.cons.injEq] at e
          exact absurd e.1 h

theorem strncasecmp_eq_zero (a : List Char) : ∀ b : List Char,
    strncasecmp a b a.length = 0 ↔ (b.take a.length).map tolower = a.map tolower := by
  induction a with
  | nil => intro b; simp [strncasecmp]
  | cons x xs ih =>
    intro b
    cases b with
    | nil => simp [strncasecmp]
    | cons y ys =>
      by_cases h : tolower x = tolower y
      · simp [strncasecmp, h, ih]
      · rw [List.length_cons, strncasecmp, if_neg h]
        constructor
        · intro e; split_ifs at e; simp at e
        · intro e
          simp only [List.take_succ_cons, List.map_cons, List.cons.injEq] at e
          exact absurd e.1.symm h

theorem alias_test_iff (alias_ n : List Char) :
    alias_test alias_ n ↔ ∃ rest, alias_matches alias_ n rest := by
  unfold alias_test alias_matches
  rw [strcasecmp_eq_zero, strncasecmp_eq_zero]
  constructor
  · rintro (h | ⟨h1, h2⟩)
    · exact ⟨[], Or.inl ⟨h.symm, rfl⟩⟩
    · have hlt : alias_.length < n.length := by
        by_contra hc
        rw [List.getElem?_eq_none (by omega)] at h2
        exact absurd h2 (by simp)
      refine ⟨n.drop (alias_.length + 1), Or.inr ⟨n.take alias_.length, ?_, h1⟩⟩
      have e1 : n.drop alias_.length = '/' :: n.drop (alias_.length + 1) := by
        rw [List.drop_eq_getElem_cons hlt]
        congr 1
        rw [List.getElem?_eq_getElem hlt] at h2
        exact Option.some.inj h2
      rw [← e1, List.take_append_drop]
  · rintro ⟨rest, ⟨h1, -⟩ | ⟨a, h1, h2⟩⟩
    · exact Or.inl h1.symm
    · right
      have hl : a.length = alias_.length := by
        have := congrArg List.length h2
        simpa using this
      subst h1
      rw [← hl, take_length_append]
      exact ⟨h2, by rw [List.getElem?_append_right (le_refl _)]; simp⟩

theorem alias_rest_eq (alias_ n rest : List Char) (h : alias_matches alias_ n rest) :
    alias_rest alias_ n = rest := by
  unfold alias_rest
  rcases h with ⟨h1, rfl⟩ | ⟨a, h1, h2⟩
  · have hl : n.length = alias_.length := by
      have := congrArg List.length h1
      simpa using this
    rw [← hl]; simp
  · have hl : a.length = alias_.length := by
      have := congrArg List.length h2
      simpa using this
    subst h1
    rw [← hl]; simp

theorem find_partition_none (parts : List VIRTUAL_PARTITION) (n : List Char)
    (h : ∀ P ∈ parts, ¬ alias_test P.alias_ n) : find_partition parts n = none := by
  induction parts with
  | nil => rfl
  | cons P more ih =>
    have hP := h P (by simp)
    unfold alias_test at hP
    rw [find_partition]
    simp only [hP, if_false]
    exact ih (fun Q hQ => h Q (by simp [hQ]))

theorem find_partition_first (before after : List VIRTUAL_PARTITION) (P : VIRTUAL_PARTITION)
    (n : List Char) (hb : ∀ Q ∈ before, ¬ alias_test Q.alias_ n) (hP : alias_test P.alias_ n) :
    find_partition (before ++ P :: after) n = some (P.prefix_, alias_rest P.alias_ n) := by
  induction before with
  | nil =>
    unfold alias_test at hP
    simp only [List.nil_append, find_partition, hP, if_true, alias_rest]
  | cons Q more ih =>
    have hQ := hb Q (by simp)
    unfold alias_test at hQ
    rw [List.cons_append, find_partition]
    simp only [hQ, if_false]
    exact ih (fun R hR => hb R (by simp [hR]))

theorem find_partition_some (parts : List VIRTUAL_PARTITION) (n pre rest : List Char)
    (h : find_partition parts n = some (pre, rest)) : ∃ P ∈ parts, pre = P.prefix_ := by
  induction parts with
  | nil => simp [find_partition] at h
  | cons P more ih =>
    rw [find_partition] at h
    by_cases h1 : alias_test P.alias_ n
    · unfold alias_test at h1
      simp only [h1, if_true] at h
      have := congrArg (Option.map Prod.fst) h
      simp only [Option.map_some'] at this
      exact ⟨P, by simp, (Option.some.inj this).symm⟩
    · unfold alias_test at h1
      simp only [h1, if_false] at h
      obtain ⟨Q, hQ, e⟩ := ih h
      exact ⟨Q, by simp [hQ], e⟩

/-- C4. Whatever the cwd, the partition table and the rest of its content, a
virtual path that contains a colon is rejected: `to_real_path` returns NULL
(with `errno` ENOENT), neither a real path nor the virtual-root marker. -/
theorem to_real_path_rejects_colon (PATH_MAX : Nat) (partitions : List VIRTUAL_PARTITION)
    (cwd p : List Char) (h : ':' ∈ p) :
    to_real_path PATH_MAX partitions cwd p = .error .ENOENT := by
  simp [to_real_path, h]

theorem to_real_path_rejects_colon_witness :
    ':' ∈ "/carda/a:b".toList ∧
    to_real_path 1024 VIRTUAL_PARTITIONS "/".toList "/carda/a:b".toList = .error .ENOENT :=
  ⟨by decide,
   to_real_path_rejects_colon 1024 VIRTUAL_PARTITIONS "/".toList "/carda/a:b".toList
     (by decide)⟩

theorem to_real_path_normalised (PATH_MAX : Nat) (partitions : List VIRTUAL_PARTITION)
    (cwd p n : List Char) (hc : ':' ∉ p) (hn : virtual_abspath PATH_MAX cwd p = some n)
    (hroot : n ≠ ['/']) :
    to_real_path PATH_MAX partitions cwd p =
      match find_partition partitions n with
      | none => .error .ENODEV
      | some (pre, rest) =>
        if pre.length + rest.length + 1 > PATH_MAX then .error .ENOENT else .ok (pre ++ rest) := by
  simp only [to_real_path, hc, if_false, hn, hroot]

theorem to_real_path_match (PATH_MAX : Nat) (before after : List VIRTUAL_PARTITION)
    (P : VIRTUAL_PARTITION) (cwd p n rest : List Char) (hc : ':' ∉ p)
    (hn : virtual_abspath PATH_MAX cwd p = some n) (hroot : n ≠ ['/'])
    (hb : ∀ Q ∈ before, ∀ r, ¬ alias_matches Q.alias_ n r)
    (hm : alias_matches P.alias_ n rest) :
    to_real_path PATH_MAX (before ++ P :: after) cwd p =
      if P.prefix_.length + rest.length + 1 > PATH_MAX then .error .ENOENT
      else .ok (P.prefix_ ++ rest) := by
  rw [to_real_path_normalised PATH_MAX _ cwd p n hc hn hroot,
    find_partition_first before after P n
      (fun Q hQ ht => by
        obtain ⟨r, hr⟩ := (alias_test_iff Q.alias_ n).mp ht
        exact hb Q hQ r hr)
      ((alias_test_iff P.alias_ n).mpr ⟨rest, hm⟩),
    alias_rest_eq P.alias_ n rest hm]

theorem to_real_path_nomatch (PATH_MAX : Nat) (partitions : List VIRTUAL_PARTITION)
    (cwd p n : List Char) (hc : ':' ∉ p)
    (hn : virtual_abspath PATH_MAX cwd p = some n) (hroot : n ≠ ['/'])
    (hb : ∀ Q ∈ partitions, ∀ r, ¬ alias_matches Q.alias_ n r) :
    to_real_path PATH_MAX partitions cwd p = .error .ENODEV := by
  rw [to_real_path_normalised PATH_MAX _ cwd p n hc hn hroot,
    find_partition_none partitions n
      (fun Q hQ ht => by
        obtain ⟨r, hr⟩ := (alias_test_iff Q.alias_ n).mp ht
        exact hb Q hQ r hr)]

theorem good_replicate (k : Nat) (hk : 0 < k) : GoodSeg (List.replicate k 'a') := by
  refine ⟨?_, ?_, ?_, ?_⟩
  · intro e
    have := congrArg List.length e
    simp at this; omega
  · intro e
    have : '.' ∈ List.replicate k 'a' := by rw [e]; simp
    exact absurd (List.eq_of_mem_replicate this) (by decide)
  · intro e
    have : '.' ∈ List.replicate k 'a' := by rw [e]; simp
    exact absurd (List.eq_of_mem_replicate this) (by decide)
  · intro hm
    exact absurd (List.eq_of_mem_replicate hm) (by decide)

theorem abspath_long (PATH_MAX k : Nat) (hk : 0 < k) :
    virtual_abspath PATH_MAX ['/'] ("/carda/".toList ++ List.replicate k 'a') =
      some ("/carda/".toList ++ List.replicate k 'a') := by
  have hg : ∀ s ∈ ["carda".toList, List.replicate k 'a'], GoodSeg s := by
    intro s hs
    simp only [List.mem_cons, List.mem_singleton, List.not_mem_nil, or_false] at hs
    rcases hs with rfl | rfl
    · exact ⟨by decide, by decide, by decide, by decide⟩
    · exact good_replicate k hk
  have e : "/carda/".toList ++ List.replicate k 'a' =
      '/' :: List.intercalate ['/'] ["carda".toList, List.replicate k 'a'] := by
    simp [List.intercalate]
  rw [e, abspath_absolute, reference_normalise_normal _ hg]

theorem long_path_rejected (PATH_MAX k : Nat) (hk : 0 < k) (hlen : PATH_MAX < 8 + k) :
    to_real_path PATH_MAX VIRTUAL_PARTITIONS ['/'] ("/carda/".toList ++ List.replicate k 'a') =
      .error .ENOENT := by
  have hc : ':' ∉ "/carda/".toList ++ List.replicate k 'a' := by
    intro hm
    rcases List.mem_append.mp hm with h | h
    · exact absurd h (by decide)
    · exact absurd (List.eq_of_mem_replicate h) (by decide)
  have hroot : "/carda/".toList ++ List.replicate k 'a' ≠ ['/'] := by
    intro e
    have := congrArg List.length e
    simp at this
  have hm : alias_matches "/carda".toList ("/carda/".toList ++ List.replicate k 'a')
      (List.replicate k 'a') := Or.inr ⟨"/carda".toList, by simp, rfl⟩
  have := to_real_path_match PATH_MAX [] (VIRTUAL_PARTITIONS.drop 1) (VIRTUAL_PARTITIONS.get ⟨0, by decide⟩)
    ['/'] _ _ _ hc (abspath_long PATH_MAX k hk) hroot (by simp) hm
  rw [show [] ++ VIRTUAL_PARTITIONS.get ⟨0, by decide⟩ :: VIRTUAL_PARTITIONS.drop 1
      = VIRTUAL_PARTITIONS from rfl] at this
  rw [this, if_pos]
  simp [VIRTUAL_PARTITIONS]
  omega

/-- C5, as amended. For a colon-free path whose normal form `n` is not the root,
`to_real_path` answers for the first partition of the table whose alias is,
ignoring ASCII case, the whole leading part of `n` (`n` is the alias and `rest`
is empty, or `n` is the alias, a slash and `rest`): it returns
`prefix ++ rest` provided that string and its terminator fit in `PATH_MAX`
bytes, and NULL with ENOENT when they do not; when no alias matches it fails
with ENODEV.  With the table of fs.c, `/carda/foo` resolves to `carda:/foo` and
`/cardax` fails with ENODEV. -/
theorem to_real_path_resolves :
    (∀ (PATH_MAX : Nat) (before after : List VIRTUAL_PARTITION) (P : VIRTUAL_PARTITION)
      (cwd p n rest : List Char), ':' ∉ p → virtual_abspath PATH_MAX cwd p = some n →
      n ≠ ['/'] → (∀ Q ∈ before, ∀ r, ¬ alias_matches Q.alias_ n r) →
      alias_matches P.alias_ n rest →
      to_real_path PATH_MAX (before ++ P :: after) cwd p =
        if P.prefix_.length + rest.length + 1 > PATH_MAX then .error .ENOENT
        else .ok (P.prefix_ ++ rest)) ∧
    (∀ (PATH_MAX : Nat) (partitions : List VIRTUAL_PARTITION) (cwd p n : List Char),
      ':' ∉ p → virtual_abspath PATH_MAX cwd p = some n → n ≠ ['/'] →
      (∀ Q ∈ partitions, ∀ r, ¬ alias_matches Q.alias_ n r) →
      to_real_path PATH_MAX partitions cwd p = .error .ENODEV) ∧
    (∀ PATH_MAX : Nat, 11 ≤ PATH_MAX →
      to_real_path PATH_MAX VIRTUAL_PARTITIONS "/".toList "/carda/foo".toList =
        .ok "carda:/foo".toList) ∧
    (∀ PATH_MAX : Nat,
      to_real_path PATH_MAX VIRTUAL_PARTITIONS "/".toList "/cardax".toList =
        .error .ENODEV) := by
  refine ⟨to_real_path_match, to_real_path_nomatch, ?_, ?_⟩
  · intro PATH_MAX h
    have hn : virtual_abspath PATH_MAX "/".toList "/carda/foo".toList
        = some "/carda/foo".toList := by
      rw [show "/carda/foo".toList = '/' :: "carda/foo".toList from rfl, abspath_absolute]
      decide
    have := to_real_path_match PATH_MAX [] (VIRTUAL_PARTITIONS.drop 1)
      (VIRTUAL_PARTITIONS.get ⟨0, by decide⟩) "/".toList "/carda/foo".toList
      "/carda/foo".toList "foo".toList (by decide) hn (by decide) (by simp)
      (Or.inr ⟨"/carda".toList, by decide, rfl⟩)
    rw [show [] ++ VIRTUAL_PARTITIONS.get ⟨0, by decide⟩ :: VIRTUAL_PARTITIONS.drop 1
      = VIRTUAL_PARTITIONS from rfl] at this
    rw [this, if_neg]
    · rfl
    · simp [VIRTUAL_PARTITIONS]; omega
  · intro PATH_MAX
    have hn : virtual_abspath PATH_MAX "/".toList "/cardax".toList
        = some "/cardax".toList := by
      rw [show "/cardax".toList = '/' :: "cardax".toList from rfl, abspath_absolute]
      decide
    have hf : find_partition VIRTUAL_PARTITIONS "/cardax".toList = none := by decide
    rw [to_real_path_normalised PATH_MAX _ _ _ _ (by decide) hn (by decide), hf]

theorem to_real_path_resolves_witness :
    to_real_path 1024 VIRTUAL_PARTITIONS "/cardb/".toList "x/../Sub".toList =
      .ok "cardb:/Sub".toList :=
  to_real_path_resolves.1 1024 (VIRTUAL_PARTITIONS.take 1) []
    (VIRTUAL_PARTITIONS.get ⟨1, by decide⟩) "/cardb/".toList "x/../Sub".toList
    "/cardb/Sub".toList "Sub".toList (by decide) (by decide) (by decide)
    (by
      intro Q hQ r hr
      have hQ2 : Q.alias_ = "/carda".toList := by
        simp only [VIRTUAL_PARTITIONS, List.take_succ_cons, List.take_zero,
          List.mem_singleton] at hQ
        rw [hQ]
      rw [hQ2] at hr
      have ht := (alias_test_iff _ _).mpr ⟨r, hr⟩
      revert ht
      unfold alias_test
      decide)
    (Or.inr ⟨"/cardb".toList, by decide, by decide⟩)

theorem long_path_facts (k : Nat) :
    ':' ∉ "/carda/".toList ++ List.replicate k 'a' ∧
    "/carda/".toList ++ List.replicate k 'a' ≠ ['/'] ∧
    alias_matches "/carda".toList ("/carda/".toList ++ List.replicate k 'a')
      (List.replicate k 'a') := by
  refine ⟨?_, ?_, ?_⟩
  · intro hm
    rcases List.mem_append.mp hm with h | h
    · exact absurd h (by decide)
    · exact absurd (List.eq_of_mem_replicate h) (by decide)
  · intro e
    have := congrArg List.length e
    simp at this
  · exact Or.inr ⟨"/carda".toList, by simp, rfl⟩

/-- C5 as first stated fails: a colon-free absolute path of 1024 characters,
`/carda/` followed by 1017 letters, is its own normal form and has the alias
`/carda` as its whole first segment, yet with `PATH_MAX = 1024` it is not
resolved to `carda:/` followed by the letters: `to_real_path` returns NULL with
ENOENT, because the real path would need 1025 bytes. -/
theorem to_real_path_long_path_fails :
    ':' ∉ "/carda/".toList ++ List.replicate 1017 'a' ∧
    virtual_abspath 1024 "/".toList ("/carda/".toList ++ List.replicate 1017 'a') =
      some ("/carda/".toList ++ List.replicate 1017 'a') ∧
    "/carda/".toList ++ List.replicate 1017 'a' ≠ ['/'] ∧
    alias_matches "/carda".toList ("/carda/".toList ++ List.replicate 1017 'a')
      (List.replicate 1017 'a') ∧
    to_real_path 1024 VIRTUAL_PARTITIONS "/".toList
      ("/carda/".toList ++ List.replicate 1017 'a') = .error .ENOENT := by
  exact ⟨(long_path_facts 1017).1, abspath_long 1024 1017 (by omega),
    (long_path_facts 1017).2.1, (long_path_facts 1017).2.2,
    long_path_rejected 1024 1017 (by omega) (by omega)⟩

theorem to_real_path_cases (PATH_MAX : Nat) (partitions : List VIRTUAL_PARTITION)
    (cwd p : List Char) (hpre : ∀ P ∈ partitions, P.prefix_ ≠ []) :
    (':' ∉ p ∧ virtual_abspath PATH_MAX cwd p = some ['/'] ∧
        to_real_path PATH_MAX partitions cwd p = .ok []) ∨
    (¬ (':' ∉ p ∧ virtual_abspath PATH_MAX cwd p = some ['/']) ∧
        ((∃ e, to_real_path PATH_MAX partitions cwd p = .error e) ∨
          ∃ r, r ≠ [] ∧ to_real_path PATH_MAX partitions cwd p = .ok r)) := by
  by_cases hc : ':' ∈ p
  · right
    exact ⟨fun h => h.1 hc, Or.inl ⟨.ENOENT, by simp [to_real_path, hc]⟩⟩
  cases hn : virtual_abspath PATH_MAX cwd p with
  | none =>
    right
    exact ⟨fun h => by simp at h, Or.inl ⟨.ENOENT, by simp [to_real_path, hc, hn]⟩⟩
  | some n =>
    by_cases hroot : n = ['/']
    · left
      subst hroot
      exact ⟨hc, rfl, by simp [to_real_path, hc, hn]⟩
    · right
      refine ⟨fun h => hroot (Option.some.inj h.2), ?_⟩
      rw [to_real_path_normalised PATH_MAX partitions cwd p n hc hn hroot]
      cases hf : find_partition partitions n with
      | none => exact Or.inl ⟨.ENODEV, rfl⟩
      | some pr =>
        obtain ⟨pre, rest⟩ := pr
        obtain ⟨P, hP, e⟩ := find_partition_some partitions n pre rest hf
        by_cases hl : pre.length + rest.length + 1 > PATH_MAX
        · exact Or.inl ⟨.ENOENT, by simp [hl]⟩
        · refine Or.inr ⟨pre ++ rest, ?_, by simp [hl]⟩
          intro h0
          exact hpre P hP (by rw [← e]; exact (List.append_eq_nil.mp h0).1)

/-- C6. With a partition table whose mount prefixes are not empty (as in fs.c),
`to_real_path` returns the virtual-root marker, the empty string, which is a
success value, exactly when the path contains no colon and normalises to the
root; for every other input it returns an error or a non-empty real path. -/
theorem to_real_path_root_marker (PATH_MAX : Nat) (partitions : List VIRTUAL_PARTITION)
    (cwd p : List Char) (hpre : ∀ P ∈ partitions, P.prefix_ ≠ []) :
    (to_real_path PATH_MAX partitions cwd p = .ok [] ↔
      (':' ∉ p ∧ virtual_abspath PATH_MAX cwd p = some ['/'])) ∧
    (¬ (':' ∉ p ∧ virtual_abspath PATH_MAX cwd p = some ['/']) →
      (∃ e, to_real_path PATH_MAX partitions cwd p = .error e) ∨
        ∃ r, r ≠ [] ∧ to_real_path PATH_MAX partitions cwd p = .ok r) := by
  rcases to_real_path_cases PATH_MAX partitions cwd p hpre with ⟨h1, h2, h3⟩ | ⟨h1, h2⟩
  · exact ⟨⟨fun _ => ⟨h1, h2⟩, fun _ => h3⟩, fun h => absurd ⟨h1, h2⟩ h⟩
  · refine ⟨⟨fun h => ?_, fun h => absurd h h1⟩, fun _ => h2⟩
    rcases h2 with ⟨e, he⟩ | ⟨r, hr, he⟩
    · rw [he] at h; exact absurd h (by simp)
    · rw [he] at h
      exact absurd (Except.ok.inj h) hr

theorem to_real_path_root_marker_witness :
    (to_real_path 1024 VIRTUAL_PARTITIONS "/cardb/x/".toList "../..".toList = .ok [] ↔
      (':' ∉ "../..".toList ∧
        virtual_abspath 1024 "/cardb/x/".toList "../..".toList = some ['/'])) ∧
    (¬ (':' ∉ "../..".toList ∧
        virtual_abspath 1024 "/cardb/x/".toList "../..".toList = some ['/']) →
      (∃ e, to_real_path 1024 VIRTUAL_PARTITIONS "/cardb/x/".toList "../..".toList
          = .error e) ∨
        ∃ r, r ≠ [] ∧
          to_real_path 1024 VIRTUAL_PARTITIONS "/cardb/x/".toList "../..".toList = .ok r) :=
  to_real_path_root_marker 1024 VIRTUAL_PARTITIONS "/cardb/x/".toList "../..".toList
    (by decide)

/-! ## Lemmas on the virtual root listing -/

theorem readdir_scan_spec (DT_DIR : Nat) (partitions : List VIRTUAL_PARTITION) :
    ∀ (l : List VIRTUAL_PARTITION) (position : Nat), partitions.drop position = l →
      root_entries DT_DIR l =
          (readdir_scan DT_DIR l position).1.toList ++
            root_entries DT_DIR (partitions.drop (readdir_scan DT_DIR l position).2) ∧
        ((readdir_scan DT_DIR l position).1 = none →
          partitions.drop (readdir_scan DT_DIR l position).2 = []) := by
  intro l
  induction l with
  | nil =>
    intro position h
    simp [readdir_scan, h, root_entries]
  | cons P more ih =>
    intro position h
    have hmore : partitions.drop (position + 1) = more := by
      rw [← List.drop_drop, h]
      rfl
    by_cases hi : P.inserted = true
    · simp [readdir_scan, hi, hmore, root_entries]
    · have := ih (position + 1) hmore
      simp only [readdir_scan, hi]
      simp only [Bool.false_eq_true, if_false]
      refine ⟨?_, this.2⟩
      rw [← this.1]
      simp [root_entries, hi]

theorem take_append_replicate {α : Type} (A : List α) (x : α) (n : Nat) :
    (A ++ List.replicate (n + 1) x).take n = (A ++ List.replicate n x).take n := by
  rw [List.take_append_eq_append_take, List.take_append_eq_append_take]
  congr 1
  simp only [List.take_replicate]
  congr 1
  omega

theorem readdir_calls_root {D : Type} (DT_DIR : Nat) (partitions : List VIRTUAL_PARTITION)
    (readdir : D → Option dirent × D) (n : Nat) :
    ∀ (position : Nat) (handle : Option D) (path : List Char),
      readdir_calls DT_DIR partitions readdir n
          { virt_root := true, dir := { position := position, handle := handle }, path := path } =
        (((root_entries DT_DIR (partitions.drop position)).map some) ++
          List.replicate n none).take n := by
  induction n with
  | zero => intro position handle path; simp [readdir_calls]
  | succ n ih =>
    intro position handle path
    obtain ⟨h1, h2⟩ := readdir_scan_spec DT_DIR partitions (partitions.drop position) position rfl
    simp only [readdir_calls, vrt_readdir, if_true]
    rw [ih, h1]
    cases hr : (readdir_scan DT_DIR (partitions.drop position) position).1 with
    | none =>
      rw [h2 hr]
      simp [root_entries, List.replicate_succ]
    | some e =>
      simp only [Option.toList, List.singleton_append, List.map_cons, List.cons_append,
        List.take_succ_cons]
      rw [take_append_replicate, List.nil_append]

/-- C7. For a fixed partition table, an iterator opened on the virtual root
exists, and the results of its first `n` calls of `vrt_readdir` are, in table
order, one directory entry for each partition whose `inserted` flag is set,
named by the alias without its leading slash, followed by NULL on every later
call; a partition whose flag is clear yields no entry. -/
theorem vrt_readdir_root_listing {D : Type} (PATH_MAX DT_DIR : Nat)
    (partitions : List VIRTUAL_PARTITION) (opendir : List Char → Except Errno D)
    (readdir : D → Option dirent × D) (cwd path : List Char)
    (hroot : to_real_path PATH_MAX partitions cwd path = .ok []) :
    ∃ iter : DIR_P D, vrt_opendir PATH_MAX partitions opendir cwd path = some iter ∧
      iter.virt_root = true ∧
      ∀ n : Nat, readdir_calls DT_DIR partitions readdir n iter =
        (((partitions.filter (fun P : VIRTUAL_PARTITION => P.inserted)).map
            (fun P : VIRTUAL_PARTITION =>
              some ({ d_type := DT_DIR, d_name := P.alias_.drop 1 } : dirent))) ++
          List.replicate n none).take n := by
  refine ⟨{ virt_root := true, dir := { position := 0, handle := none }, path := [] },
    by simp [vrt_opendir, hroot], rfl, ?_⟩
  intro n
  rw [readdir_calls_root]
  simp [root_entries, Function.comp_def]

theorem vrt_readdir_root_listing_witness :
    ∃ iter : DIR_P Nat,
      vrt_opendir 1024
          [ { name := "SD Gecko A".toList, alias_ := "/carda".toList,
              mount_point := "carda".toList, prefix_ := "carda:/".toList,
              inserted := false, geckofail := false },
            { name := "SD Gecko B".toList, alias_ := "/cardb".toList,
              mount_point := "cardb".toList, prefix_ := "cardb:/".toList,
              inserted := true, geckofail := false } ]
          (fun _ => .error .ENOENT) "/".toList "/".toList = some iter ∧
      iter.virt_root = true ∧
      ∀ n : Nat,
        readdir_calls 4
            [ { name := "SD Gecko A".toList, alias_ := "/carda".toList,
                mount_point := "carda".toList, prefix_ := "carda:/".toList,
                inserted := false, geckofail := false },
              { name := "SD Gecko B".toList, alias_ := "/cardb".toList,
                mount_point := "cardb".toList, prefix_ := "cardb:/".toList,
                inserted := true, geckofail := false } ]
            (fun d => (none, d)) n iter =
          ([some ({ d_type := 4, d_name := "cardb".toList } : dirent)] ++
            List.replicate n none).take n :=
  vrt_readdir_root_listing 1024 4
    [ { name := "SD Gecko A".toList, alias_ := "/carda".toList,
        mount_point := "carda".toList, prefix_ := "carda:/".toList,
        inserted := false, geckofail := false },
      { name := "SD Gecko B".toList, alias_ := "/cardb".toList,
        mount_point := "cardb".toList, prefix_ := "cardb:/".toList,
        inserted := true, geckofail := false } ]
    (fun _ => .error .ENOENT) (fun d => (none, d))
    "/".toList "/".toList (by decide)

/-! ## Lemmas on split -/

theorem rdrop_length_le (w : List Char) :
    (w.rdropWhile (fun c => c == ' ')).length ≤ w.length :=
  (List.rdropWhile_prefix (fun c => c == ' ') w).length_le

theorem rdrop_ne_nil (x : Char) (t : List Char) (hx : x ≠ ' ') :
    (x :: t).rdropWhile (fun c => c == ' ') ≠ [] := by
  intro h
  rw [List.rdropWhile_eq_nil_iff] at h
  have := h x (by simp)
  simp [hx] at this

theorem split_step_tail (w t : List Char) (x c : Char) (hx : x ≠ ' ') :
    split_step ' ' 1 (split_tail w (x :: t)) c = split_tail w ((x :: t) ++ [c]) := by
  have hle := rdrop_length_le (x :: t)
  have hne : ((x :: t).rdropWhile (fun c => c == ' ')).length ≠ 0 := by
    intro h
    exact rdrop_ne_nil x t hx (List.length_eq_zero.mp h)
  by_cases hc : c = ' '
  · subst hc
    have e := List.rdropWhile_concat_pos (fun c => c == ' ') (x :: t) ' ' (by simp)
    by_cases hz : ((x :: t).rdropWhile (fun c => c == ' ')).length = (x :: t).length
    · simp only [split_step, split_tail, e, hz]
      simp
    · simp only [split_step, split_tail, e, if_neg hz]
      have h2 : ¬ ((x :: t).rdropWhile (fun c => c == ' ')).length = t.length + 1 + 1 := by
        simp only [List.length_cons] at hle; omega
      simp [hne, h2]
  · have e := List.rdropWhile_concat_neg (fun c => c == ' ') (x :: t) c (by simp [hc])
    by_cases hz : ((x :: t).rdropWhile (fun c => c == ' ')).length = (x :: t).length
    · simp only [split_step, split_tail, e, hz]
      simp [hc]
    · simp only [split_step, split_tail, e, if_neg hz]
      simp [hc, hne]

theorem split_fold_tail (cs : List Char) : ∀ (w t : List Char) (x : Char), x ≠ ' ' →
    cs.foldl (split_step ' ' 1) (split_tail w (x :: t)) = split_tail w ((x :: t) ++ cs) := by
  induction cs with
  | nil => intro w t x _; simp
  | cons c cs ih =>
    intro w t x hx
    rw [List.foldl_cons, split_step_tail w t x c hx, List.cons_append, ih w (t ++ [c]) x hx]
    simp

theorem split_fold_gap (cs : List Char) (w r1 : List Char) :
    cs.foldl (split_step ' ' 1) (split_word w r1 false) =
      match cs.dropWhile (fun c => c == ' ') with
      | [] => split_word w r1 false
      | c :: t => split_tail w (c :: t) := by
  induction cs with
  | nil => simp
  | cons c cs ih =>
    by_cases hc : c = ' '
    · subst hc
      rw [List.foldl_cons]
      have : split_step ' ' 1 (split_word w r1 false) ' ' = split_word w r1 false := by
        simp [split_step, split_word]
      rw [this, ih]
      simp
    · rw [List.foldl_cons]
      have : split_step ' ' 1 (split_word w r1 false) c = split_tail w [c] := by
        simp [split_step, split_word, split_tail, hc, List.rdropWhile_singleton]
      rw [this, split_fold_tail cs w [] c hc]
      simp [hc]

theorem split_fold_word (cs : List Char) : ∀ (w r1 : List Char),
    cs.foldl (split_step ' ' 1) (split_word w r1 true) =
      match cs.dropWhile (fun c => c != ' ') with
      | [] => split_word (w ++ cs) r1 true
      | _ :: rest =>
        match rest.dropWhile (fun c => c == ' ') with
        | [] => split_word (w ++ cs.takeWhile (fun c => c != ' ')) r1 false
        | c :: t => split_tail (w ++ cs.takeWhile (fun c => c != ' ')) (c :: t) := by
  induction cs with
  | nil => intro w r1; simp
  | cons c cs ih =>
    intro w r1
    by_cases hc : c = ' '
    · subst hc
      rw [List.foldl_cons]
      have : split_step ' ' 1 (split_word w r1 true) ' ' = split_word w r1 false := by
        simp [split_step, split_word]
      rw [this, split_fold_gap]
      simp
    · rw [List.foldl_cons]
      have : split_step ' ' 1 (split_word w r1 true) c = split_word (w ++ [c]) r1 true := by
        simp [split_step, split_word, hc]
      rw [this, ih]
      simp [hc]

theorem split_fold_before (cs : List Char) (r0 r1 : List Char) :
    cs.foldl (split_step ' ' 1) (split_before r0 r1) =
      match cs.dropWhile (fun c => c == ' ') with
      | [] => split_before r0 r1
      | c :: t => t.foldl (split_step ' ' 1) (split_word [c] r1 true) := by
  induction cs with
  | nil => simp
  | cons c cs ih =>
    by_cases hc : c = ' '
    · subst hc
      rw [List.foldl_cons]
      have : split_step ' ' 1 (split_before r0 r1) ' ' = split_before r0 r1 := by
        simp [split_step, split_before]
      rw [this, ih]
      simp
    · rw [List.foldl_cons]
      have : split_step ' ' 1 (split_before r0 r1) c = split_word [c] r1 true := by
        simp [split_step, split_before, split_word, hc]
      rw [this]
      simp [hc]

theorem split_eq_finish (s : List Char) (r0 r1 : List Char) :
    split s ' ' 1 [r0, r1] = split_finish 1 (s.foldl (split_step ' ' 1) (split_before r0 r1)) :=
  rfl

theorem dropWhile_space_head (l t : List Char) (c : Char)
    (h : l.dropWhile (fun c => c == ' ') = c :: t) : c ≠ ' ' := by
  have := List.head?_dropWhile_not (fun c => c == ' ') l
  rw [h] at this
  simpa using this

theorem dropWhile_nonspace_head (l t : List Char) (c : Char)
    (h : l.dropWhile (fun c => c != ' ') = c :: t) : c = ' ' := by
  have := List.head?_dropWhile_not (fun c => c != ' ') l
  rw [h] at this
  simpa using this

theorem split_finish_tail (w t : List Char) (x : Char) (hx : x ≠ ' ') :
    split_finish 1 (split_tail w (x :: t)) =
      (2, [w, (x :: t).rdropWhile (fun c => c == ' ')]) := by
  have hp := List.rdropWhile_prefix (fun c => c == ' ') (x :: t)
  have hne : ((x :: t).rdropWhile (fun c => c == ' ')).length ≠ 0 := by
    intro h
    exact rdrop_ne_nil x t hx (List.length_eq_zero.mp h)
  by_cases hz : ((x :: t).rdropWhile (fun c => c == ' ')).length = (x :: t).length
  · have e := hp.eq_of_length hz
    simp only [split_finish, split_tail, hz, if_true]
    simp [split_clear, e]
  · have e := List.prefix_iff_eq_take.mp hp
    simp only [split_finish, split_tail, if_neg hz]
    simp only [ne_eq, hne, not_false_eq_true, if_true]
    simp only [Nat.add_one_sub_one, List.getD_eq_getElem?_getD, List.getElem?_cons_succ,
      List.getElem?_cons_zero, Option.getD_some, Nat.reduceAdd, Nat.sub_self, split_clear]
    rw [← e]
    rfl

theorem split_result (s r0 r1 : List Char) :
    split s ' ' 1 [r0, r1] =
      ((if first_word s = [] then 0 else 1) + (if remainder s = [] then 0 else 1),
        [first_word s, remainder s]) := by
  rw [split_eq_finish, split_fold_before]
  unfold first_word remainder after_word
  cases h0 : s.dropWhile (fun c => c == ' ') with
  | nil => simp [split_finish, split_before, split_clear, List.rdropWhile_nil]
  | cons c t =>
    have hc := dropWhile_space_head s t c h0
    simp only
    rw [split_fold_word]
    have hc2 : (c != ' ') = true := by simp [hc]
    simp only [List.dropWhile_cons, List.takeWhile_cons, hc2, if_true]
    cases h1 : t.dropWhile (fun c => c != ' ') with
    | nil =>
      have e : t.takeWhile (fun c => c != ' ') = t := by
        have := List.takeWhile_append_dropWhile (fun c => c != ' ') t
        rw [h1, List.append_nil] at this
        exact this
      simp [split_finish, split_word, split_clear, e, List.rdropWhile_nil]
    | cons y rest =>
      have hy := dropWhile_nonspace_head t rest y h1
      subst hy
      have hy2 : ((' ' : Char) == ' ') = true := by simp
      simp only [List.dropWhile_cons, hy2, if_true]
      cases h2 : rest.dropWhile (fun c => c == ' ') with
      | nil => simp [split_finish, split_word, split_clear, List.rdropWhile_nil]
      | cons z u =>
        have hz := dropWhile_space_head rest u z h2
        simp only
        rw [split_finish_tail _ u z hz]
        simp [rdrop_ne_nil z u hz]

/-- C8. For every string `s` and whatever the two result buffers held before,
`split (s, ' ', 1, result)` leaves in `result[0]` the first maximal space-free
word of `s` and in `result[1]` what follows the run of spaces after that word,
internal spaces kept and trailing spaces removed, a missing part being the
empty string, and returns the number of non-empty parts, at most 2.  So
`result[0]` contains no space and `result[1]` neither begins nor ends with one.
In particular `LIST -a /my dir` gives `LIST` and `-a /my dir`, and `NOOP`
followed by three spaces gives `NOOP` and the empty string. -/
theorem split_one_space :
    (∀ s r0 r1 : List Char,
      split s ' ' 1 [r0, r1] =
        ((if first_word s = [] then 0 else 1) + (if remainder s = [] then 0 else 1),
          [first_word s, remainder s]) ∧
      (split s ' ' 1 [r0, r1]).1 ≤ 2 ∧
      ' ' ∉ first_word s ∧
      (remainder s).head? ≠ some ' ' ∧
      (remainder s).getLast? ≠ some ' ' ∧
      (first_word s = [] → remainder s = [])) ∧
    (∀ r0 r1 : List Char, split "LIST -a /my dir".toList ' ' 1 [r0, r1] =
      (2, ["LIST".toList, "-a /my dir".toList])) ∧
    (∀ r0 r1 : List Char, split "NOOP   ".toList ' ' 1 [r0, r1] =
      (1, ["NOOP".toList, []])) := by
  refine ⟨?_, ?_, ?_⟩
  · intro s r0 r1
    refine ⟨split_result s r0 r1, ?_, ?_, ?_, ?_, ?_⟩
    · rw [split_result]
      simp only
      split_ifs <;> omega
    · intro hm
      have := List.mem_takeWhile_imp hm
      simp at this
    · unfold remainder
      intro hh
      have hp := List.rdropWhile_prefix (fun c => c == ' ') (after_word s)
      cases hr : (after_word s).rdropWhile (fun c => c == ' ') with
      | nil => rw [hr] at hh; simp at hh
      | cons a b =>
        rw [hr] at hh hp
        simp only [List.head?_cons, Option.some.injEq] at hh
        subst hh
        obtain ⟨v, hv⟩ := hp
        have hd := List.head?_dropWhile_not (fun c => c == ' ')
          ((s.dropWhile (fun c => c == ' ')).dropWhile (fun c => c != ' '))
        have : after_word s = ' ' :: (b ++ v) := by rw [← hv]; rfl
        unfold after_word at this
        rw [this] at hd
        simp at hd
    · unfold remainder
      intro hh
      have hne : (after_word s).rdropWhile (fun c => c == ' ') ≠ [] := by
        intro e; rw [e] at hh; simp at hh
      have := List.rdropWhile_last_not (fun c => c == ' ') (after_word s) hne
      rw [List.getLast?_eq_getLast _ hne] at hh
      simp only [Option.some.injEq] at hh
      rw [hh] at this
      simp at this
    · intro hw
      unfold first_word at hw
      unfold remainder after_word
      cases h0 : s.dropWhile (fun c => c == ' ') with
      | nil => simp [List.rdropWhile_nil]
      | cons c t =>
        have hc := dropWhile_space_head s t c h0
        rw [h0] at hw
        simp [hc] at hw
  · intro r0 r1
    rw [split_result]
    decide
  · intro r0 r1
    rw [split_result]
    decide

/-! ## Lemmas on chdir and the session's working directory -/

theorem to_real_path_ok_abspath (PATH_MAX : Nat) (partitions : List VIRTUAL_PARTITION)
    (cwd p r : List Char) (h : to_real_path PATH_MAX partitions cwd p = .ok r) :
    ∃ q, virtual_abspath PATH_MAX cwd p = some q := by
  cases hn : virtual_abspath PATH_MAX cwd p with
  | some q => exact ⟨q, rfl⟩
  | none =>
    unfold to_real_path at h
    rw [hn] at h
    split_ifs at h

theorem vrt_stat_ok_abspath (PATH_MAX : Nat) (partitions : List VIRTUAL_PARTITION)
    (S_IFDIR : Nat) (stat : List Char → Except Errno Stat) (cwd p : List Char) (st : Stat)
    (h : vrt_stat PATH_MAX partitions S_IFDIR stat cwd p = .ok st) :
    ∃ q, virtual_abspath PATH_MAX cwd p = some q := by
  cases hr : to_real_path PATH_MAX partitions cwd p with
  | ok r => exact to_real_path_ok_abspath PATH_MAX partitions cwd p r hr
  | error e =>
    unfold vrt_stat at h
    rw [hr] at h
    simp at h

/-- What `vrt_chdir` returns, case by case. -/
theorem vrt_chdir_cases (PATH_MAX : Nat) (partitions : List VIRTUAL_PARTITION)
    (S_IFDIR : Nat) (stat : List Char → Except Errno Stat) (cwd path : List Char) :
    (∃ e, vrt_stat PATH_MAX partitions S_IFDIR stat cwd path = .error e ∧
        vrt_chdir PATH_MAX partitions S_IFDIR stat cwd path = (.error e, cwd)) ∨
    (∃ st, vrt_stat PATH_MAX partitions S_IFDIR stat cwd path = .ok st ∧
        st.st_mode &&& S_IFDIR = 0 ∧
        vrt_chdir PATH_MAX partitions S_IFDIR stat cwd path = (.error .ENOTDIR, cwd)) ∨
    (∃ st q, vrt_stat PATH_MAX partitions S_IFDIR stat cwd path = .ok st ∧
        st.st_mode &&& S_IFDIR ≠ 0 ∧ virtual_abspath PATH_MAX cwd path = some q ∧
        vrt_chdir PATH_MAX partitions S_IFDIR stat cwd path =
          (.ok (), if q[1]?.isSome then q ++ ['/'] else q)) := by
  cases hs : vrt_stat PATH_MAX partitions S_IFDIR stat cwd path with
  | error e => exact Or.inl ⟨e, rfl, by simp [vrt_chdir, hs]⟩
  | ok st =>
    right
    by_cases hd : st.st_mode &&& S_IFDIR = 0
    · exact Or.inl ⟨st, rfl, hd, by simp [vrt_chdir, hs, hd]⟩
    · obtain ⟨q, hq⟩ := vrt_stat_ok_abspath PATH_MAX partitions S_IFDIR stat cwd path st hs
      exact Or.inr ⟨st, q, rfl, hd, hq, by simp [vrt_chdir, hs, hd, hq]⟩

theorem second_char_iff (ks : List (List Char)) :
    ('/' :: List.intercalate ['/'] ks)[1]?.isSome = true ↔
      '/' :: List.intercalate ['/'] ks ≠ ['/'] := by
  cases hi : List.intercalate ['/'] ks with
  | nil => simp
  | cons a b => simp

theorem virtual_abspath_root_or_no_slash (ks : List (List Char)) (h : ∀ k ∈ ks, GoodSeg k) :
    ('/' :: List.intercalate ['/'] ks).getLast? = some '/' →
      '/' :: List.intercalate ['/'] ks = ['/'] := by
  intro hl
  by_cases hk : ks = []
  · subst hk; rfl
  · rw [← render_eq_intercalate ks hk] at hl
    exact absurd hl (render_getLast ks h)

/-- The shape of a session's working directory: the root, or an absolute
path that does not end in a slash followed by one slash. -/
theorem vrt_chdir_cwd_shape (PATH_MAX : Nat) (partitions : List VIRTUAL_PARTITION)
    (S_IFDIR : Nat) (stat : List Char → Except Errno Stat) (cwd path : List Char)
    (hcwd : cwd.head? = some '/') :
    (vrt_chdir PATH_MAX partitions S_IFDIR stat cwd path).2 = cwd ∨
    (vrt_chdir PATH_MAX partitions S_IFDIR stat cwd path).2 = ['/'] ∨
    ∃ q, q.head? = some '/' ∧ q.getLast? ≠ some '/' ∧
      (vrt_chdir PATH_MAX partitions S_IFDIR stat cwd path).2 = q ++ ['/'] := by
  rcases vrt_chdir_cases PATH_MAX partitions S_IFDIR stat cwd path with
    ⟨e, -, hc⟩ | ⟨st, -, -, hc⟩ | ⟨st, q, -, -, hq, hc⟩
  · left; rw [hc]
  · left; rw [hc]
  · right
    rw [hc]
    obtain ⟨ks, hgood, rfl, -⟩ := abspath_shape PATH_MAX cwd path q hcwd hq
    by_cases hr : '/' :: List.intercalate ['/'] ks = ['/']
    · left
      rw [hr]; rfl
    · right
      have h1 := (second_char_iff ks).mpr hr
      exact ⟨'/' :: List.intercalate ['/'] ks, rfl,
        fun hl => hr (virtual_abspath_root_or_no_slash ks hgood hl),
        by simp only [h1, if_true]⟩

/-! ## Lemmas on the mutating primitives -/

theorem with_virtual_path_observed {α : Type} (PATH_MAX : Nat)
    (partitions : List VIRTUAL_PARTITION) (call : List Char → Effect)
    (f : List Char → Except Errno α) (cwd path : List Char) :
    observed (with_virtual_path PATH_MAX partitions cwd (recorded call f) path) =
      match to_real_path PATH_MAX partitions cwd path with
      | .error e => (.error e, [])
      | .ok [] => (.error .ENOENT, [])
      | .ok (c :: cs) => (f (c :: cs), [call (c :: cs)]) := by
  unfold with_virtual_path
  cases h : to_real_path PATH_MAX partitions cwd path with
  | error e => rfl
  | ok r =>
    cases r with
    | nil => rfl
    | cons c cs => rfl

theorem with_virtual_path_observed_fst {α : Type} (PATH_MAX : Nat)
    (partitions : List VIRTUAL_PARTITION) (call : List Char → Effect)
    (f : List Char → Except Errno α) (cwd path : List Char) :
    (observed (with_virtual_path PATH_MAX partitions cwd (recorded call f) path)).1 =
      with_virtual_path PATH_MAX partitions cwd f path := by
  rw [with_virtual_path_observed]
  unfold with_virtual_path
  cases h : to_real_path PATH_MAX partitions cwd path with
  | error e => rfl
  | ok r =>
    cases r with
    | nil => rfl
    | cons c cs => rfl

/-- C11. `vrt_unlink` and `vrt_mkdir` on a path that resolves to the virtual
root (or does not resolve), and `vrt_rename` whenever its source or its
destination resolves to the virtual root or does not resolve, return -1 and the
underlying `unlink`, `mkdir` or `rename`, instrumented to record its
invocations, records none.  On real paths the same instrumentation records
exactly the one call made. -/
theorem vrt_mutators_refuse_root {α : Type} (PATH_MAX : Nat)
    (partitions : List VIRTUAL_PARTITION) (unlink mkdir : List Char → Except Errno α)
    (rename : List Char → List Char → Except Errno α) (cwd path to_path : List Char) :
    ((to_real_path PATH_MAX partitions cwd path = .ok [] ∨
        ∃ e, to_real_path PATH_MAX partitions cwd path = .error e) →
      (∃ e, observed (vrt_unlink PATH_MAX partitions (recorded .unlink unlink) cwd path)
          = (.error e, [])) ∧
      (∃ e, observed (vrt_mkdir PATH_MAX partitions
          (recorded (fun p => .mkdir p 511) mkdir) cwd path) = (.error e, []))) ∧
    ((to_real_path PATH_MAX partitions cwd path = .ok [] ∨
        (∃ e, to_real_path PATH_MAX partitions cwd path = .error e) ∨
        to_real_path PATH_MAX partitions cwd to_path = .ok [] ∨
        ∃ e, to_real_path PATH_MAX partitions cwd to_path = .error e) →
      ∃ e, observed (vrt_rename PATH_MAX partitions (recorded2 .rename rename)
          cwd path to_path) = (.error e, [])) ∧
    (∀ real_path real_to : List Char, real_path ≠ [] → real_to ≠ [] →
      to_real_path PATH_MAX partitions cwd path = .ok real_path →
      to_real_path PATH_MAX partitions cwd to_path = .ok real_to →
      observed (vrt_unlink PATH_MAX partitions (recorded .unlink unlink) cwd path)
          = (unlink real_path, [.unlink real_path]) ∧
      observed (vrt_mkdir PATH_MAX partitions
          (recorded (fun p => .mkdir p 511) mkdir) cwd path)
          = (mkdir real_path, [.mkdir real_path 511]) ∧
      observed (vrt_rename PATH_MAX partitions (recorded2 .rename rename)
          cwd path to_path) = (rename real_path real_to, [.rename real_path real_to])) := by
  refine ⟨?_, ?_, ?_⟩
  · intro h
    unfold vrt_unlink vrt_mkdir
    rw [with_virtual_path_observed, with_virtual_path_observed]
    rcases h with h | ⟨e, h⟩
    · rw [h]; exact ⟨⟨_, rfl⟩, ⟨_, rfl⟩⟩
    · rw [h]; exact ⟨⟨_, rfl⟩, ⟨_, rfl⟩⟩
  · intro h
    unfold vrt_rename
    cases ht : to_real_path PATH_MAX partitions cwd to_path with
    | error e => exact ⟨e, rfl⟩
    | ok r =>
      cases r with
      | nil => exact ⟨.ENOENT, rfl⟩
      | cons c cs =>
        simp only
        have hw := with_virtual_path_observed PATH_MAX partitions
          (fun p => Effect.rename p (c :: cs)) (fun p => rename p (c :: cs)) cwd path
        have e1 : (fun real_from => recorded2 Effect.rename rename real_from (c :: cs))
            = recorded (fun p => Effect.rename p (c :: cs)) (fun p => rename p (c :: cs)) := rfl
        rw [e1, hw]
        rcases h with h | ⟨e, h⟩ | h | ⟨e, h⟩
        · rw [h]; exact ⟨_, rfl⟩
        · rw [h]; exact ⟨_, rfl⟩
        · rw [ht] at h; simp at h
        · rw [ht] at h; simp at h
  · intro real_path real_to h1 h2 hp ht
    obtain ⟨c, cs, rfl⟩ := List.exists_cons_of_ne_nil h1
    obtain ⟨d, ds, rfl⟩ := List.exists_cons_of_ne_nil h2
    unfold vrt_unlink vrt_mkdir vrt_rename
    rw [with_virtual_path_observed, with_virtual_path_observed, hp, ht]
    refine ⟨rfl, rfl, ?_⟩
    simp only
    have hw := with_virtual_path_observed PATH_MAX partitions
      (fun p => Effect.rename p (d :: ds)) (fun p => rename p (d :: ds)) cwd path
    have e1 : (fun real_from => recorded2 Effect.rename rename real_from (d :: ds))
        = recorded (fun p => Effect.rename p (d :: ds)) (fun p => rename p (d :: ds)) := rfl
    rw [e1, hw, hp]

theorem vrt_mutators_refuse_root_witness :
    (∃ e, observed (vrt_unlink 1024 VIRTUAL_PARTITIONS
        (recorded .unlink (fun _ => (.ok () : Except Errno Unit))) "/carda/".toList
        "..".toList) = (.error e, [])) ∧
    (∃ e, observed (vrt_mkdir 1024 VIRTUAL_PARTITIONS
        (recorded (fun p => .mkdir p 511) (fun _ => (.ok () : Except Errno Unit)))
        "/carda/".toList "..".toList) = (.error e, [])) :=
  (vrt_mutators_refuse_root 1024 VIRTUAL_PARTITIONS (fun _ => .ok ()) (fun _ => .ok ())
    (fun _ _ => .ok ()) "/carda/".toList "..".toList "/".toList).1 (Or.inl (by decide))

/-! ## Lemmas on command dispatch -/

theorem dispatch_index_no_match (commands : List (List Char)) (cmd : List Char)
    (hno : ∀ name ∈ commands, name.map tolower ≠ cmd.map tolower) :
    dispatch_index commands cmd = commands.length := by
  induction commands with
  | nil => rfl
  | cons name more ih =>
    have h1 : ¬ strcasecmp name cmd = 0 := by
      rw [strcasecmp_eq_zero]; exact hno name (by simp)
    rw [dispatch_index, if_neg h1, ih (fun n hn => hno n (by simp [hn]))]
    rfl

theorem split_args (cmd_line r0 r1 : List Char) :
    (split cmd_line ' ' 1 [r0, r1]).2 = [first_word cmd_line, remainder cmd_line] := by
  rw [split_result]

/-- C12. For a session that is not authenticated, a non-empty command line
whose verb, its first space-delimited word compared ignoring ASCII case, is none
of USER, PASS, QUIT, REIN and NOOP, is answered by the single reply 530: the
session and the static variables (the password among them) are unchanged, and
the reply is the only call made, so no filesystem, mount or data-connection
operation takes place. -/
theorem unauthenticated_needs_login (env : Env) (h : List Effect) (globals : ftp_globals)
    (client : client_t) (cmd_line : List Char) (hauth : client.authenticated = false)
    (hne : cmd_line ≠ [])
    (hverb : (first_word cmd_line).map tolower ∉
      ["user".toList, "pass".toList, "quit".toList, "rein".toList, "noop".toList]) :
    process_command env h globals client cmd_line =
      { client := client
        globals := globals
        effects := [.reply client.socket 530 "Please login with USER and PASS.".toList]
        result := env.ret h (.reply client.socket 530
          "Please login with USER and PASS.".toList) } := by
  have hidx : dispatch_index unauthenticated_commands (first_word cmd_line) = 5 := by
    rw [dispatch_index_no_match]
    · rfl
    · intro name hn heq
      have hl : ∀ n ∈ unauthenticated_commands, n.map tolower ∈
          ["user".toList, "pass".toList, "quit".toList, "rein".toList, "noop".toList] := by
        decide
      exact hverb (heq ▸ hl name hn)
  simp only [process_command, hne, if_false, hauth, dispatch_to_handler, split_args]
  simp only [List.getD_cons_zero, hidx]
  simp [unauthenticated_handlers, ftp_NEEDAUTH, write_reply]

theorem unauthenticated_needs_login_witness :
    process_command sample_env [] (sample_globals none) (accept_client 3 (0, 0))
        "retr /carda/x".toList =
      { client := accept_client 3 (0, 0)
        globals := sample_globals none
        effects := [.reply 3 530 "Please login with USER and PASS.".toList]
        result := 0 } :=
  unauthenticated_needs_login sample_env [] (sample_globals none) (accept_client 3 (0, 0))
    "retr /carda/x".toList rfl (by decide) (by decide)

/-- C13, as amended. For an authenticated session, a non-empty command line
whose verb, compared ignoring ASCII case, is none of the implemented commands
USER, PASS, REIN, QUIT, SYST, TYPE, MODE, PWD, CWD, CDUP, DELE, MKD, RMD, RNFR,
RNTO, SIZE, PASV, PORT, LIST, NLST, RETR, STOR, APPE, REST, SITE, NOOP, ALLO is
answered by the single reply 502: the session and the static variables are
unchanged and the reply is the only call made. -/
theorem authenticated_unknown_verb (env : Env) (h : List Effect) (globals : ftp_globals)
    (client : client_t) (cmd_line : List Char) (hauth : client.authenticated = true)
    (hne : cmd_line ≠ [])
    (hverb : (first_word cmd_line).map tolower ∉
      ["user".toList, "pass".toList, "rein".toList, "quit".toList, "syst".toList,
       "type".toList, "mode".toList, "pwd".toList, "cwd".toList, "cdup".toList,
       "dele".toList, "mkd".toList, "rmd".toList, "rnfr".toList, "rnto".toList,
       "size".toList, "pasv".toList, "port".toList, "list".toList, "nlst".toList,
       "retr".toList, "stor".toList, "appe".toList, "rest".toList, "site".toList,
       "noop".toList, "allo".toList]) :
    process_command env h globals client cmd_line =
      { client := client
        globals := globals
        effects := [.reply client.socket 502 "Command not implemented.".toList]
        result := env.ret h (.reply client.socket 502 "Command not implemented.".toList) } := by
  have hidx : dispatch_index authenticated_commands (first_word cmd_line) = 27 := by
    rw [dispatch_index_no_match]
    · rfl
    · intro name hn heq
      have hl : ∀ n ∈ authenticated_commands, n.map tolower ∈
          ["user".toList, "pass".toList, "rein".toList, "quit".toList, "syst".toList,
           "type".toList, "mode".toList, "pwd".toList, "cwd".toList, "cdup".toList,
           "dele".toList, "mkd".toList, "rmd".toList, "rnfr".toList, "rnto".toList,
           "size".toList, "pasv".toList, "port".toList, "list".toList, "nlst".toList,
           "retr".toList, "stor".toList, "appe".toList, "rest".toList, "site".toList,
           "noop".toList, "allo".toList] := by
        decide
      exact hverb (heq ▸ hl name hn)
  simp only [process_command, hne, if_false, hauth, if_true, dispatch_to_handler, split_args]
  simp only [List.getD_cons_zero, hidx]
  simp [authenticated_handlers, ftp_UNKNOWN, write_reply]

theorem authenticated_unknown_verb_witness :
    process_command sample_env [] (sample_globals none) sample_client "FEAT".toList =
      { client := sample_client
        globals := sample_globals none
        effects := [.reply 3 502 "Command not implemented.".toList]
        result := 0 } :=
  authenticated_unknown_verb sample_env [] (sample_globals none) sample_client
    "FEAT".toList rfl (by decide) (by decide)

/-- C13 as first stated fails: RMD is not in the list of the claim, yet an
authenticated session that sends `RMD x` in `/carda/` is not answered 502: the
table sends RMD to the handler of DELE, which calls the underlying `unlink` on
`carda:/x` and replies 250.  The empty command line, whose verb is not in the
list either, gets no reply at all. -/
theorem rmd_is_dispatched_to_dele :
    (first_word "RMD x".toList).map tolower ∉
      ["user".toList, "pass".toList, "rein".toList, "quit".toList, "syst".toList,
       "type".toList, "mode".toList, "pwd".toList, "cwd".toList, "cdup".toList,
       "dele".toList, "mkd".toList, "rnfr".toList, "rnto".toList,
       "size".toList, "pasv".toList, "port".toList, "list".toList, "nlst".toList,
       "retr".toList, "stor".toList, "appe".toList, "rest".toList, "site".toList,
       "noop".toList, "allo".toList] ∧
    (process_command sample_env [] (sample_globals none) sample_client
        "RMD x".toList).effects =
      [.unlink "carda:/x".toList, .reply 3 250 "File or directory removed.".toList] ∧
    (process_command sample_env [] (sample_globals none) sample_client []).effects = [] := by
  decide

/-! ## Lemmas on the password -/

/-- C14, as amended. `ftp_PASS` sets `authenticated` and replies 230 exactly when
no password is set (the pointer is NULL: never set, or cleared by SITE NOPASSWD)
or the attempt equals the password set; in every other case it replies 530 and
leaves the session as it was.  A password set to the empty string is a password
like any other: only the empty attempt equals it. -/
theorem ftp_PASS_contract (env : Env) (h : List Effect) (globals : ftp_globals)
    (client : client_t) (password_attempt : List Char) :
    ((globals.password = none ∨ globals.password = some password_attempt) →
      ftp_PASS env h globals client password_attempt =
        { client := { client with authenticated := true }
          globals := globals
          effects := [.reply client.socket 230 "User logged in, proceed.".toList]
          result := env.ret h (.reply client.socket 230 "User logged in, proceed.".toList) }) ∧
    (¬ (globals.password = none ∨ globals.password = some password_attempt) →
      ftp_PASS env h globals client password_attempt =
        { client := client
          globals := globals
          effects := [.reply client.socket 530 "Login incorrect.".toList]
          result := env.ret h (.reply client.socket 530 "Login incorrect.".toList) }) ∧
    (∀ new_password : List Char,
      (ftp_SITE_PASSWD env h globals client new_password).globals.password
        = some new_password) ∧
    (ftp_SITE_NOPASSWD env h globals client []).globals.password = none := by
  refine ⟨?_, ?_, fun _ => rfl, rfl⟩
  · intro hp
    have hc : compare_ftp_password globals password_attempt = true := by
      unfold compare_ftp_password
      rcases hp with hp | hp
      · rw [hp]
      · rw [hp]; simp
    simp [ftp_PASS, hc, write_reply]
  · intro hp
    have hc : compare_ftp_password globals password_attempt = false := by
      unfold compare_ftp_password
      cases hg : globals.password with
      | none => exact absurd (Or.inl hg) hp
      | some pw =>
        have : pw ≠ password_attempt := fun e => hp (Or.inr (by rw [hg, e]))
        simpa using this
    simp [ftp_PASS, hc, write_reply]

theorem ftp_PASS_contract_witness :
    ftp_PASS sample_env [] (sample_globals (some "secret".toList)) (accept_client 3 (0, 0))
        "secret".toList =
      { client := { accept_client 3 (0, 0) with authenticated := true }
        globals := sample_globals (some "secret".toList)
        effects := [.reply 3 230 "User logged in, proceed.".toList]
        result := 0 } :=
  (ftp_PASS_contract sample_env [] (sample_globals (some "secret".toList))
    (accept_client 3 (0, 0)) "secret".toList).1 (Or.inr rfl)

/-- C14 as first stated fails: `SITE PASSWD` with no argument sets the password
to the empty string, and with that password the attempt `x` is answered 530 and
the session stays unauthenticated: a password that is the empty string does not
disable the check. -/
theorem empty_password_is_checked :
    (process_command sample_env [] (sample_globals none) sample_client
        "SITE PASSWD".toList).globals.password = some [] ∧
    (ftp_PASS sample_env [] (sample_globals (some [])) (accept_client 3 (0, 0))
        "x".toList).effects = [.reply 3 530 "Login incorrect.".toList] ∧
    (ftp_PASS sample_env [] (sample_globals (some [])) (accept_client 3 (0, 0))
        "x".toList).client.authenticated = false := by
  decide

/-! ## Lemmas on the restart marker -/

theorem prepare_data_connection_marker (env : Env) (h : List Effect) (globals : ftp_globals)
    (client : client_t) (pre : List Effect) (callback : data_connection_callback)
    (arg : callback_arg) (cleanup : data_connection_cleanup) :
    (prepare_data_connection env h globals client pre callback arg cleanup).client.restart_marker
      = client.restart_marker := by
  unfold prepare_data_connection
  simp only [write_reply]
  split_ifs <;> rfl

theorem prepare_or_release_marker (env : Env) (h : List Effect) (globals : ftp_globals)
    (client : client_t) (pre : List Effect) (callback : data_connection_callback)
    (arg : callback_arg) (cleanup : data_connection_cleanup) :
    (prepare_or_release env h globals client pre callback arg cleanup).client.restart_marker
      = client.restart_marker := by
  unfold prepare_or_release
  simp only
  split_ifs
  · exact prepare_data_connection_marker env h globals client pre callback arg cleanup
  · exact prepare_data_connection_marker env h globals client pre callback arg cleanup

theorem stor_or_append_marker (env : Env) (h : List Effect) (globals : ftp_globals)
    (client : client_t) (pre : List Effect) (f : Except Errno Nat) :
    (stor_or_append env h globals client pre f).client.restart_marker
      = client.restart_marker := by
  unfold stor_or_append
  split
  · rfl
  · rw [prepare_or_release_marker]

/-- What holds of the restart marker: `ftp_STOR` always leaves it 0; `ftp_RETR`
leaves it 0 whenever the file was opened, and leaves it as it was when the
file could not be opened. -/
theorem restart_marker_after_transfer (env : Env) (h : List Effect) (globals : ftp_globals)
    (client : client_t) (path : List Char) :
    (ftp_STOR env h globals client path).client.restart_marker = 0 ∧
    ((∃ file, vrt_fopen env.PATH_MAX env.partitions (fun p => env.fopen h p ['r', 'b'])
        client.cwd path = .ok file) →
      (ftp_RETR env h globals client path).client.restart_marker = 0) ∧
    ((∃ e, vrt_fopen env.PATH_MAX env.partitions (fun p => env.fopen h p ['r', 'b'])
        client.cwd path = .error e) →
      (ftp_RETR env h globals client path).client = client) := by
  refine ⟨?_, ?_, ?_⟩
  · unfold ftp_STOR
    simp only
    split
    · split_ifs <;> first | rfl | rw [stor_or_append_marker]
    · rw [stor_or_append_marker]
  · rintro ⟨file, hf⟩
    have h1 := with_virtual_path_observed_fst env.PATH_MAX env.partitions
      (fun p => Effect.fopen p ['r', 'b']) (fun p => env.fopen h p ['r', 'b']) client.cwd path
    unfold vrt_fopen at hf
    rw [hf] at h1
    unfold ftp_RETR vrt_fopen
    simp only [h1]
    split_ifs <;> first | rfl | rw [prepare_or_release_marker]
  · rintro ⟨e, hf⟩
    have h1 := with_virtual_path_observed_fst env.PATH_MAX env.partitions
      (fun p => Effect.fopen p ['r', 'b']) (fun p => env.fopen h p ['r', 'b']) client.cwd path
    unfold vrt_fopen at hf
    rw [hf] at h1
    unfold ftp_RETR vrt_fopen
    simp only [h1]
    rfl

/-- C15 at its failing input. A session in `/carda/` holds the restart marker
100 and the file cannot be opened: `ftp_RETR` replies 550 and returns before the
marker is reset, so the marker is still 100 afterwards, while `ftp_STOR` on the
same input leaves it 0. -/
theorem ftp_RETR_keeps_restart_marker :
    (ftp_RETR { sample_env with fopen := fun _ _ _ => .error .ENOENT } []
        (sample_globals none) { sample_client with restart_marker := 100 }
        "missing".toList).client.restart_marker = 100 ∧
    (ftp_RETR { sample_env with fopen := fun _ _ _ => .error .ENOENT } []
        (sample_globals none) { sample_client with restart_marker := 100 }
        "missing".toList).effects =
      [.fopen "carda:/missing".toList "rb".toList,
       .reply 3 550 "No such file or directory".toList] ∧
    (ftp_STOR { sample_env with fopen := fun _ _ _ => .error .ENOENT } []
        (sample_globals none) { sample_client with restart_marker := 100 }
        "missing".toList).client.restart_marker = 0 := by
  decide

/-! ## Lemmas on the PORT argument -/

theorem scan_digits_append (d : List Char) : ∀ (width : Nat) (r : List Char),
    d.length ≤ width → (∀ c ∈ d, c.isDigit = true) →
    (∀ c, r.head? = some c → c.isDigit = false) →
    scan_digits width (d ++ r) = (d, r) := by
  induction d with
  | nil =>
    intro width r _ _ hr
    cases width with
    | zero => rfl
    | succ w =>
      cases r with
      | nil => rfl
      | cons c s =>
        have := hr c rfl
        simp [scan_digits, this]
  | cons x d ih =>
    intro width r hl hd hr
    cases width with
    | zero => simp at hl
    | succ w =>
      have hx : x.isDigit = true := hd x (by simp)
      have := ih w r (by simpa using hl) (fun c hc => hd c (by simp [hc])) hr
      simp [scan_digits, hx, this]

theorem digit_not_space (x : Char) (hx : x.isDigit = true) :
    isspace x = false ∧ x ≠ '-' ∧ x ≠ '+' := by
  have h1 : 48 ≤ x.toNat ∧ x.toNat ≤ 57 := by
    simp only [Char.isDigit, Bool.and_eq_true, decide_eq_true_eq] at hx
    exact ⟨hx.1, hx.2⟩
  refine ⟨?_, ?_, ?_⟩
  · have hs : x ≠ ' ' := by
      intro e; rw [e] at h1; revert h1; decide
    simp only [isspace, Bool.or_eq_false_iff, beq_eq_false_iff_ne, ne_eq, hs, not_false_eq_true,
      Bool.and_eq_false_imp, decide_eq_true_eq, decide_eq_false_iff_not, true_and]
    intro _; omega
  · intro e; rw [e] at h1; revert h1; decide
  · intro e; rw [e] at h1; revert h1; decide

theorem scan_unsigned_decimal (d r : List Char) (hd : decimal3 d)
    (hr : ∀ c, r.head? = some c → c.isDigit = false) :
    scan_unsigned 3 (d ++ r) = some (decimal_value d, r) := by
  obtain ⟨hne, hlen, hdig⟩ := hd
  obtain ⟨x, t, rfl⟩ := List.exists_cons_of_ne_nil hne
  obtain ⟨h1, h2, h3⟩ := digit_not_space x (hdig x (by simp))
  have hs := scan_digits_append (x :: t) 3 r hlen hdig hr
  have hdrop : ((x :: t) ++ r).dropWhile isspace = x :: (t ++ r) := by
    simp [List.dropWhile, h1]
  unfold scan_unsigned
  rw [hdrop]
  split
  · rename_i heq; exact absurd (List.cons.inj heq).1 h2
  · rename_i heq; exact absurd (List.cons.inj heq).1 h3
  · rw [List.cons_append] at hs
    simp [hs]

theorem intercalate_comma_cons (d : List Char) (ds : List (List Char)) :
    List.intercalate [','] (d :: ds) =
      d ++ (if ds = [] then [] else ',' :: List.intercalate [','] ds) := by
  cases ds with
  | nil => simp [List.intercalate]
  | cons e es => simp [List.intercalate]

theorem sscanf_3u_intercalate (n : Nat) : ∀ ds : List (List Char),
    (∀ d ∈ ds, decimal3 d) →
    sscanf_3u n (List.intercalate [','] ds) = (ds.take n).map decimal_value := by
  induction n with
  | zero => intro ds _; simp [sscanf_3u]
  | succ n ih =>
    intro ds hds
    cases ds with
    | nil =>
      simp [sscanf_3u, List.intercalate, scan_unsigned, scan_digits]
    | cons d rest =>
      have hd := hds d (by simp)
      rw [intercalate_comma_cons]
      have hr : ∀ c, (if rest = [] then [] else ',' :: List.intercalate [','] rest).head?
          = some c → c.isDigit = false := by
        intro c hc
        split_ifs at hc with h0
        · simp at hc
        · simp only [List.head?_cons, Option.some.injEq] at hc
          rw [← hc]; decide
      rw [sscanf_3u, scan_unsigned_decimal d _ hd hr]
      simp only [List.take_succ_cons, List.map_cons]
      by_cases hn : n = 0
      · subst hn; simp
      · simp only [hn, if_false]
        by_cases h0 : rest = []
        · subst h0; simp
        · simp only [h0, if_false]
          rw [ih rest (fun e he => hds e (by simp [he]))]

theorem port_bits (p1 p2 : Nat) :
    ((p1 &&& 255) <<< 8) ||| (p2 &&& 255) = (p1 % 256) * 256 + p2 % 256 := by
  have e1 : p1 &&& 255 = p1 % 256 := Nat.and_pow_two_sub_one_eq_mod p1 8
  have e2 : p2 &&& 255 = p2 % 256 := Nat.and_pow_two_sub_one_eq_mod p2 8
  rw [e1, e2, Nat.shiftLeft_eq]
  have hlt : p2 % 256 < 2 ^ 8 := Nat.mod_lt _ (by decide)
  have := Nat.mul_add_lt_is_or hlt (p1 % 256)
  rw [← Nat.mul_comm (2 ^ 8)] 
  omega

theorem address_bits (h1 h2 h3 h4 : Nat) (a2 : h2 ≤ 255) (a3 : h3 ≤ 255) (a4 : h4 ≤ 255) :
    (h1 <<< 24) ||| (h2 <<< 16) ||| (h3 <<< 8) ||| h4 =
      h1 * 16777216 + h2 * 65536 + h3 * 256 + h4 := by
  simp only [Nat.shiftLeft_eq]
  have s4 := Nat.mul_add_lt_is_or (show h4 < 2 ^ 8 by omega) (h1 * 65536 + h2 * 256 + h3)
  have s3 := Nat.mul_add_lt_is_or (show h3 * 2 ^ 8 < 2 ^ 16 by omega) (h1 * 256 + h2)
  have s2 := Nat.mul_add_lt_is_or (show h2 * 2 ^ 16 < 2 ^ 24 by omega) h1
  have e2 : h1 * 2 ^ 24 ||| h2 * 2 ^ 16 = h1 * 2 ^ 24 + h2 * 2 ^ 16 := by
    rw [Nat.mul_comm h1]; exact s2.symm
  rw [e2]
  have e3 : (h1 * 2 ^ 24 + h2 * 2 ^ 16) ||| h3 * 2 ^ 8
      = h1 * 2 ^ 24 + h2 * 2 ^ 16 + h3 * 2 ^ 8 := by
    have : h1 * 2 ^ 24 + h2 * 2 ^ 16 = 2 ^ 16 * (h1 * 256 + h2) := by omega
    rw [this]; exact s3.symm
  rw [e3]
  have e4 : (h1 * 2 ^ 24 + h2 * 2 ^ 16 + h3 * 2 ^ 8) ||| h4
      = h1 * 2 ^ 24 + h2 * 2 ^ 16 + h3 * 2 ^ 8 + h4 := by
    have : h1 * 2 ^ 24 + h2 * 2 ^ 16 + h3 * 2 ^ 8 = 2 ^ 8 * (h1 * 65536 + h2 * 256 + h3) := by
      omega
    rw [this]; exact s4.symm
  rw [e4]
  norm_num

theorem sscanf_six (d1 d2 d3 d4 d5 d6 : List Char) (k1 : decimal3 d1) (k2 : decimal3 d2)
    (k3 : decimal3 d3) (k4 : decimal3 d4) (k5 : decimal3 d5) (k6 : decimal3 d6) :
    sscanf_3u 6 (List.intercalate [','] [d1, d2, d3, d4, d5, d6]) =
      [decimal_value d1, decimal_value d2, decimal_value d3, decimal_value d4,
       decimal_value d5, decimal_value d6] := by
  rw [sscanf_3u_intercalate]
  · rfl
  · intro d hd
    simp only [List.mem_cons, List.mem_singleton, List.not_mem_nil, or_false] at hd
    rcases hd with rfl | rfl | rfl | rfl | rfl | rfl <;> assumption

/-- C16. For a PORT argument made of six decimal numbers of one to three
digits separated by commas, `ftp_PORT` replies 200 when the first four are at
most 255, and then stores the address h1.h2.h3.h4 and the port
`(p1 mod 256) * 256 + (p2 mod 256)` (closing the passive listener); when one of
the first four exceeds 255, or when the argument has fewer than six numbers, it
replies 501, makes no other call and leaves the session, with its stored
address, port and passive listener, unchanged. -/
theorem ftp_PORT_contract (env : Env) (h : List Effect) (globals : ftp_globals)
    (client : client_t) :
    (∀ d1 d2 d3 d4 d5 d6 : List Char, decimal3 d1 → decimal3 d2 → decimal3 d3 →
      decimal3 d4 → decimal3 d5 → decimal3 d6 →
      (decimal_value d1 ≤ 255 ∧ decimal_value d2 ≤ 255 ∧ decimal_value d3 ≤ 255 ∧
          decimal_value d4 ≤ 255 →
        ftp_PORT env h globals client (List.intercalate [','] [d1, d2, d3, d4, d5, d6]) =
          write_reply env h globals
            { close_passive_socket client with
              address :=
                (decimal_value d1 * 16777216 + decimal_value d2 * 65536 +
                    decimal_value d3 * 256 + decimal_value d4,
                  (decimal_value d5 % 256) * 256 + decimal_value d6 % 256) }
            (close_passive_socket_calls client) 200 "PORT command successful.".toList) ∧
      (¬ (decimal_value d1 ≤ 255 ∧ decimal_value d2 ≤ 255 ∧ decimal_value d3 ≤ 255 ∧
          decimal_value d4 ≤ 255) →
        ftp_PORT env h globals client (List.intercalate [','] [d1, d2, d3, d4, d5, d6]) =
          write_reply env h globals client [] 501 "Syntax error in parameters.".toList)) ∧
    (∀ ds : List (List Char), ds.length < 6 → (∀ d ∈ ds, decimal3 d) →
      ftp_PORT env h globals client (List.intercalate [','] ds) =
        write_reply env h globals client [] 501 "Syntax error in parameters.".toList) := by
  refine ⟨?_, ?_⟩
  · intro d1 d2 d3 d4 d5 d6 k1 k2 k3 k4 k5 k6
    have hs := sscanf_six d1 d2 d3 d4 d5 d6 k1 k2 k3 k4 k5 k6
    refine ⟨?_, ?_⟩
    · intro hb
      unfold ftp_PORT
      rw [hs]
      simp only [inet_aton_dotted, hb, and_self, if_true]
      rw [port_bits, address_bits _ _ _ _ hb.2.1 hb.2.2.1 hb.2.2.2]
    · intro hb
      unfold ftp_PORT
      rw [hs]
      simp only [inet_aton_dotted, hb, if_false]
  · intro ds hlen hds
    unfold ftp_PORT
    rw [sscanf_3u_intercalate 6 ds hds]
    have hl : ((ds.take 6).map decimal_value).length < 6 := by
      simp only [List.length_map, List.length_take]; omega
    split
    · rename_i heq
      rw [heq] at hl
      simp at hl
    · rfl

theorem ftp_PORT_contract_witness :
    ftp_PORT sample_env [] (sample_globals none) sample_client "192,168,1,20,7,208".toList =
      write_reply sample_env [] (sample_globals none)
        { close_passive_socket sample_client with
          address := (192 * 16777216 + 168 * 65536 + 1 * 256 + 20, 7 * 256 + 208) }
        (close_passive_socket_calls sample_client) 200 "PORT command successful.".toList :=
  ((ftp_PORT_contract sample_env [] (sample_globals none) sample_client).1
    "192".toList "168".toList "1".toList "20".toList "7".toList "208".toList
    (by unfold decimal3; decide) (by unfold decimal3; decide) (by unfold decimal3; decide)
    (by unfold decimal3; decide) (by unfold decimal3; decide) (by unfold decimal3; decide)).1
    (by decide)

/-! ## Lemmas on the reply of MKD -/

theorem await_would_block (env : Env) (h : List Effect) (client : client_t)
    (hpos : 0 < env.EAGAIN) (hin : 0 < env.EINPROGRESS) (hal : 0 < env.EALREADY)
    (hisc : env.EISCONN ≠ env.EAGAIN)
    (hconn : client.data_connection_connected = false) (hblock : would_block env h client) :
    await_data_connection env h client =
      (client,
        if env.gettime (h ++ [connection_attempt client]) > client.data_connection_timer
        then -1 else -env.EAGAIN,
        [connection_attempt client]) := by
  unfold would_block connection_attempt at hblock
  unfold await_data_connection connection_attempt
  by_cases hp : client.passive_socket ≥ 0
  · simp only [hp, if_true] at hblock ⊢
    have hneg : ¬ (-env.EAGAIN ≥ 0) := by omega
    simp only [hblock, hneg, if_false, hconn]
    split_ifs <;> simp_all
  · simp only [hp, if_false] at hblock ⊢
    have hres : (if env.ret h (.net_connect client.data_socket client.address) < 0 ∧
          (env.ret h (.net_connect client.data_socket client.address) = -env.EINPROGRESS ∨
            env.ret h (.net_connect client.data_socket client.address) = -env.EALREADY)
        then -env.EAGAIN
        else env.ret h (.net_connect client.data_socket client.address)) = -env.EAGAIN := by
      rcases hblock with e | e | e
      · rw [e]; split_ifs <;> rfl
      · rw [e]; rw [if_pos ⟨by omega, Or.inl rfl⟩]
      · rw [e]; rw [if_pos ⟨by omega, Or.inr rfl⟩]
    simp only [hres]
    have hneg : ¬ (-env.EAGAIN ≥ 0 ∨ -env.EAGAIN = -env.EISCONN) := by
      intro hc
      rcases hc with hc | hc
      · omega
      · exact hisc (by omega)
    simp only [hneg, if_false, hconn]
    split_ifs <;> simp_all

theorem prepare_data_connection_binds (env : Env) (h : List Effect) (globals : ftp_globals)
    (client : client_t) (pre : List Effect) (callback : data_connection_callback)
    (arg : callback_arg) (cleanup : data_connection_cleanup) :
    (prepare_data_connection env h globals client pre callback arg cleanup).client = client ∨
    ((prepare_data_connection env h globals client pre callback arg cleanup).result = 0 ∧
      (prepare_data_connection env h globals client pre callback arg cleanup).client.data_callback
        = some callback ∧
      (prepare_data_connection env h globals client pre callback arg
        cleanup).client.data_connection_connected = false ∧
      (prepare_data_connection env h globals client pre callback arg
        cleanup).client.data_connection_timer =
        env.gettime (h ++ (prepare_data_connection env h globals client pre callback arg
          cleanup).effects) + env.secs_to_ticks 30) := by
  unfold prepare_data_connection
  simp only [write_reply]
  split_ifs
  · right; exact ⟨rfl, rfl, rfl, rfl⟩
  · left; rfl
  · left; rfl
  · right; exact ⟨rfl, rfl, rfl, rfl⟩
  · left; rfl

/-- C19. While the data connection of a session is not established and the
accept or connect attempt of a poll reports would-block or in-progress, the poll
at time `t` (the clock read after the attempt) leaves the session as it is and
writes no reply when `t` is not after the deadline; when `t` is after the
deadline it releases the data resources and writes the reply 520 (and destroys
the session if that reply cannot be written).  The deadline is the timer that
`prepare_data_connection` set when it bound the strategy: the time of binding
plus `secs_to_ticks (30)`. -/
theorem data_connection_timeout (env : Env) (h : List Effect) (globals : ftp_globals)
    (client : client_t) (hpos : 0 < env.EAGAIN) (hin : 0 < env.EINPROGRESS)
    (hal : 0 < env.EALREADY) (hisc : env.EISCONN ≠ env.EAGAIN) (hone : env.EAGAIN ≠ 1)
    (hconn : client.data_connection_connected = false) (hblock : would_block env h client) :
    (env.gettime (h ++ [connection_attempt client]) ≤ client.data_connection_timer →
      process_data_events env h globals client =
        { client := some client, globals := globals,
          effects := [connection_attempt client] }) ∧
    (env.gettime (h ++ [connection_attempt client]) > client.data_connection_timer →
      process_data_events env h globals client =
        if env.ret (h ++ ([connection_attempt client] ++ cleanup_data_resources_calls client))
            (.reply client.socket 520
              "Closing data connection, error occurred during transfer.".toList) < 0 then
          cleanup_client globals (cleanup_data_resources client)
            ([connection_attempt client] ++ cleanup_data_resources_calls client ++
              [.reply client.socket 520
                "Closing data connection, error occurred during transfer.".toList])
        else
          { client := some (cleanup_data_resources client)
            globals := globals
            effects := [connection_attempt client] ++ cleanup_data_resources_calls client ++
              [.reply client.socket 520
                "Closing data connection, error occurred during transfer.".toList] }) ∧
    (∀ (h0 pre : List Effect) (session : client_t) (callback : data_connection_callback)
        (arg : callback_arg) (cleanup : data_connection_cleanup),
      (prepare_data_connection env h0 globals session pre callback arg cleanup).client ≠ session →
      (prepare_data_connection env h0 globals session pre callback arg
        cleanup).client.data_connection_timer =
        env.gettime (h0 ++ (prepare_data_connection env h0 globals session pre callback arg
          cleanup).effects) + env.secs_to_ticks 30) := by
  have ha := await_would_block env h client hpos hin hal hisc hconn hblock
  refine ⟨?_, ?_, ?_⟩
  · intro ht
    have hnot : ¬ env.gettime (h ++ [connection_attempt client]) > client.data_connection_timer := by
      omega
    unfold process_data_events
    simp only [hconn, if_true, ha, if_neg hnot]
    unfold finish_data_events
    simp
  · intro ht
    unfold process_data_events
    simp only [hconn, if_true, ha, if_pos ht]
    unfold finish_data_events
    have h1 : ((-1 : Int) ≤ 0 ∧ (-1 : Int) ≠ -env.EAGAIN) := ⟨by omega, by omega⟩
    have h2 : ¬ (1 : Int) = env.EAGAIN := fun e => hone e.symm
    simp [h2]
  · intro h0 pre session callback arg cleanup hne
    rcases prepare_data_connection_binds env h0 globals session pre callback arg cleanup with
      e | ⟨-, -, -, e⟩
    · exact absurd e hne
    · exact e

theorem data_connection_timeout_witness :
    process_data_events waiting_env [] (sample_globals none) (waiting_client 40000) =
      { client := some (waiting_client 40000), globals := sample_globals none,
        effects := [.net_accept_nonblocking 5] } ∧
    process_data_events waiting_env [] (sample_globals none) (waiting_client 30000) =
      { client := some (cleanup_data_resources (waiting_client 30000))
        globals := sample_globals none
        effects := [.net_accept_nonblocking 5, .cleanup .vrt_closedir (some (.dir sample_dir)),
          .reply 3 520 "Closing data connection, error occurred during transfer.".toList] } :=
  ⟨(data_connection_timeout waiting_env [] (sample_globals none) (waiting_client 40000)
      (by decide) (by decide) (by decide) (by decide) (by decide) rfl
      (by unfold would_block; decide)).1 (by decide),
    ((data_connection_timeout waiting_env [] (sample_globals none) (waiting_client 30000)
      (by decide) (by decide) (by decide) (by decide) (by decide) rfl
      (by unfold would_block; decide)).2.1 (by decide)).trans (by decide)⟩

theorem cleanup_calls_no_strategy (client : client_t) :
    List.countP is_strategy_call (cleanup_data_resources_calls client) = 0 := by
  unfold cleanup_data_resources_calls
  rw [List.countP_append]
  split_ifs <;> cases client.data_connection_cleanup <;> rfl

theorem close_passive_no_strategy (client : client_t) :
    List.countP is_strategy_call (close_passive_socket_calls client) = 0 := by
  unfold close_passive_socket_calls
  split_ifs <;> rfl

theorem finish_data_events_strategy_calls (env : Env) (h : List Effect) (globals : ftp_globals)
    (client : client_t) (result : Int) (pre : List Effect) :
    List.countP is_strategy_call (finish_data_events env h globals client result pre).effects =
      List.countP is_strategy_call pre := by
  unfold finish_data_events
  simp only [cleanup_client]
  split_ifs <;>
    simp [List.countP_append, cleanup_calls_no_strategy, close_passive_no_strategy,
      is_strategy_call, List.countP_cons]

/-- C20. In the connected state a call of `process_data_events` runs the bound
strategy exactly once, on the data socket and the stored argument.  With `r`
the value the strategy returns: if `r` is positive or `-EAGAIN` the session is
left as it is and nothing else is called, so no reply is written; if `r` is 0
the data resources are released and the reply 226 is written; for any other
negative `r` they are released and the reply 520 is written.  The release
closes the data socket and runs the registered cleanup on the strategy
resource; afterwards the session has no callback, data socket -1 and the
connected flag false; if the final reply cannot be written the session is
destroyed. -/
theorem process_data_events_connected (env : Env) (h : List Effect) (globals : ftp_globals)
    (client : client_t) (callback : data_connection_callback) (hE : env.EAGAIN ≠ 0)
    (hconn : client.data_connection_connected = true)
    (hbound : client.data_callback = some callback) :
    List.countP is_strategy_call (process_data_events env h globals client).effects = 1 ∧
    [.data_callback callback client.data_socket client.data_connection_callback_arg] <+:
      (process_data_events env h globals client).effects ∧
    ((0 < env.ret h (.data_callback callback client.data_socket
          client.data_connection_callback_arg) ∨
      env.ret h (.data_callback callback client.data_socket
          client.data_connection_callback_arg) = -env.EAGAIN) →
      process_data_events env h globals client =
        { client := some client, globals := globals,
          effects := [.data_callback callback client.data_socket
            client.data_connection_callback_arg] }) ∧
    (env.ret h (.data_callback callback client.data_socket
          client.data_connection_callback_arg) = 0 →
      process_data_events env h globals client =
        if env.ret (h ++ ([.data_callback callback client.data_socket
              client.data_connection_callback_arg] ++ cleanup_data_resources_calls client))
            (.reply client.socket 226 "Closing data connection, transfer successful.".toList)
            < 0 then
          cleanup_client globals (cleanup_data_resources client)
            ([.data_callback callback client.data_socket client.data_connection_callback_arg] ++
              cleanup_data_resources_calls client ++
              [.reply client.socket 226 "Closing data connection, transfer successful.".toList])
        else
          { client := some (cleanup_data_resources client)
            globals := globals
            effects :=
              [.data_callback callback client.data_socket client.data_connection_callback_arg] ++
              cleanup_data_resources_calls client ++
              [.reply client.socket 226
                "Closing data connection, transfer successful.".toList] }) ∧
    ((env.ret h (.data_callback callback client.data_socket
          client.data_connection_callback_arg) < 0 ∧
      env.ret h (.data_callback callback client.data_socket
          client.data_connection_callback_arg) ≠ -env.EAGAIN) →
      process_data_events env h globals client =
        if env.ret (h ++ ([.data_callback callback client.data_socket
              client.data_connection_callback_arg] ++ cleanup_data_resources_calls client))
            (.reply client.socket 520
              "Closing data connection, error occurred during transfer.".toList) < 0 then
          cleanup_client globals (cleanup_data_resources client)
            ([.data_callback callback client.data_socket client.data_connection_callback_arg] ++
              cleanup_data_resources_calls client ++
              [.reply client.socket 520
                "Closing data connection, error occurred during transfer.".toList])
        else
          { client := some (cleanup_data_resources client)
            globals := globals
            effects :=
              [.data_callback callback client.data_socket client.data_connection_callback_arg] ++
              cleanup_data_resources_calls client ++
              [.reply client.socket 520
                "Closing data connection, error occurred during transfer.".toList] }) ∧
    ((cleanup_data_resources client).data_callback = none ∧
      (cleanup_data_resources client).data_socket = -1 ∧
      (cleanup_data_resources client).data_connection_connected = false ∧
      (cleanup_data_resources client).data_connection_cleanup = none) ∧
    (∀ pre : List Effect,
      (cleanup_client globals (cleanup_data_resources client) pre).client = none) ∧
    (∀ routine : data_connection_cleanup,
      client.data_socket ≥ 0 → client.data_socket ≠ client.passive_socket →
      client.data_connection_cleanup = some routine →
      cleanup_data_resources_calls client =
        [.net_close_blocking client.data_socket,
          .cleanup routine client.data_connection_callback_arg]) := by
  have hproc : process_data_events env h globals client =
      finish_data_events env h globals client
        (env.ret h (.data_callback callback client.data_socket
          client.data_connection_callback_arg))
        [.data_callback callback client.data_socket client.data_connection_callback_arg] := by
    unfold process_data_events
    simp [hconn, hbound]
  refine ⟨?_, ?_, ?_, ?_, ?_, ⟨rfl, rfl, rfl, rfl⟩, fun _ => rfl, ?_⟩
  · rw [hproc, finish_data_events_strategy_calls]
    rfl
  · rw [hproc]
    unfold finish_data_events
    simp only [cleanup_client]
    split_ifs <;> simp [List.append_assoc]
  · intro hr
    rw [hproc]
    unfold finish_data_events
    have hno : ¬ (env.ret h (.data_callback callback client.data_socket
          client.data_connection_callback_arg) ≤ 0 ∧
        env.ret h (.data_callback callback client.data_socket
          client.data_connection_callback_arg) ≠ -env.EAGAIN) := by
      rintro ⟨h1, h2⟩
      rcases hr with hr | hr
      · omega
      · exact h2 hr
    simp only [hno, if_false]
  · intro hr
    rw [hproc]
    unfold finish_data_events
    have hE2 : ¬ (0 : Int) = -env.EAGAIN := by omega
    simp [hr, hE2]
  · rintro ⟨h1, h2⟩
    rw [hproc]
    unfold finish_data_events
    have h3 : env.ret h (.data_callback callback client.data_socket
          client.data_connection_callback_arg) ≤ 0 := by omega
    simp [h1, h2, h3]
  · intro routine h1 h2 h3
    unfold cleanup_data_resources_calls
    simp [h1, h2, h3]

theorem process_data_events_connected_witness :
    process_data_events sample_env [] (sample_globals none) transferring_client =
      { client := some (cleanup_data_resources transferring_client)
        globals := sample_globals none
        effects := [.data_callback .send_from_file 6 (some (.file 7)),
          .net_close_blocking 6, .cleanup .fclose (some (.file 7)),
          .reply 3 226 "Closing data connection, transfer successful.".toList] } :=
  ((process_data_events_connected sample_env [] (sample_globals none) transferring_client
    .send_from_file (by decide) rfl rfl).2.2.2.1 rfl).trans (by decide)

/-! ## Lemmas on the control-connection events -/

theorem strstr_CRLF_some : ∀ (t line rest : List Char),
    strstr_CRLF t = some (line, rest) → t = line ++ CR :: LF :: rest := by
  intro t
  induction t with
  | nil => intro line rest ht; simp [strstr_CRLF] at ht
  | cons c cs ih =>
    intro line rest ht
    unfold strstr_CRLF at ht
    split_ifs at ht with hc
    · obtain ⟨h1, h2⟩ := hc
      simp only [Option.some.injEq, Prod.mk.injEq] at ht
      obtain ⟨rfl, rfl⟩ := ht
      cases cs with
      | nil => simp at h2
      | cons d ds =>
        simp only [List.head?_cons, Option.some.injEq] at h2
        simp [h1, h2]
    · cases hs : strstr_CRLF cs with
      | none => rw [hs] at ht; simp at ht
      | some p =>
        obtain ⟨l, r⟩ := p
        rw [hs] at ht
        simp only [Option.some.injEq, Prod.mk.injEq] at ht
        obtain ⟨rfl, rfl⟩ := ht
        rw [ih l r hs]
        rfl

theorem strstr_CRLF_length (t line rest : List Char) (ht : strstr_CRLF t = some (line, rest)) :
    rest.length + 2 ≤ t.length := by
  rw [strstr_CRLF_some t line rest ht]
  simp

theorem dispatch_lines_fuel_irrelevant (env : Env) (h : List Effect) :
    ∀ (f1 f2 : Nat) (s : LineState), s.next.length ≤ f1 → s.next.length ≤ f2 →
      dispatch_lines env h f1 s = dispatch_lines env h f2 s := by
  intro f1
  induction f1 with
  | zero =>
    intro f2 s h1 _
    have hnil : s.next = [] := List.length_eq_zero.1 (by omega)
    cases f2 with
    | zero => rfl
    | succ f2 => simp [dispatch_lines, hnil, strstr_CRLF]
  | succ f1 ih =>
    intro f2 s h1 h2
    cases f2 with
    | zero =>
      have hnil : s.next = [] := List.length_eq_zero.1 (by omega)
      simp [dispatch_lines, hnil, strstr_CRLF]
    | succ f2 =>
      unfold dispatch_lines
      cases hs : strstr_CRLF s.next with
      | none => rfl
      | some p =>
        obtain ⟨line, rest⟩ := p
        have hlen := strstr_CRLF_length s.next line rest hs
        simp only
        split_ifs
        · rfl
        · rfl
        · rfl
        · exact ih f2 _ (by simp only; omega) (by simp only; omega)
        · exact ih f2 _ (by simp only; omega) (by simp only; omega)

/-- The fuel that `control_loop` gives the `for` loop is never used up: any
larger fuel gives the same state. -/
theorem dispatch_lines_fuel (env : Env) (h : List Effect) (fuel : Nat) (s : LineState)
    (hfuel : s.next.length ≤ fuel) :
    dispatch_lines env h fuel s = dispatch_lines env h s.next.length s :=
  dispatch_lines_fuel_irrelevant env h fuel s.next.length s hfuel (le_refl _)

theorem cleanup_client_fill_buffer (globals : ftp_globals) (client : client_t)
    (delivered : List Char) (pre : List Effect) :
    cleanup_client globals (fill_buffer client delivered) pre =
      cleanup_client globals client pre := rfl

/-- A bare line feed in a complete line behind a command that binds a transfer
strategy is not looked at in the poll that reads it: after `RETR f`, CRLF, `a`,
line feed, `b`, CRLF the session is alive, bound to `send_from_file`, and the
second line is still in the buffer. -/
theorem line_feed_behind_transfer_is_kept :
    bare_line_feed_in_line ("RETR f".toList ++ [CR, LF, 'a', LF, 'b', CR, LF]) ∧
    (process_control_events sample_env [] (sample_globals none) sample_client
      [.received ("RETR f".toList ++ [CR, LF, 'a', LF, 'b', CR, LF])]).client.map
        (fun session => (session.data_callback, session.buf)) =
      some (some .send_from_file, ['a', LF, 'b', CR, LF]) :=
  ⟨⟨"RETR f".toList ++ [CR, LF, 'a'], ['b'], [], rfl, by decide⟩, by decide⟩

/-! ## Confinement of resolved paths -/

theorem find_partition_spec (parts : List VIRTUAL_PARTITION) (n pre rest : List Char)
    (h : find_partition parts n = some (pre, rest)) :
    ∃ P ∈ parts, pre = P.prefix_ ∧ alias_test P.alias_ n ∧ rest = alias_rest P.alias_ n := by
  induction parts with
  | nil => simp [find_partition] at h
  | cons P more ih =>
    rw [find_partition] at h
    by_cases h1 : alias_test P.alias_ n
    · have h2 := h1
      unfold alias_test at h2
      simp only [h2, if_true, Option.some.injEq, Prod.mk.injEq] at h
      exact ⟨P, by simp, h.1.symm, h1, by rw [← h.2]; rfl⟩
    · have h2 := h1
      unfold alias_test at h2
      simp only [h2, if_false] at h
      obtain ⟨Q, hQ, e⟩ := ih h
      exact ⟨Q, by simp [hQ], e⟩

theorem intercalate_cons_render (k : List Char) (ks : List (List Char)) :
    List.intercalate ['/'] (k :: ks) = k ++ render ks := by
  induction ks generalizing k with
  | nil => simp [render, List.intercalate]
  | cons x xs ih =>
    have := ih x
    simp only [List.intercalate, render, List.map_cons, List.flatten_cons] at this ⊢
    simp [List.intersperse, this]

theorem segment_boundary (ks : List (List Char)) (hks : ∀ k ∈ ks, '/' ∉ k) :
    ∀ a rest : List Char, render ks = a ++ '/' :: rest →
      ∃ i, i < ks.length ∧ rest = List.intercalate ['/'] (ks.drop i) := by
  induction ks with
  | nil => intro a rest h; simp [render] at h
  | cons k ks ih =>
    intro a rest h
    have hk : '/' ∉ k := hks k (by simp)
    have hrender : render (k :: ks) = '/' :: (k ++ render ks) := by simp [render]
    rw [hrender] at h
    cases a with
    | nil =>
      simp only [List.nil_append, List.cons.injEq, true_and] at h
      exact ⟨0, by simp, by rw [← h, List.drop_zero, intercalate_cons_render]⟩
    | cons x a =>
      simp only [List.cons_append, List.cons.injEq] at h
      obtain ⟨-, h⟩ := h
      rcases List.append_eq_append_iff.1 h with ⟨m, hm, hrest⟩ | ⟨m, hm, hrest⟩
      · -- `a = k ++ m`, the slash lies behind `k`
        obtain ⟨i, hi, e⟩ := ih (fun q hq => hks q (by simp [hq])) m rest hrest
        exact ⟨i + 1, by simp; omega, by simpa using e⟩
      · -- `k = a ++ m`, the slash would lie in `k` unless `m` is empty
        cases m with
        | nil =>
          simp only [List.nil_append] at hrest
          obtain ⟨i, hi, e⟩ := ih (fun q hq => hks q (by simp [hq])) [] rest (by simpa using hrest.symm)
          exact ⟨i + 1, by simp; omega, by simpa using e⟩
        | cons y m =>
          simp only [List.cons_append, List.cons.injEq] at hrest
          exact absurd (by rw [hm, ← hrest.1]; simp) hk

theorem intercalate_good_facts (ks : List (List Char)) (h : ∀ k ∈ ks, GoodSeg k) :
    (List.intercalate ['/'] ks).head? ≠ some '/' ∧
    (List.intercalate ['/'] ks = [] ∨ ∀ s ∈ (List.intercalate ['/'] ks).splitOn '/', s ≠ []) ∧
    (∀ s ∈ (List.intercalate ['/'] ks).splitOn '/', s ≠ ['.'] ∧ s ≠ ['.', '.']) := by
  cases ks with
  | nil =>
    refine ⟨by simp [List.intercalate], Or.inl (by simp [List.intercalate]), ?_⟩
    intro s hs
    simp [List.intercalate] at hs
    subst hs
    exact ⟨by simp, by simp⟩
  | cons k ks =>
    have hsplit : (List.intercalate ['/'] (k :: ks)).splitOn '/' = k :: ks :=
      List.splitOn_intercalate _ '/' (fun l hl => (h l hl).2.2.2) (by simp)
    refine ⟨?_, Or.inr ?_, ?_⟩
    · rw [intercalate_cons_render]
      have hk := h k (by simp)
      cases k with
      | nil => exact absurd rfl hk.1
      | cons c cs =>
        simp only [List.cons_append, List.head?_cons, ne_eq, Option.some.injEq]
        intro e
        exact hk.2.2.2 (by simp [e])
    · rw [hsplit]
      intro s hs
      exact (h s hs).1
    · rw [hsplit]
      intro s hs
      exact ⟨(h s hs).2.1, (h s hs).2.2.1⟩

theorem to_real_path_ok_parts (PATH_MAX : Nat) (partitions : List VIRTUAL_PARTITION)
    (cwd p r : List Char) (h : to_real_path PATH_MAX partitions cwd p = .ok r) (hr : r ≠ []) :
    ∃ n pre rest, virtual_abspath PATH_MAX cwd p = some n ∧ n ≠ ['/'] ∧
      find_partition partitions n = some (pre, rest) ∧ r = pre ++ rest ∧
      r.length + 1 ≤ PATH_MAX := by
  unfold to_real_path at h
  by_cases hc : ':' ∈ p
  · rw [if_pos hc] at h; cases h
  · rw [if_neg hc] at h
    cases hn : virtual_abspath PATH_MAX cwd p with
    | none => rw [hn] at h; cases h
    | some n =>
      rw [hn] at h
      simp only at h
      by_cases hroot : n = ['/']
      · rw [if_pos hroot] at h
        cases h
        exact absurd rfl hr
      · rw [if_neg hroot] at h
        cases hf : find_partition partitions n with
        | none => rw [hf] at h; cases h
        | some q =>
          obtain ⟨pre, rest⟩ := q
          rw [hf] at h
          simp only at h
          by_cases hlen : pre.length + rest.length + 1 > PATH_MAX
          · rw [if_pos hlen] at h; cases h
          · rw [if_neg hlen] at h
            cases h
            exact ⟨n, pre, rest, rfl, hroot, hf, rfl, by simp; omega⟩

/-- C25. Confinement.  For a cwd that begins with a slash, any path and any
partition table: a non-empty path returned by `to_real_path` is the mount prefix
of a partition of the table followed by a `rest` that does not begin with a
slash, has no empty segment, has no segment `.` or `..`, and with its
terminator it fits in `PATH_MAX` bytes. -/
theorem to_real_path_confined (PATH_MAX : Nat) (partitions : List VIRTUAL_PARTITION)
    (cwd p r : List Char) (hcwd : cwd.head? = some '/')
    (h : to_real_path PATH_MAX partitions cwd p = .ok r) (hr : r ≠ []) :
    ∃ P ∈ partitions, ∃ rest : List Char,
      r = P.prefix_ ++ rest ∧
      rest.head? ≠ some '/' ∧
      (rest = [] ∨ ∀ s ∈ rest.splitOn '/', s ≠ []) ∧
      (∀ s ∈ rest.splitOn '/', s ≠ ['.'] ∧ s ≠ ['.', '.']) ∧
      r.length + 1 ≤ PATH_MAX := by
  obtain ⟨n, pre, rest, hn, hroot, hf, hrest, hlen⟩ :=
    to_real_path_ok_parts PATH_MAX partitions cwd p r h hr
  obtain ⟨P, hP, hpre, htest, hrest2⟩ := find_partition_spec partitions n pre rest hf
  obtain ⟨ks, hgood, hshape, -⟩ := abspath_shape PATH_MAX cwd p n hcwd hn
  have hne : ks ≠ [] := by
    intro e
    rw [e] at hshape
    exact hroot (by simpa [List.intercalate] using hshape)
  obtain ⟨rest', hm⟩ := (alias_test_iff P.alias_ n).1 htest
  have hrest3 : rest = rest' := by rw [hrest2]; exact alias_rest_eq P.alias_ n rest' hm
  have hsegs : ∃ ks', (∀ k ∈ ks', GoodSeg k) ∧ rest = List.intercalate ['/'] ks' := by
    rcases hm with ⟨-, e⟩ | ⟨a, e, -⟩
    · exact ⟨[], by simp, by rw [hrest3, e]; simp [List.intercalate]⟩
    · rw [hshape, ← render_eq_intercalate ks hne] at e
      obtain ⟨i, -, hi⟩ := segment_boundary ks (fun k hk => (hgood k hk).2.2.2) a rest' e
      exact ⟨ks.drop i, fun k hk => hgood k (List.mem_of_mem_drop hk), by rw [hrest3, hi]⟩
  obtain ⟨ks', hgood', hks'⟩ := hsegs
  obtain ⟨f1, f2, f3⟩ := intercalate_good_facts ks' hgood'
  rw [← hks'] at f1 f2 f3
  exact ⟨P, hP, rest, by rw [hrest, hpre], f1, f2, f3, hlen⟩

set_option maxRecDepth 8192 in
theorem to_real_path_confined_witness :
    ∃ P ∈ VIRTUAL_PARTITIONS, ∃ rest : List Char,
      "carda:/foo/bar".toList = P.prefix_ ++ rest ∧
      rest.head? ≠ some '/' ∧
      (rest = [] ∨ ∀ s ∈ rest.splitOn '/', s ≠ []) ∧
      (∀ s ∈ rest.splitOn '/', s ≠ ['.'] ∧ s ≠ ['.', '.']) ∧
      "carda:/foo/bar".toList.length + 1 ≤ 1024 :=
  to_real_path_confined 1024 VIRTUAL_PARTITIONS "/carda/".toList "foo/./x/../bar".toList
    "carda:/foo/bar".toList rfl (by decide) (by decide)

/-! ## Ownership of the transfer resource -/

/-- What the closing lines of a transfer handler do with the resource `arg`:
either the strategy is bound and the cleanup registered, or the session is as
before and the cleanup has run once, or, in active mode, the set-up of the data
socket failed, the reply 520 was sent, and the cleanup has not run. -/
theorem prepare_or_release_cases (env : Env) (h : List Effect) (globals : ftp_globals)
    (client : client_t) (pre : List Effect) (callback : data_connection_callback)
    (arg : callback_arg) (cleanup : data_connection_cleanup) :
    ((prepare_or_release env h globals client pre callback arg cleanup).client.data_callback
        = some callback ∧
      (prepare_or_release env h globals client pre callback arg
        cleanup).client.data_connection_cleanup = some cleanup ∧
      (prepare_or_release env h globals client pre callback arg
        cleanup).client.data_connection_callback_arg = some arg ∧
      ((prepare_or_release env h globals client pre callback arg cleanup).effects.count
        (.cleanup cleanup (some arg)) = pre.count (.cleanup cleanup (some arg)))) ∨
    ((prepare_or_release env h globals client pre callback arg cleanup).client = client ∧
      (prepare_or_release env h globals client pre callback arg cleanup).result < 0 ∧
      ((prepare_or_release env h globals client pre callback arg cleanup).effects.count
        (.cleanup cleanup (some arg)) = pre.count (.cleanup cleanup (some arg)) + 1)) ∨
    ((prepare_or_release env h globals client pre callback arg cleanup).client = client ∧
      0 ≤ (prepare_or_release env h globals client pre callback arg cleanup).result ∧
      client.passive_socket < 0 ∧
      ((prepare_or_release env h globals client pre callback arg cleanup).effects.count
        (.cleanup cleanup (some arg)) = pre.count (.cleanup cleanup (some arg)))) := by
  unfold prepare_or_release prepare_data_connection
  simp only [write_reply]
  split_ifs <;> simp_all [List.count_append, List.count_cons, List.count_nil]

/-- C26, the failing case.  A session in active mode asks for a file that
exists; creating the data socket fails and the reply 520 is sent successfully.
`ftp_RETR` then returns 0 with no strategy bound, and the file it opened
(handle 7) has not been closed: the trace holds the `fopen` and no `fclose`. -/
theorem ftp_RETR_leaks_file :
    ftp_RETR refusing_env [] (sample_globals none) sample_client "f".toList =
      { client := sample_client
        globals := sample_globals none
        effects := [.fopen "carda:/f".toList "rb".toList,
          .reply 3 150 "Transferring data.".toList, .net_socket,
          .reply 3 520 "Closing data connection, error occurred during transfer.".toList]
        result := 0 } ∧
    sample_client.data_callback = none ∧
    (ftp_RETR refusing_env [] (sample_globals none) sample_client "f".toList).effects.count
      (.cleanup .fclose (some (.file 7))) = 0 := by
  decide

/-! ## Frame lemmas for the command handlers -/

theorem write_reply_keeps (env : Env) (h : List Effect) (globals globals1 : ftp_globals)
    (client client1 : client_t) (pre : List Effect) (code : Nat) (msg : List Char)
    (hn : globals1.num_clients = globals.num_clients)
    (hp : globals1.passive_port = globals.passive_port)
    (hs : client1.socket = client.socket) (hd : client1.data_socket = client.data_socket)
    (hc : client1.data_callback = client.data_callback)
    (hk : client1.data_connection_connected = client.data_connection_connected) :
    handler_keeps globals client (write_reply env h globals1 client1 pre code msg) :=
  ⟨⟨hn, hs, Or.inl ⟨hd, hc, hk⟩⟩, hp⟩

theorem close_passive_socket_fields (client : client_t) :
    (close_passive_socket client).socket = client.socket ∧
    (close_passive_socket client).data_socket = client.data_socket ∧
    (close_passive_socket client).data_callback = client.data_callback ∧
    (close_passive_socket client).data_connection_connected =
      client.data_connection_connected := by
  unfold close_passive_socket
  split_ifs <;> exact ⟨rfl, rfl, rfl, rfl⟩

theorem ftp_USER_keeps (env : Env) (h : List Effect) (globals : ftp_globals)
    (client : client_t) (rest : List Char) :
    handler_keeps globals client (ftp_USER env h globals client rest) :=
  write_reply_keeps _ _ _ _ _ _ _ _ _ rfl rfl rfl rfl rfl rfl

theorem ftp_PASS_keeps (env : Env) (h : List Effect) (globals : ftp_globals)
    (client : client_t) (rest : List Char) :
    handler_keeps globals client (ftp_PASS env h globals client rest) := by
  unfold ftp_PASS
  try dsimp only
  repeat' split
  all_goals exact write_reply_keeps _ _ _ _ _ _ _ _ _ rfl rfl rfl rfl rfl rfl

theorem ftp_SYST_keeps (env : Env) (h : List Effect) (globals : ftp_globals)
    (client : client_t) (rest : List Char) :
    handler_keeps globals client (ftp_SYST env h globals client rest) :=
  write_reply_keeps _ _ _ _ _ _ _ _ _ rfl rfl rfl rfl rfl rfl

theorem ftp_TYPE_keeps (env : Env) (h : List Effect) (globals : ftp_globals)
    (client : client_t) (rest : List Char) :
    handler_keeps globals client (ftp_TYPE env h globals client rest) := by
  unfold ftp_TYPE
  try dsimp only
  repeat' split
  all_goals exact write_reply_keeps _ _ _ _ _ _ _ _ _ rfl rfl rfl rfl rfl rfl

theorem ftp_MODE_keeps (env : Env) (h : List Effect) (globals : ftp_globals)
    (client : client_t) (rest : List Char) :
    handler_keeps globals client (ftp_MODE env h globals client rest) := by
  unfold ftp_MODE
  try dsimp only
  repeat' split
  all_goals exact write_reply_keeps _ _ _ _ _ _ _ _ _ rfl rfl rfl rfl rfl rfl

theorem ftp_PWD_keeps (env : Env) (h : List Effect) (globals : ftp_globals)
    (client : client_t) (rest : List Char) :
    handler_keeps globals client (ftp_PWD env h globals client rest) :=
  write_reply_keeps _ _ _ _ _ _ _ _ _ rfl rfl rfl rfl rfl rfl

theorem ftp_DELE_keeps (env : Env) (h : List Effect) (globals : ftp_globals)
    (client : client_t) (rest : List Char) :
    handler_keeps globals client (ftp_DELE env h globals client rest) := by
  unfold ftp_DELE
  try dsimp only
  repeat' split
  all_goals exact write_reply_keeps _ _ _ _ _ _ _ _ _ rfl rfl rfl rfl rfl rfl

theorem ftp_RNFR_keeps (env : Env) (h : List Effect) (globals : ftp_globals)
    (client : client_t) (rest : List Char) :
    handler_keeps globals client (ftp_RNFR env h globals client rest) :=
  write_reply_keeps _ _ _ _ _ _ _ _ _ rfl rfl rfl rfl rfl rfl

theorem ftp_RNTO_keeps (env : Env) (h : List Effect) (globals : ftp_globals)
    (client : client_t) (rest : List Char) :
    handler_keeps globals client (ftp_RNTO env h globals client rest) := by
  unfold ftp_RNTO
  try dsimp only
  repeat' split
  all_goals exact write_reply_keeps _ _ _ _ _ _ _ _ _ rfl rfl rfl rfl rfl rfl

theorem ftp_SIZE_keeps (env : Env) (h : List Effect) (globals : ftp_globals)
    (client : client_t) (rest : List Char) :
    handler_keeps globals client (ftp_SIZE env h globals client rest) := by
  unfold ftp_SIZE
  try dsimp only
  repeat' split
  all_goals exact write_reply_keeps _ _ _ _ _ _ _ _ _ rfl rfl rfl rfl rfl rfl

theorem ftp_REST_keeps (env : Env) (h : List Effect) (globals : ftp_globals)
    (client : client_t) (rest : List Char) :
    handler_keeps globals client (ftp_REST env h globals client rest) := by
  unfold ftp_REST
  try dsimp only
  repeat' split
  all_goals exact write_reply_keeps _ _ _ _ _ _ _ _ _ rfl rfl rfl rfl rfl rfl

theorem ftp_SITE_CHMOD_keeps (env : Env) (h : List Effect) (globals : ftp_globals)
    (client : client_t) (rest : List Char) :
    handler_keeps globals client (ftp_SITE_CHMOD env h globals client rest) :=
  write_reply_keeps _ _ _ _ _ _ _ _ _ rfl rfl rfl rfl rfl rfl

theorem ftp_SITE_PASSWD_keeps (env : Env) (h : List Effect) (globals : ftp_globals)
    (client : client_t) (rest : List Char) :
    handler_keeps globals client (ftp_SITE_PASSWD env h globals client rest) :=
  write_reply_keeps _ _ _ _ _ _ _ _ _ rfl rfl rfl rfl rfl rfl

theorem ftp_SITE_NOPASSWD_keeps (env : Env) (h : List Effect) (globals : ftp_globals)
    (client : client_t) (rest : List Char) :
    handler_keeps globals client (ftp_SITE_NOPASSWD env h globals client rest) :=
  write_reply_keeps _ _ _ _ _ _ _ _ _ rfl rfl rfl rfl rfl rfl

theorem ftp_SITE_MOUNT_keeps (env : Env) (h : List Effect) (globals : ftp_globals)
    (client : client_t) (rest : List Char) :
    handler_keeps globals client (ftp_SITE_MOUNT env h globals client rest) := by
  unfold ftp_SITE_MOUNT
  try dsimp only
  repeat' split
  all_goals exact write_reply_keeps _ _ _ _ _ _ _ _ _ rfl rfl rfl rfl rfl rfl

theorem ftp_SITE_UNMOUNT_keeps (env : Env) (h : List Effect) (globals : ftp_globals)
    (client : client_t) (rest : List Char) :
    handler_keeps globals client (ftp_SITE_UNMOUNT env h globals client rest) := by
  unfold ftp_SITE_UNMOUNT
  try dsimp only
  repeat' split
  all_goals exact write_reply_keeps _ _ _ _ _ _ _ _ _ rfl rfl rfl rfl rfl rfl

theorem ftp_SITE_UNKNOWN_keeps (env : Env) (h : List Effect) (globals : ftp_globals)
    (client : client_t) (rest : List Char) :
    handler_keeps globals client (ftp_SITE_UNKNOWN env h globals client rest) :=
  write_reply_keeps _ _ _ _ _ _ _ _ _ rfl rfl rfl rfl rfl rfl

theorem ftp_NOOP_keeps (env : Env) (h : List Effect) (globals : ftp_globals)
    (client : client_t) (rest : List Char) :
    handler_keeps globals client (ftp_NOOP env h globals client rest) :=
  write_reply_keeps _ _ _ _ _ _ _ _ _ rfl rfl rfl rfl rfl rfl

theorem ftp_SUPERFLUOUS_keeps (env : Env) (h : List Effect) (globals : ftp_globals)
    (client : client_t) (rest : List Char) :
    handler_keeps globals client (ftp_SUPERFLUOUS env h globals client rest) :=
  write_reply_keeps _ _ _ _ _ _ _ _ _ rfl rfl rfl rfl rfl rfl

theorem ftp_NEEDAUTH_keeps (env : Env) (h : List Effect) (globals : ftp_globals)
    (client : client_t) (rest : List Char) :
    handler_keeps globals client (ftp_NEEDAUTH env h globals client rest) :=
  write_reply_keeps _ _ _ _ _ _ _ _ _ rfl rfl rfl rfl rfl rfl

theorem ftp_UNKNOWN_keeps (env : Env) (h : List Effect) (globals : ftp_globals)
    (client : client_t) (rest : List Char) :
    handler_keeps globals client (ftp_UNKNOWN env h globals client rest) :=
  write_reply_keeps _ _ _ _ _ _ _ _ _ rfl rfl rfl rfl rfl rfl

theorem ftp_QUIT_keeps (env : Env) (h : List Effect) (globals : ftp_globals)
    (client : client_t) (rest : List Char) :
    handler_keeps globals client (ftp_QUIT env h globals client rest) :=
  ⟨⟨rfl, rfl, Or.inl ⟨rfl, rfl, rfl⟩⟩, rfl⟩

theorem ftp_SITE_LOADER_keeps (env : Env) (h : List Effect) (globals : ftp_globals)
    (client : client_t) (rest : List Char) :
    handler_keeps globals client (ftp_SITE_LOADER env h globals client rest) :=
  ⟨⟨rfl, rfl, Or.inl ⟨rfl, rfl, rfl⟩⟩, rfl⟩

theorem ftp_SITE_CLEAR_keeps (env : Env) (h : List Effect) (globals : ftp_globals)
    (client : client_t) (rest : List Char) :
    handler_keeps globals client (ftp_SITE_CLEAR env h globals client rest) :=
  ⟨⟨rfl, rfl, Or.inl ⟨rfl, rfl, rfl⟩⟩, rfl⟩

theorem ftp_CWD_handler_keeps (env : Env) (h : List Effect) (globals : ftp_globals)
    (client : client_t) (rest : List Char) :
    handler_keeps globals client (ftp_CWD_handler env h globals client rest) := by
  unfold ftp_CWD_handler ftp_CWD
  dsimp only
  split <;> exact write_reply_keeps _ _ _ _ _ _ _ _ _ rfl rfl rfl rfl rfl rfl

theorem ftp_CDUP_handler_keeps (env : Env) (h : List Effect) (globals : ftp_globals)
    (client : client_t) (rest : List Char) :
    handler_keeps globals client (ftp_CDUP_handler env h globals client rest) := by
  unfold ftp_CDUP_handler ftp_CDUP
  dsimp only
  split <;> exact write_reply_keeps _ _ _ _ _ _ _ _ _ rfl rfl rfl rfl rfl rfl

theorem ftp_MKD_client (PATH_MAX : Nat) (partitions : List VIRTUAL_PARTITION) (S_IFDIR : Nat)
    (mkdir : List Char → Except Errno Unit) (stat : List Char → Except Errno Stat)
    (strerror : Errno → List Char) (client : client_t) (path : List Char) :
    (ftp_MKD PATH_MAX partitions S_IFDIR mkdir stat strerror client path).1 = client := by
  unfold ftp_MKD
  split_ifs
  · rfl
  · split <;> rfl

theorem ftp_MKD_handler_keeps (env : Env) (h : List Effect) (globals : ftp_globals)
    (client : client_t) (rest : List Char) :
    handler_keeps globals client (ftp_MKD_handler env h globals client rest) := by
  unfold ftp_MKD_handler
  dsimp only
  rw [ftp_MKD_client]
  exact write_reply_keeps _ _ _ _ _ _ _ _ _ rfl rfl rfl rfl rfl rfl

theorem ftp_REIN_handler_keeps (env : Env) (h : List Effect) (globals : ftp_globals)
    (client : client_t) (rest : List Char) :
    handler_keeps globals client (ftp_REIN_handler env h globals client rest) := by
  obtain ⟨h1, h2, h3, h4⟩ := close_passive_socket_fields client
  exact write_reply_keeps _ _ _ _ _ _ _ _ _ rfl rfl h1 h2 h3 h4

theorem ftp_PORT_keeps (env : Env) (h : List Effect) (globals : ftp_globals)
    (client : client_t) (rest : List Char) :
    handler_keeps globals client (ftp_PORT env h globals client rest) := by
  obtain ⟨h1, h2, h3, h4⟩ := close_passive_socket_fields client
  unfold ftp_PORT
  dsimp only
  repeat' split
  all_goals first
    | exact write_reply_keeps _ _ _ _ _ _ _ _ _ rfl rfl rfl rfl rfl rfl
    | exact write_reply_keeps _ _ _ _ _ _ _ _ _ rfl rfl h1 h2 h3 h4

theorem ftp_PASV_frame (env : Env) (h : List Effect) (globals : ftp_globals)
    (client : client_t) (rest : List Char) :
    handler_frame globals client (ftp_PASV env h globals client rest) := by
  unfold ftp_PASV
  dsimp only
  split_ifs
  all_goals
    refine ⟨rfl, ?_, Or.inl ⟨?_, ?_, ?_⟩⟩
    all_goals first
      | rfl
      | (simp only [write_reply]; unfold close_passive_socket; split_ifs <;> rfl)

theorem prepare_data_connection_keeps (env : Env) (h : List Effect) (globals : ftp_globals)
    (client client1 : client_t) (pre : List Effect) (callback : data_connection_callback)
    (arg : callback_arg) (cleanup : data_connection_cleanup)
    (hs : client1.socket = client.socket) (hd : client1.data_socket = client.data_socket)
    (hc : client1.data_callback = client.data_callback)
    (hk : client1.data_connection_connected = client.data_connection_connected) :
    handler_keeps globals client
      (prepare_data_connection env h globals client1 pre callback arg cleanup) := by
  unfold prepare_data_connection
  dsimp only
  split_ifs with h1 h2 h3 h4
  · exact ⟨⟨rfl, hs, Or.inr ⟨h2, rfl, rfl⟩⟩, rfl⟩
  · exact write_reply_keeps _ _ _ _ _ _ _ _ _ rfl rfl hs hd hc hk
  · exact write_reply_keeps _ _ _ _ _ _ _ _ _ rfl rfl hs hd hc hk
  · exact ⟨⟨rfl, hs, Or.inr ⟨by simpa using h3, rfl, rfl⟩⟩, rfl⟩
  · exact write_reply_keeps _ _ _ _ _ _ _ _ _ rfl rfl hs hd hc hk

theorem prepare_or_release_keeps (env : Env) (h : List Effect) (globals : ftp_globals)
    (client client1 : client_t) (pre : List Effect) (callback : data_connection_callback)
    (arg : callback_arg) (cleanup : data_connection_cleanup)
    (hs : client1.socket = client.socket) (hd : client1.data_socket = client.data_socket)
    (hc : client1.data_callback = client.data_callback)
    (hk : client1.data_connection_connected = client.data_connection_connected) :
    handler_keeps globals client
      (prepare_or_release env h globals client1 pre callback arg cleanup) := by
  have key := prepare_data_connection_keeps env h globals client client1 pre callback arg
    cleanup hs hd hc hk
  unfold prepare_or_release
  dsimp only
  split_ifs
  · exact key
  · exact key

theorem list_directory_keeps (env : Env) (h : List Effect) (globals : ftp_globals)
    (client : client_t) (path : List Char) (callback : data_connection_callback) :
    handler_keeps globals client (list_directory env h globals client path callback) := by
  unfold list_directory
  dsimp only
  split
  · exact write_reply_keeps _ _ _ _ _ _ _ _ _ rfl rfl rfl rfl rfl rfl
  · exact prepare_or_release_keeps _ _ _ _ _ _ _ _ _ rfl rfl rfl rfl

theorem ftp_NLST_keeps (env : Env) (h : List Effect) (globals : ftp_globals)
    (client : client_t) (rest : List Char) :
    handler_keeps globals client (ftp_NLST env h globals client rest) :=
  list_directory_keeps _ _ _ _ _ _

theorem ftp_LIST_keeps (env : Env) (h : List Effect) (globals : ftp_globals)
    (client : client_t) (rest : List Char) :
    handler_keeps globals client (ftp_LIST env h globals client rest) :=
  list_directory_keeps _ _ _ _ _ _

theorem stor_or_append_keeps (env : Env) (h : List Effect) (globals : ftp_globals)
    (client client1 : client_t) (pre : List Effect) (f : Except Errno Nat)
    (hs : client1.socket = client.socket) (hd : client1.data_socket = client.data_socket)
    (hc : client1.data_callback = client.data_callback)
    (hk : client1.data_connection_connected = client.data_connection_connected) :
    handler_keeps globals client (stor_or_append env h globals client1 pre f) := by
  unfold stor_or_append
  split
  · exact write_reply_keeps _ _ _ _ _ _ _ _ _ rfl rfl hs hd hc hk
  · exact prepare_or_release_keeps _ _ _ _ _ _ _ _ _ hs hd hc hk

theorem ftp_RETR_keeps (env : Env) (h : List Effect) (globals : ftp_globals)
    (client : client_t) (rest : List Char) :
    handler_keeps globals client (ftp_RETR env h globals client rest) := by
  unfold ftp_RETR
  dsimp only
  split
  · exact write_reply_keeps _ _ _ _ _ _ _ _ _ rfl rfl rfl rfl rfl rfl
  · split
    · exact write_reply_keeps _ _ _ _ _ _ _ _ _ rfl rfl rfl rfl rfl rfl
    · exact prepare_or_release_keeps _ _ _ _ _ _ _ _ _ rfl rfl rfl rfl

theorem ftp_STOR_keeps (env : Env) (h : List Effect) (globals : ftp_globals)
    (client : client_t) (rest : List Char) :
    handler_keeps globals client (ftp_STOR env h globals client rest) := by
  unfold ftp_STOR
  dsimp only
  split
  · split
    · exact write_reply_keeps _ _ _ _ _ _ _ _ _ rfl rfl rfl rfl rfl rfl
    · exact stor_or_append_keeps _ _ _ _ _ _ _ rfl rfl rfl rfl
  · exact stor_or_append_keeps _ _ _ _ _ _ _ rfl rfl rfl rfl

theorem ftp_APPE_keeps (env : Env) (h : List Effect) (globals : ftp_globals)
    (client : client_t) (rest : List Char) :
    handler_keeps globals client (ftp_APPE env h globals client rest) :=
  stor_or_append_keeps _ _ _ _ _ _ _ rfl rfl rfl rfl

theorem dispatch_to_handler_keeps (env : Env) (h : List Effect) (globals : ftp_globals)
    (client : client_t) (cmd_line : List Char) (commands : List (List Char))
    (handlers : List ftp_command_handler)
    (hall : ∀ handler ∈ handlers, ∀ (env : Env) (h : List Effect) (globals : ftp_globals)
      (client : client_t) (rest : List Char),
      handler_keeps globals client (handler env h globals client rest)) :
    handler_keeps globals client
      (dispatch_to_handler env h globals client cmd_line commands handlers) := by
  unfold dispatch_to_handler
  dsimp only
  split
  · next handler hget => exact hall handler (List.getElem?_mem hget) _ _ _ _ _
  · exact ⟨⟨rfl, rfl, Or.inl ⟨rfl, rfl, rfl⟩⟩, rfl⟩

theorem dispatch_to_handler_frame (env : Env) (h : List Effect) (globals : ftp_globals)
    (client : client_t) (cmd_line : List Char) (commands : List (List Char))
    (handlers : List ftp_command_handler)
    (hall : ∀ handler ∈ handlers, ∀ (env : Env) (h : List Effect) (globals : ftp_globals)
      (client : client_t) (rest : List Char),
      handler_frame globals client (handler env h globals client rest)) :
    handler_frame globals client
      (dispatch_to_handler env h globals client cmd_line commands handlers) := by
  unfold dispatch_to_handler
  dsimp only
  split
  · next handler hget => exact hall handler (List.getElem?_mem hget) _ _ _ _ _
  · exact ⟨rfl, rfl, Or.inl ⟨rfl, rfl, rfl⟩⟩

theorem site_handlers_keep (handler : ftp_command_handler) (hm : handler ∈ site_handlers)
    (env : Env) (h : List Effect) (globals : ftp_globals) (client : client_t)
    (rest : List Char) : handler_keeps globals client (handler env h globals client rest) := by
  simp only [site_handlers, List.mem_cons, List.mem_singleton, List.not_mem_nil, or_false] at hm
  rcases hm with
    rfl | rfl | rfl | rfl | rfl | rfl | rfl | rfl
  · exact ftp_SITE_LOADER_keeps env h globals client rest
  · exact ftp_SITE_CLEAR_keeps env h globals client rest
  · exact ftp_SITE_CHMOD_keeps env h globals client rest
  · exact ftp_SITE_PASSWD_keeps env h globals client rest
  · exact ftp_SITE_NOPASSWD_keeps env h globals client rest
  · exact ftp_SITE_MOUNT_keeps env h globals client rest
  · exact ftp_SITE_UNMOUNT_keeps env h globals client rest
  · exact ftp_SITE_UNKNOWN_keeps env h globals client rest

theorem ftp_SITE_keeps (env : Env) (h : List Effect) (globals : ftp_globals)
    (client : client_t) (rest : List Char) :
    handler_keeps globals client (ftp_SITE env h globals client rest) :=
  dispatch_to_handler_keeps _ _ _ _ _ _ _ site_handlers_keep

theorem unauthenticated_handlers_keep (handler : ftp_command_handler) (hm : handler ∈ unauthenticated_handlers)
    (env : Env) (h : List Effect) (globals : ftp_globals) (client : client_t)
    (rest : List Char) : handler_keeps globals client (handler env h globals client rest) := by
  simp only [unauthenticated_handlers, List.mem_cons, List.mem_singleton, List.not_mem_nil, or_false] at hm
  rcases hm with
    rfl | rfl | rfl | rfl | rfl | rfl
  · exact ftp_USER_keeps env h globals client rest
  · exact ftp_PASS_keeps env h globals client rest
  · exact ftp_QUIT_keeps env h globals client rest
  · exact ftp_REIN_handler_keeps env h globals client rest
  · exact ftp_NOOP_keeps env h globals client rest
  · exact ftp_NEEDAUTH_keeps env h globals client rest

/-- Every entry of `authenticated_handlers` other than entry 7, `ftp_PASV`,
leaves `passive_port` alone. -/
theorem authenticated_handlers_keep (i : Nat) (handler : ftp_command_handler)
    (hget : authenticated_handlers[i]? = some handler) (hi : i ≠ 7)
    (env : Env) (h : List Effect) (globals : ftp_globals) (client : client_t)
    (rest : List Char) : handler_keeps globals client (handler env h globals client rest) := by
  have hm : handler ∈ authenticated_handlers.eraseIdx 7 :=
    List.mem_eraseIdx_iff_getElem?.2 ⟨i, hi, hget⟩
  simp only [authenticated_handlers, List.eraseIdx, List.mem_cons, List.mem_singleton,
    List.not_mem_nil, or_false] at hm
  rcases hm with
    rfl | rfl | rfl | rfl | rfl | rfl | rfl | rfl | rfl | rfl | rfl | rfl | rfl | rfl | rfl |
    rfl | rfl | rfl | rfl | rfl | rfl | rfl | rfl | rfl | rfl | rfl | rfl
  · exact ftp_USER_keeps env h globals client rest
  · exact ftp_PASS_keeps env h globals client rest
  · exact ftp_LIST_keeps env h globals client rest
  · exact ftp_PWD_keeps env h globals client rest
  · exact ftp_CWD_handler_keeps env h globals client rest
  · exact ftp_CDUP_handler_keeps env h globals client rest
  · exact ftp_SIZE_keeps env h globals client rest
  · exact ftp_PORT_keeps env h globals client rest
  · exact ftp_TYPE_keeps env h globals client rest
  · exact ftp_SYST_keeps env h globals client rest
  · exact ftp_MODE_keeps env h globals client rest
  · exact ftp_RETR_keeps env h globals client rest
  · exact ftp_STOR_keeps env h globals client rest
  · exact ftp_APPE_keeps env h globals client rest
  · exact ftp_REST_keeps env h globals client rest
  · exact ftp_DELE_keeps env h globals client rest
  · exact ftp_MKD_handler_keeps env h globals client rest
  · exact ftp_DELE_keeps env h globals client rest
  · exact ftp_RNFR_keeps env h globals client rest
  · exact ftp_RNTO_keeps env h globals client rest
  · exact ftp_NLST_keeps env h globals client rest
  · exact ftp_QUIT_keeps env h globals client rest
  · exact ftp_REIN_handler_keeps env h globals client rest
  · exact ftp_SITE_keeps env h globals client rest
  · exact ftp_NOOP_keeps env h globals client rest
  · exact ftp_SUPERFLUOUS_keeps env h globals client rest
  · exact ftp_UNKNOWN_keeps env h globals client rest

theorem authenticated_handlers_frame (handler : ftp_command_handler)
    (hm : handler ∈ authenticated_handlers)
    (env : Env) (h : List Effect) (globals : ftp_globals) (client : client_t)
    (rest : List Char) : handler_frame globals client (handler env h globals client rest) := by
  obtain ⟨i, hget⟩ := List.getElem?_of_mem hm
  by_cases hi : i = 7
  · subst hi
    have e : handler = ftp_PASV := by
      have : authenticated_handlers[7]? = some ftp_PASV := rfl
      rw [this] at hget
      exact (Option.some.inj hget).symm
    subst e
    exact ftp_PASV_frame env h globals client rest
  · exact (authenticated_handlers_keep i handler hget hi env h globals client rest).1

theorem process_command_frame (env : Env) (h : List Effect) (globals : ftp_globals)
    (client : client_t) (cmd_line : List Char) :
    handler_frame globals client (process_command env h globals client cmd_line) := by
  unfold process_command
  split_ifs
  · exact ⟨rfl, rfl, Or.inl ⟨rfl, rfl, rfl⟩⟩
  · exact dispatch_to_handler_frame _ _ _ _ _ _ _ authenticated_handlers_frame
  · exact dispatch_to_handler_frame _ _ _ _ _ _ _
      (fun handler hm env h globals client rest =>
        (unauthenticated_handlers_keep handler hm env h globals client rest).1)

/-! ## The passive port counter -/

theorem ftp_PASV_port (env : Env) (h : List Effect) (globals : ftp_globals)
    (client : client_t) (rest : List Char) :
    (env.ret (h ++ close_passive_socket_calls client) .net_socket < 0 →
      (ftp_PASV env h globals client rest).globals = globals ∧
      (ftp_PASV env h globals client rest).effects =
        close_passive_socket_calls client ++
          [.net_socket, .reply client.socket 520 "Unable to create listening socket.".toList]) ∧
    (0 ≤ env.ret (h ++ close_passive_socket_calls client) .net_socket →
      (ftp_PASV env h globals client rest).globals.passive_port =
        (globals.passive_port + 1) % 65536 ∧
      (close_passive_socket_calls client ++
        [.net_socket,
          .set_blocking (env.ret (h ++ close_passive_socket_calls client) .net_socket) false,
          .net_bind (env.ret (h ++ close_passive_socket_calls client) .net_socket)
            globals.passive_port]) <+: (ftp_PASV env h globals client rest).effects) := by
  constructor
  · intro hs
    unfold ftp_PASV
    dsimp only
    rw [if_pos hs]
    exact ⟨rfl, by simp [write_reply]⟩
  · intro hs
    have hs2 : ¬ env.ret (h ++ close_passive_socket_calls client) .net_socket < 0 := by omega
    unfold ftp_PASV
    dsimp only
    rw [if_neg hs2]
    split_ifs <;> refine ⟨rfl, ?_⟩ <;> simp [write_reply, List.append_assoc]

theorem obtains_listener_iff (env : Env) (call : CommandCall) :
    obtains_listener env call = true ↔
      (call.cmd_line ≠ [] ∧ call.client.authenticated = true ∧
        dispatch_index authenticated_commands
          ((split call.cmd_line ' ' 1 [[], []]).2.getD 0 []) = 7 ∧
        0 ≤ env.ret (call.history ++ close_passive_socket_calls call.client) .net_socket) := by
  simp only [obtains_listener, decide_eq_true_eq]

theorem process_command_port (env : Env) (call : CommandCall) (globals : ftp_globals) :
    (process_command env call.history globals call.client call.cmd_line).globals.passive_port =
      if obtains_listener env call = true then (globals.passive_port + 1) % 65536
      else globals.passive_port := by
  unfold process_command
  by_cases hline : call.cmd_line = []
  · rw [if_pos hline]
    have : ¬ obtains_listener env call = true := fun hc =>
      ((obtains_listener_iff env call).1 hc).1 hline
    rw [if_neg this]
  · rw [if_neg hline]
    by_cases hauth : call.client.authenticated = true
    · rw [if_pos hauth]
      unfold dispatch_to_handler
      dsimp only
      by_cases hi : dispatch_index authenticated_commands
          ((split call.cmd_line ' ' 1 [[], []]).2.getD 0 []) = 7
      · rw [hi]
        have hget : authenticated_handlers[7]? = some ftp_PASV := rfl
        rw [hget]
        dsimp only
        by_cases hs : 0 ≤ env.ret (call.history ++ close_passive_socket_calls call.client)
            .net_socket
        · have : obtains_listener env call = true :=
            (obtains_listener_iff env call).2 ⟨hline, hauth, hi, hs⟩
          rw [if_pos this]
          exact ((ftp_PASV_port env call.history globals call.client _).2 hs).1
        · have : ¬ obtains_listener env call = true := fun hc =>
            hs ((obtains_listener_iff env call).1 hc).2.2.2
          rw [if_neg this]
          rw [((ftp_PASV_port env call.history globals call.client _).1 (by omega)).1]
      · have : ¬ obtains_listener env call = true := fun hc =>
          hi ((obtains_listener_iff env call).1 hc).2.2.1
        rw [if_neg this]
        split
        · next handler hget =>
          exact (authenticated_handlers_keep _ handler hget hi env _ _ _ _).2
        · rfl
    · rw [if_neg hauth]
      have : ¬ obtains_listener env call = true := fun hc =>
        hauth ((obtains_listener_iff env call).1 hc).2.1
      rw [if_neg this]
      exact (dispatch_to_handler_keeps _ _ _ _ _ _ _ unauthenticated_handlers_keep).2

theorem serve_port (env : Env) (calls : List CommandCall) :
    ∀ globals : ftp_globals,
      (serve env calls globals).passive_port % 65536 =
        (globals.passive_port + calls.countP (obtains_listener env)) % 65536 := by
  induction calls with
  | nil => intro globals; simp [serve]
  | cons call more ih =>
    intro globals
    have hstep : serve env (call :: more) globals =
        serve env more
          (process_command env call.history globals call.client call.cmd_line).globals := rfl
    rw [hstep, ih, process_command_port, List.countP_cons]
    by_cases hc : obtains_listener env call = true
    · simp only [hc, if_true]
      omega
    · simp only [hc, if_false]
      simp

theorem serve_port_lt (env : Env) (calls : List CommandCall) :
    ∀ globals : ftp_globals, globals.passive_port < 65536 →
      (serve env calls globals).passive_port < 65536 := by
  induction calls with
  | nil => intro globals hg; exact hg
  | cons call more ih =>
    intro globals hg
    have hstep : serve env (call :: more) globals =
        serve env more
          (process_command env call.history globals call.client call.cmd_line).globals := rfl
    rw [hstep]
    apply ih
    rw [process_command_port]
    split_ifs
    · exact Nat.mod_lt _ (by norm_num)
    · exact hg

/-- C24, as the code has it.  The counter starts at 1024 and is advanced, modulo
65536, by exactly those PASV calls to which `net_socket` gives a listening
socket; no other command changes it.  So after any run of commands, handled for
any sessions, in which `n` PASV calls obtained a socket, the counter is
`(1024 + n) mod 65536`; the next PASV call that obtains a socket binds it to
that port and leaves the counter at `(1024 + n + 1) mod 65536`, whether or not
the bind succeeds, and a PASV call whose `net_socket` fails makes no bind and
leaves the counter as it is. -/
theorem passive_port_sequence (env : Env) (calls : List CommandCall) (h : List Effect)
    (client : client_t) (rest : List Char) :
    (serve env calls initial_globals).passive_port =
      (1024 + calls.countP (obtains_listener env)) % 65536 ∧
    (0 ≤ env.ret (h ++ close_passive_socket_calls client) .net_socket →
      (close_passive_socket_calls client ++
        [.net_socket,
          .set_blocking (env.ret (h ++ close_passive_socket_calls client) .net_socket) false,
          .net_bind (env.ret (h ++ close_passive_socket_calls client) .net_socket)
            ((1024 + calls.countP (obtains_listener env)) % 65536)]) <+:
        (ftp_PASV env h (serve env calls initial_globals) client rest).effects ∧
      (ftp_PASV env h (serve env calls initial_globals) client rest).globals.passive_port =
        (1024 + calls.countP (obtains_listener env) + 1) % 65536) ∧
    (env.ret (h ++ close_passive_socket_calls client) .net_socket < 0 →
      (ftp_PASV env h (serve env calls initial_globals) client rest).globals =
        serve env calls initial_globals ∧
      (ftp_PASV env h (serve env calls initial_globals) client rest).effects =
        close_passive_socket_calls client ++
          [.net_socket,
            .reply client.socket 520 "Unable to create listening socket.".toList]) := by
  have hport : (serve env calls initial_globals).passive_port =
      (1024 + calls.countP (obtains_listener env)) % 65536 := by
    have h1 := serve_port env calls initial_globals
    have h2 := serve_port_lt env calls initial_globals (by decide)
    rw [Nat.mod_eq_of_lt h2] at h1
    exact h1
  refine ⟨hport, ?_, ?_⟩
  · intro hs
    obtain ⟨h1, h2⟩ := (ftp_PASV_port env h (serve env calls initial_globals) client rest).2 hs
    rw [hport] at h1 h2
    refine ⟨h2, ?_⟩
    rw [h1]
    omega
  · intro hs
    exact (ftp_PASV_port env h (serve env calls initial_globals) client rest).1 hs

/-- C24, counterexample to the spec's wording.  The first PASV call of the
server gets no socket from `net_socket`; the second PASV call (n = 1) then binds
its listener to port 1024, not to 1025. -/
theorem second_pasv_binds_1024 :
    (process_command flaky_env [] initial_globals sample_client "PASV".toList).effects =
      [.net_socket, .reply 3 520 "Unable to create listening socket.".toList] ∧
    (process_command flaky_env
      (process_command flaky_env [] initial_globals sample_client "PASV".toList).effects
      (process_command flaky_env [] initial_globals sample_client "PASV".toList).globals
      (process_command flaky_env [] initial_globals sample_client "PASV".toList).client
      "PASV".toList).effects =
      [.net_socket, .set_blocking 7 false, .net_bind 7 1024, .net_listen 7 1,
        .reply 3 227 "Entering Passive Mode (0,0,0,0,4,0).".toList] := by
  decide

theorem passive_port_sequence_witness :
    (serve sample_env [sample_pasv_call, sample_pasv_call] initial_globals).passive_port = 1026 ∧
    [.net_socket, .set_blocking 0 false, .net_bind 0 1026] <+:
      (ftp_PASV sample_env [] (serve sample_env [sample_pasv_call, sample_pasv_call]
        initial_globals) sample_client []).effects :=
  ⟨(passive_port_sequence sample_env [sample_pasv_call, sample_pasv_call] [] sample_client
      []).1.trans (by decide),
    ((passive_port_sequence sample_env [sample_pasv_call, sample_pasv_call] [] sample_client
      []).2.1 (by decide)).1⟩

/-! ## Invariants of the sessions and of the session table -/

theorem handler_frame_invariant (globals : ftp_globals) (client : client_t) (o : Outcome)
    (hframe : handler_frame globals client o) (hinv : data_binding_invariant client) :
    data_binding_invariant o.client := by
  obtain ⟨-, -, hdata⟩ := hframe
  unfold data_binding_invariant at hinv ⊢
  rcases hdata with ⟨h1, h2, h3⟩ | ⟨h1, h2, h3⟩
  · rw [h1, h2, h3]; exact hinv
  · exact ⟨⟨fun _ => h2, fun _ => h1⟩, fun _ => h2⟩

theorem dispatch_lines_frame (env : Env) (h : List Effect) :
    ∀ (fuel : Nat) (s : LineState),
      (dispatch_lines env h fuel s).globals.num_clients = s.globals.num_clients ∧
      (data_binding_invariant s.client →
        data_binding_invariant (dispatch_lines env h fuel s).client) := by
  intro fuel
  induction fuel with
  | zero => intro s; exact ⟨rfl, id⟩
  | succ fuel ih =>
    intro s
    unfold dispatch_lines
    split
    · exact ⟨rfl, id⟩
    · next line rest _ =>
      have hframe := process_command_frame env (h ++ s.effects) s.globals s.client line
      by_cases h1 : s.client.data_callback.isSome = true
      · rw [if_pos h1]; exact ⟨rfl, id⟩
      · rw [if_neg h1]
        by_cases h2 : LF ∈ line
        · rw [if_pos h2]; exact ⟨rfl, id⟩
        · rw [if_neg h2]
          by_cases h3 : line ≠ []
          · rw [if_pos h3]
            dsimp only
            by_cases h4 : (process_command env (h ++ s.effects) s.globals s.client line).result < 0
            · rw [if_pos h4]
              exact ⟨hframe.1, handler_frame_invariant _ _ _ hframe⟩
            · rw [if_neg h4]
              obtain ⟨e1, e2⟩ := ih
                { s with
                  client := (process_command env (h ++ s.effects) s.globals s.client line).client
                  globals :=
                    (process_command env (h ++ s.effects) s.globals s.client line).globals
                  effects := s.effects ++
                    (process_command env (h ++ s.effects) s.globals s.client line).effects
                  next := rest, processed := true }
              exact ⟨e1.trans hframe.1, fun hi => e2 (handler_frame_invariant _ _ _ hframe hi)⟩
          · rw [if_neg h3]
            exact ih { s with next := rest, processed := true }

theorem cleanup_client_frame (globals : ftp_globals) (client origin : client_t)
    (pre : List Effect) (g0 : ftp_globals) (hn : globals.num_clients = g0.num_clients) :
    poll_frame g0 origin (cleanup_client globals client pre) :=
  Or.inl ⟨rfl, by simp [cleanup_client, hn]⟩

theorem loop_guard_frame (globals : ftp_globals) (client : client_t) (pre : List Effect)
    (body : Poll) (hbody : poll_frame globals client body) :
    poll_frame globals client (loop_guard globals client pre body) := by
  unfold loop_guard
  split_ifs
  · exact Or.inr ⟨client, rfl, rfl, id⟩
  · exact hbody
  · exact cleanup_client_frame _ _ _ _ _ rfl

theorem poll_frame_trans (g0 g1 : ftp_globals) (c0 c1 : client_t) (p : Poll)
    (hn : g1.num_clients = g0.num_clients)
    (hinv : data_binding_invariant c0 → data_binding_invariant c1)
    (hp : poll_frame g1 c1 p) : poll_frame g0 c0 p := by
  rcases hp with ⟨h1, h2⟩ | ⟨session, h1, h2, h3⟩
  · exact Or.inl ⟨h1, by rw [h2, hn]⟩
  · exact Or.inr ⟨session, h1, h2.trans hn, fun hi => h3 (hinv hi)⟩

theorem control_loop_frame (env : Env) (h : List Effect) :
    ∀ (reads : List NetRead) (globals : ftp_globals) (client : client_t) (pre : List Effect),
      poll_frame globals client (control_loop env h reads globals client pre) := by
  intro reads
  induction reads with
  | nil =>
    intro globals client pre
    unfold control_loop
    exact loop_guard_frame _ _ _ _ (Or.inr ⟨client, rfl, rfl, id⟩)
  | cons r rest ih =>
    intro globals client pre
    cases r with
    | failed code =>
      unfold control_loop
      apply loop_guard_frame
      split_ifs
      · exact cleanup_client_frame _ _ _ _ _ rfl
      · exact Or.inr ⟨client, rfl, rfl, id⟩
    | received data =>
      unfold control_loop
      apply loop_guard_frame
      dsimp only
      by_cases h1 : data.take ((FTP_BUFFER_SIZE : Int) - 1 - client.offset).toNat = []
      · rw [if_pos h1]; exact cleanup_client_frame _ _ _ _ _ rfl
      · rw [if_neg h1]
        by_cases h2 : NUL ∈ data.take ((FTP_BUFFER_SIZE : Int) - 1 - client.offset).toNat
        · rw [if_pos h2]; exact cleanup_client_frame _ _ _ _ _ rfl
        · rw [if_neg h2]
          obtain ⟨e1, e2⟩ := dispatch_lines_frame env h
            (fill_buffer client
              (data.take ((FTP_BUFFER_SIZE : Int) - 1 - client.offset).toNat)).buf.length
            { client := fill_buffer client
                (data.take ((FTP_BUFFER_SIZE : Int) - 1 - client.offset).toNat)
              globals := globals
              effects := pre ++
                [.net_read client.socket ((FTP_BUFFER_SIZE : Int) - 1 - client.offset)]
              next := (fill_buffer client
                (data.take ((FTP_BUFFER_SIZE : Int) - 1 - client.offset).toNat)).buf
              processed := false, closing := false }
          generalize dispatch_lines env h _ _ = s at e1 e2 ⊢
          dsimp only at e1 e2
          by_cases h3 : s.closing = true
          · rw [if_pos h3]; exact cleanup_client_frame _ _ _ _ _ e1
          · rw [if_neg h3]
            refine poll_frame_trans globals s.globals client _ _ e1 ?_ (ih _ _ _)
            intro hi
            have hs := e2 hi
            by_cases h4 : s.processed = true
            · rw [if_pos h4]; exact hs
            · rw [if_neg h4]; exact hs

theorem process_control_events_frame (env : Env) (h : List Effect) (globals : ftp_globals)
    (client : client_t) (reads : List NetRead) :
    poll_frame globals client (process_control_events env h globals client reads) :=
  control_loop_frame env h reads globals client []

theorem await_data_connection_invariant (env : Env) (h : List Effect) (client : client_t)
    (hbound : client.data_callback.isSome = true) (hinv : data_binding_invariant client) :
    data_binding_invariant (await_data_connection env h client).1 := by
  unfold data_binding_invariant at hinv ⊢
  obtain ⟨h1, h2⟩ := hinv
  have hsock := h1.2 hbound
  unfold await_data_connection
  dsimp only
  split_ifs <;> simp_all

theorem cleanup_data_resources_invariant (client : client_t) :
    data_binding_invariant (cleanup_data_resources client) := by
  unfold data_binding_invariant cleanup_data_resources
  simp

theorem finish_data_events_frame (env : Env) (h : List Effect) (globals : ftp_globals)
    (client : client_t) (result : Int) (pre : List Effect) :
    poll_frame globals client (finish_data_events env h globals client result pre) := by
  unfold finish_data_events
  dsimp only
  split_ifs
  all_goals first
    | exact cleanup_client_frame _ _ _ _ _ rfl
    | exact Or.inr ⟨_, rfl, rfl, fun _ => cleanup_data_resources_invariant client⟩
    | exact Or.inr ⟨client, rfl, rfl, id⟩

theorem process_data_events_frame (env : Env) (h : List Effect) (globals : ftp_globals)
    (client : client_t) (hbound : client.data_callback.isSome = true) :
    poll_frame globals client (process_data_events env h globals client) := by
  unfold process_data_events
  split_ifs
  · dsimp only
    exact poll_frame_trans globals globals client _ _ rfl
      (await_data_connection_invariant env h client hbound)
      (finish_data_events_frame _ _ _ _ _ _)
  · split
    · exact Or.inr ⟨client, rfl, rfl, id⟩
    · exact finish_data_events_frame _ _ _ _ _ _

theorem poll_client_frame (env : Env) (h : List Effect) (globals : ftp_globals)
    (client : client_t) (reads : List NetRead) :
    poll_frame globals client (poll_client env h globals client reads) := by
  unfold poll_client
  split_ifs with hbound
  · exact process_data_events_frame env h globals client hbound
  · exact process_control_events_frame env h globals client reads

theorem occupied_le_length (clients : List (Option client_t)) :
    occupied clients ≤ clients.length :=
  List.countP_le_length _

theorem store_client_length (clients : List (Option client_t)) (client : client_t) :
    (store_client clients client).length = clients.length := by
  induction clients with
  | nil => rfl
  | cons slot more ih =>
    cases slot with
    | none => simp [store_client]
    | some other => simp [store_client, ih]

theorem store_client_occupied (clients : List (Option client_t)) (client : client_t)
    (hfree : occupied clients < clients.length) :
    occupied (store_client clients client) = occupied clients + 1 := by
  induction clients with
  | nil => simp at hfree
  | cons slot more ih =>
    cases slot with
    | none => simp [store_client, occupied]
    | some other =>
      have hfree2 : occupied more < more.length := by
        simp [occupied] at hfree ⊢
        exact hfree
      have := ih hfree2
      simp [store_client, occupied] at this ⊢
      exact this

theorem store_client_mem (clients : List (Option client_t)) (client session : client_t)
    (hm : some session ∈ store_client clients client) :
    session = client ∨ some session ∈ clients := by
  induction clients with
  | nil => simp [store_client] at hm
  | cons slot more ih =>
    cases slot with
    | none =>
      simp only [store_client, List.mem_cons, Option.some.injEq] at hm
      rcases hm with e | e
      · exact Or.inl e
      · exact Or.inr (List.mem_cons_of_mem _ e)
    | some other =>
      simp only [store_client, List.mem_cons, Option.some.injEq] at hm
      rcases hm with e | e
      · exact Or.inr (by simp [e])
      · rcases ih e with e2 | e2
        · exact Or.inl e2
        · exact Or.inr (List.mem_cons_of_mem _ e2)

theorem accept_client_invariant (peer : Int) (client_address : Nat × Nat) :
    data_binding_invariant (accept_client peer client_address) := by
  unfold data_binding_invariant accept_client
  simp

theorem process_accept_events_invariant (env : Env) (h : List Effect) (listener : Int) :
    ∀ (accepts : List (Int × (Nat × Nat))) (server : server_t) (pre : List Effect),
      server_invariant server →
      server_invariant (process_accept_events env h listener accepts server pre).1 := by
  intro accepts
  induction accepts with
  | nil => intro server pre hinv; exact hinv
  | cons a more ih =>
    intro server pre hinv
    obtain ⟨peer, client_address⟩ := a
    unfold process_accept_events
    dsimp only
    by_cases h1 : peer = -env.EAGAIN
    · rw [if_pos h1]; exact hinv
    · rw [if_neg h1]
      by_cases h2 : peer < 0
      · rw [if_pos h2]; exact hinv
      · rw [if_neg h2]
        by_cases h3 : server.globals.num_clients = MAX_CLIENTS
        · rw [if_pos h3]; exact hinv
        · rw [if_neg h3]
          split_ifs
          · exact ih _ _ hinv
          · apply ih
            obtain ⟨hlen, hnum, hall⟩ := hinv
            have hle := occupied_le_length server.clients
            have hfree : occupied server.clients < server.clients.length := by
              rw [hnum, ← hlen] at h3
              omega
            refine ⟨?_, ?_, ?_⟩
            · rw [store_client_length]; exact hlen
            · dsimp only
              rw [store_client_occupied _ _ hfree, hnum]
              have : occupied server.clients < 5 := by
                have e : MAX_CLIENTS = 5 := rfl
                omega
              omega
            · intro session hm
              rcases store_client_mem _ _ _ hm with e | e
              · rw [e]; exact accept_client_invariant _ _
              · exact hall session e

theorem poll_clients_invariant (env : Env) (h : List Effect) (reads : Nat → List NetRead) :
    ∀ (clients : List (Option client_t)) (index : Nat) (globals : ftp_globals)
      (pre : List Effect) (k : Nat),
      globals.num_clients = k + occupied clients → globals.num_clients ≤ 255 →
      (∀ client, some client ∈ clients → data_binding_invariant client) →
      (poll_clients env h reads index clients globals pre).1.length = clients.length ∧
      (poll_clients env h reads index clients globals pre).2.1.num_clients =
        k + occupied (poll_clients env h reads index clients globals pre).1 ∧
      (∀ client, some client ∈ (poll_clients env h reads index clients globals pre).1 →
        data_binding_invariant client) := by
  intro clients
  induction clients with
  | nil =>
    intro index globals pre k hnum _ _
    exact ⟨rfl, hnum, fun c hc => by simp [poll_clients] at hc⟩
  | cons slot more ih =>
    intro index globals pre k hnum hle hall
    cases slot with
    | none =>
      have hnum2 : globals.num_clients = k + occupied more := by
        simpa [occupied] using hnum
      obtain ⟨e1, e2, e3⟩ := ih (index + 1) globals pre k hnum2 hle
        (fun c hc => hall c (List.mem_cons_of_mem _ hc))
      unfold poll_clients
      dsimp only
      refine ⟨by simp [e1], ?_, ?_⟩
      · rw [e2]; simp [occupied]
      · intro c hc
        simp only [List.mem_cons] at hc
        rcases hc with hc | hc
        · cases hc
        · exact e3 c hc
    | some client =>
      have hnum2 : globals.num_clients = k + 1 + occupied more := by
        simp [occupied] at hnum ⊢
        omega
      have hframe := poll_client_frame env (h ++ pre) globals client (reads index)
      unfold poll_clients
      dsimp only
      generalize poll_client env (h ++ pre) globals client (reads index) = p at hframe ⊢
      rcases hframe with ⟨hp1, hp2⟩ | ⟨session, hp1, hp2, hp3⟩
      · have hnum3 : p.globals.num_clients = k + occupied more := by
          rw [hp2, hnum2]; omega
        obtain ⟨e1, e2, e3⟩ := ih (index + 1) p.globals (pre ++ p.effects) k hnum3
          (by omega) (fun c hc => hall c (List.mem_cons_of_mem _ hc))
        refine ⟨by simp [e1], ?_, ?_⟩
        · rw [e2, hp1]; simp [occupied]
        · intro c hc
          rw [hp1] at hc
          simp only [List.mem_cons] at hc
          rcases hc with hc | hc
          · cases hc
          · exact e3 c hc
      · have hnum3 : p.globals.num_clients = k + 1 + occupied more := by
          rw [hp2, hnum2]
        obtain ⟨e1, e2, e3⟩ := ih (index + 1) p.globals (pre ++ p.effects) (k + 1) hnum3
          (by omega) (fun c hc => hall c (List.mem_cons_of_mem _ hc))
        refine ⟨by simp [e1], ?_, ?_⟩
        · rw [e2, hp1]; simp [occupied]; omega
        · intro c hc
          rw [hp1] at hc
          simp only [List.mem_cons, Option.some.injEq] at hc
          rcases hc with hc | hc
          · rw [hc]; exact hp3 (hall client (by simp))
          · exact e3 c hc

theorem cleanup_all_invariant :
    ∀ (clients : List (Option client_t)) (globals : ftp_globals) (pre : List Effect) (k : Nat),
      globals.num_clients = k + occupied clients → globals.num_clients ≤ 255 →
      (cleanup_all clients globals pre).1.length = clients.length ∧
      (cleanup_all clients globals pre).2.1.num_clients =
        k + occupied (cleanup_all clients globals pre).1 ∧
      (∀ client, some client ∉ (cleanup_all clients globals pre).1) := by
  intro clients
  induction clients with
  | nil =>
    intro globals pre k hnum _
    exact ⟨rfl, hnum, fun c hc => by simp [cleanup_all] at hc⟩
  | cons slot more ih =>
    intro globals pre k hnum hle
    cases slot with
    | none =>
      have hnum2 : globals.num_clients = k + occupied more := by
        simpa [occupied] using hnum
      obtain ⟨e1, e2, e3⟩ := ih globals pre k hnum2 hle
      unfold cleanup_all
      dsimp only
      refine ⟨by simp [e1], ?_, ?_⟩
      · rw [e2]; simp [occupied]
      · intro c hc
        simp only [List.mem_cons] at hc
        rcases hc with hc | hc
        · cases hc
        · exact e3 c hc
    | some client =>
      have hnum2 : globals.num_clients = k + 1 + occupied more := by
        simp [occupied] at hnum ⊢
        omega
      unfold cleanup_all
      dsimp only
      have hnum3 : (cleanup_client globals client
          (pre ++ [.reply client.socket 421
            "Service not available, closing control connection.".toList])).globals.num_clients
          = k + occupied more := by
        simp only [cleanup_client]
        omega
      obtain ⟨e1, e2, e3⟩ := ih _ (cleanup_client globals client
          (pre ++ [.reply client.socket 421
            "Service not available, closing control connection.".toList])).effects k hnum3
        (by omega)
      refine ⟨by rw [List.length_cons, e1, List.length_cons], ?_, ?_⟩
      · rw [e2]; simp [occupied, cleanup_client]
      · intro c hc
        simp only [List.mem_cons] at hc
        rcases hc with hc | hc
        · simp [cleanup_client] at hc
        · exact e3 c hc

/-- Every reachable server state satisfies `server_invariant`. -/
theorem reachable_invariant (env : Env) (server : server_t) (hr : Reachable env server) :
    server_invariant server := by
  induction hr with
  | initial =>
    refine ⟨rfl, rfl, ?_⟩
    intro client hm
    simp [initial_server, MAX_CLIENTS] at hm
  | password server new_password _ ih => exact ih
  | events server h listener accepts reads _ ih =>
    have ha := process_accept_events_invariant env h listener accepts server [] ih
    obtain ⟨hlen, hnum, hall⟩ := ha
    have hle := occupied_le_length (process_accept_events env h listener accepts server []).1.clients
    obtain ⟨e1, e2, e3⟩ := poll_clients_invariant env h reads
      (process_accept_events env h listener accepts server []).1.clients 0
      (process_accept_events env h listener accepts server []).1.globals
      (process_accept_events env h listener accepts server []).2.1 0
      (by rw [hnum]; simp)
      (by rw [hnum]; have e : MAX_CLIENTS = 5 := rfl; omega) hall
    unfold process_ftp_events
    dsimp only
    exact ⟨e1.trans hlen, by rw [e2]; simp, e3⟩
  | cleanup server _ ih =>
    obtain ⟨hlen, hnum, hall⟩ := ih
    have hle := occupied_le_length server.clients
    obtain ⟨e1, e2, e3⟩ := cleanup_all_invariant server.clients server.globals [] 0
      (by rw [hnum]; simp) (by rw [hnum]; have e : MAX_CLIENTS = 5 := rfl; omega)
    unfold cleanup_ftp
    dsimp only
    exact ⟨e1.trans hlen, by rw [e2]; simp, fun c hc => absurd hc (e3 c)⟩

/-- C21. In every reachable server state at most `MAX_CLIENTS` = 5 slots are
occupied and `num_clients` is the number of occupied slots.  When 5 sessions
exist, a further connection that `net_accept_nonblocking` hands over is closed
with `net_close` and `process_accept_events` returns: no reply is written to
the peer and the server state, with all its sessions, is as before. -/
theorem session_capacity (env : Env) (server : server_t) (hr : Reachable env server) :
    occupied server.clients ≤ MAX_CLIENTS ∧
    MAX_CLIENTS = 5 ∧
    server.globals.num_clients = occupied server.clients ∧
    (occupied server.clients = MAX_CLIENTS →
      ∀ (h : List Effect) (listener peer : Int) (client_address : Nat × Nat)
        (more : List (Int × (Nat × Nat))) (pre : List Effect),
        peer ≠ -env.EAGAIN → ¬ peer < 0 →
        process_accept_events env h listener ((peer, client_address) :: more) server pre =
          (server, pre ++ [.net_accept_nonblocking listener, .net_close peer], true)) := by
  obtain ⟨hlen, hnum, -⟩ := reachable_invariant env server hr
  refine ⟨?_, rfl, hnum, ?_⟩
  · rw [← hlen]; exact occupied_le_length _
  · intro hfull h listener peer client_address more pre h1 h2
    unfold process_accept_events
    dsimp only
    rw [if_neg h1, if_neg h2, if_pos (hnum.trans hfull)]
    simp

theorem session_capacity_witness :
    occupied full_server.clients = 5 ∧
    full_server.globals.num_clients = 5 ∧
    process_accept_events sample_env [] 1 [(15, (0, 0))] full_server [] =
      (full_server, [.net_accept_nonblocking 1, .net_close 15], true) :=
  ⟨by decide,
    (session_capacity sample_env full_server
      (Reachable.events initial_server [] 1 _ _ Reachable.initial)).2.2.1.trans (by decide),
    (session_capacity sample_env full_server
      (Reachable.events initial_server [] 1 _ _ Reachable.initial)).2.2.2 (by decide)
      [] 1 15 (0, 0) [] [] (by decide) (by decide)⟩

/-- C23. Every session of a reachable server state holds a data socket
(`data_socket ≥ 0`) exactly when a transfer strategy is bound, and has the
connected flag set only while one is bound.  From any session state with
this property, every command (`process_command`) and every poll of the session
leads to a state with it;
`prepare_data_connection` either leaves the session as it is or sets the data
socket and the strategy together, with the connected flag cleared, and
`cleanup_data_resources` clears all three together. -/
theorem data_binding_holds (env : Env) (server : server_t) (hr : Reachable env server)
    (client : client_t) (hm : some client ∈ server.clients) :
    data_binding_invariant client ∧
    (∀ (before : client_t) (h : List Effect) (globals : ftp_globals) (cmd_line : List Char),
      data_binding_invariant before →
      data_binding_invariant (process_command env h globals before cmd_line).client) ∧
    (∀ (before : client_t) (h : List Effect) (globals : ftp_globals) (reads : List NetRead)
      (session : client_t), data_binding_invariant before →
      (poll_client env h globals before reads).client = some session →
      data_binding_invariant session) ∧
    (∀ (h pre : List Effect) (globals : ftp_globals) (callback : data_connection_callback)
      (arg : callback_arg) (cleanup : data_connection_cleanup),
      (prepare_data_connection env h globals client pre callback arg cleanup).client = client ∨
      (0 ≤ (prepare_data_connection env h globals client pre callback arg
          cleanup).client.data_socket ∧
        (prepare_data_connection env h globals client pre callback arg
          cleanup).client.data_callback = some callback ∧
        (prepare_data_connection env h globals client pre callback arg
          cleanup).client.data_connection_connected = false)) ∧
    ((cleanup_data_resources client).data_socket = -1 ∧
      (cleanup_data_resources client).data_callback = none ∧
      (cleanup_data_resources client).data_connection_connected = false) := by
  have hinv := (reachable_invariant env server hr).2.2 client hm
  refine ⟨hinv, ?_, ?_, ?_, ⟨rfl, rfl, rfl⟩⟩
  · intro before h globals cmd_line hb
    exact handler_frame_invariant _ _ _ (process_command_frame env h globals before cmd_line) hb
  · intro before h globals reads session hb hs
    rcases poll_client_frame env h globals before reads with ⟨h1, -⟩ | ⟨s2, h1, -, h3⟩
    · rw [h1] at hs; cases hs
    · rw [h1] at hs
      cases hs
      exact h3 hb
  · intro h pre globals callback arg cleanup
    unfold prepare_data_connection
    dsimp only
    split_ifs with h1 h2 h3 h4
    · exact Or.inr ⟨h2, rfl, rfl⟩
    · exact Or.inl rfl
    · exact Or.inl rfl
    · exact Or.inr ⟨by simpa using h3, rfl, rfl⟩
    · exact Or.inl rfl

theorem data_binding_holds_witness :
    some bound_session ∈ busy_server.clients ∧ data_binding_invariant bound_session :=
  ⟨by decide,
    (data_binding_holds sample_env busy_server
      (Reachable.events _ [] 1 _ _ (Reachable.events initial_server [] 1 _ _ Reachable.initial))
      bound_session (by decide)).1⟩

/-! ## Order of dispatch and the bytes kept -/

/-- The packet `NOOP`, `RETR f`, `QUIT` on the sample session: `NOOP` and
`RETR f` are dispatched in this order, `RETR` binds the download, and the
call returns without a second read, with `QUIT` and its CRLF kept in the
buffer. -/
theorem pipelined_commands_stop_at_transfer :
    process_control_events sample_env [] (sample_globals none) sample_client
        [.received pipelined_packet, .received "NOOP".toList] =
      { client := some
          { sample_client with
            buf := "QUIT".toList ++ CRLF, offset := 6
            data_socket := 0, data_callback := some .send_from_file
            data_connection_callback_arg := some (.file 7)
            data_connection_cleanup := some .fclose
            data_connection_timer := 30000 }
        globals := sample_globals none
        effects := [.net_read 3 1023, .reply 3 200 "NOOP command successful.".toList,
          .fopen "carda:/f".toList "rb".toList, .reply 3 150 "Transferring data.".toList,
          .net_socket, .set_blocking 0 false, .net_bind 0 20] } := by
  decide

/-! ## The working directory of a session -/

/-- What the hypothesis `chdir_fits` leaves out.  `vrt_chdir` copies the normal
form and appends a slash without a test of the length: with `PATH_MAX` = 16 and
a directory `/carda/abcdefgh` (a normal form of `PATH_MAX - 1` characters, which
both length guards admit), it stores 16 characters, which with the terminator
are 17 bytes in an array of 16. -/
theorem vrt_chdir_stores_past_the_array :
    vrt_chdir 16 VIRTUAL_PARTITIONS 16384
        (fun _ => .ok { st_mode := 16384, st_size := 0 }) ['/'] "/carda/abcdefgh".toList =
      (.ok (), "/carda/abcdefgh/".toList) ∧
    "/carda/abcdefgh/".toList.length + 1 = 16 + 1 := by
  decide

end Ftpii
